import Mathlib

/-!
# Black and white display driver (`bw_disp.c`): shallow embedding

The C translation unit `components/tg_esp_bw_display/bw_disp.c` is embedded
function by function.  Conventions:

* `uint8_t` / `uint16_t` values are natural numbers; every place where C
  narrows a value to 8 or 16 bits is written with `u8` / `u16`.
* A failed `assert` and a memory access outside an allocated object end the
  C program; they are the two constructors of `fault`, and every operation
  returns `Except fault _`.
* `inst->pages[p]` is `&inst->buffer[p * width]` for `p < page_num` (set once
  in `bw_disp_init`), so `inst->pages[p][x]` is byte `p * width + x` of the
  buffer; `pages_update` is the read-modify-write of that byte.
* The serial transport (`disp_proto_*`) is an external collaborator: its
  results come from a `transport` function of the call history, and every
  call is appended to `transport_log`.
-/

namespace BwDisp

/-! ## Basic types -/

/-- Status code `esp_err_t`. -/
abbrev esp_err_t := Int

/-- The success status. -/
def ESP_OK : esp_err_t := 0

/-- The status `ESP_ERR_INVALID_ARG` (0x102). -/
def ESP_ERR_INVALID_ARG : esp_err_t := 0x102

/-- The reserved invalid handle. -/
def INVALID_HANDLE : Nat := 0

/-- Maximum number of display instances. -/
def MAX_DISP_INST_NUM : Nat := 128

/-- Maximum number of pages. -/
def MAX_PAGE_NUM : Nat := 8

/-- The only display type of `bw_disp_type_t`. -/
def BWD_SH1106_128X64 : Nat := 0

/-- Ways in which the C program stops instead of returning. -/
inductive fault where
  | assertion
  | out_of_bounds
  deriving DecidableEq, Repr

/-- Colour of a pixel. -/
inductive bw_disp_clr_t where
  | BWDC_BLACK
  | BWDC_WHITE
  deriving DecidableEq, Repr

/-- Image draw mode. -/
inductive bw_disp_img_draw_mode_t where
  | BWDM_OVERRIDE
  | BWDM_ADD_WHITE
  | BWDM_ADD_BLACK
  deriving DecidableEq, Repr

open bw_disp_clr_t bw_disp_img_draw_mode_t

/-- Conversion of a C `int` to `uint8_t`. -/
def u8 (i : Int) : Nat := (i % 256).toNat

/-- Conversion of a C `int` to `uint16_t`. -/
def u16 (i : Int) : Nat := (i % 65536).toNat

/-- Bitwise complement of a byte, `(uint8_t) ~m`. -/
def not8 (m : Nat) : Nat := 255 ^^^ (m % 256)

/-- Rectangle `bwd_rect_t`. -/
structure bwd_rect_t where
  x : Nat
  y : Nat
  width : Nat
  height : Nat
  deriving DecidableEq, Repr

/-- Display interface `bw_disp_if_t`.  The function pointer `set_page_col`
is represented by the command bytes it passes to `disp_proto_write_commands`. -/
structure bw_disp_if_t where
  width : Nat
  height : Nat
  page_num : Nat
  first_col : Nat
  max_contrast : Nat
  init_commands : List Nat
  close_commands : List Nat
  set_page_col : Nat → Nat → List Nat

/-- Image `bw_image_t`. -/
structure bw_image_t where
  width : Nat
  height : Nat
  image : List Nat
  deriving DecidableEq, Repr

/-- Display instance `bw_disp_t`. -/
structure bw_disp_t where
  type : Nat
  handle : Nat
  comm_handle : Nat
  disp_if : bw_disp_if_t
  page_num : Nat
  dirty_rect : bwd_rect_t
  buffer_size : Nat
  buffer : List Nat

/-- One call made on the transport. -/
inductive transport_call where
  | write_commands (handle : Nat) (commands : List Nat)
  | write_data (handle : Nat) (data : List Nat)
  | close (handle : Nat)
  deriving DecidableEq, Repr

/-- The transport's answers: a function of the calls made so far and of the
current call. -/
abbrev transport := List transport_call → transport_call → esp_err_t

/-- The file-scope variables of `bw_disp.c`.  The dynamic array
`s_bw_disp_instances` together with its element count `s_bw_disp_inst_num`
is the list `s_bw_disp_instances`; a `NULL` slot is `none`. -/
structure bw_disp_state where
  s_bw_disp_inst_free_num : Nat
  s_bw_disp_instances : List (Option bw_disp_t)
  transport_log : List transport_call

/-- Number of slots, `s_bw_disp_inst_num`. -/
def bw_disp_state.s_bw_disp_inst_num (st : bw_disp_state) : Nat :=
  st.s_bw_disp_instances.length

/-- The state before the first call: no slot, nothing freed, nothing sent. -/
def bw_disp_state_initial : bw_disp_state :=
  { s_bw_disp_inst_free_num := 0, s_bw_disp_instances := [], transport_log := [] }

/-! ## The SH1106 descriptor (`bw_disp_sh1106.c`) -/

/-- Command bytes of `bw_disp_sh1106_init_commands`. -/
def bw_disp_sh1106_init_commands : List Nat :=
  [0xAD, 0x0B, 0xA1, 0xC8, 0xAF, 0x00, 0x10, 0xB0, 0x40 + 0, 0xD3, 0x00]

/-- Command bytes of `bw_disp_sh1106_close_commands`. -/
def bw_disp_sh1106_close_commands : List Nat := [0xAE, 0xAD, 0x0A]

/-- Command bytes built by `bw_disp_sh1106_set_page_col`. -/
def bw_disp_sh1106_set_page_col (page col : Nat) : List Nat :=
  [u8 (0xB0 + (page : Int)), u8 (0x00 + ((col &&& 0x0F : Nat) : Int)),
   u8 (0x10 + (((col >>> 4) &&& 0x0F : Nat) : Int))]

/-- Descriptor `bw_disp_sh1106_128x64_if`. -/
def bw_disp_sh1106_128x64_if : bw_disp_if_t :=
  { width := 128, height := 64, page_num := 8, first_col := 2, max_contrast := 0xFF,
    init_commands := bw_disp_sh1106_init_commands,
    close_commands := bw_disp_sh1106_close_commands,
    set_page_col := bw_disp_sh1106_set_page_col }

/-! ## Transport and memory primitives -/

/-- Perform one transport call: ask the transport for the status and record
the call. -/
def transport_do (tr : transport) (st : bw_disp_state) (call : transport_call) :
    esp_err_t × bw_disp_state :=
  (tr st.transport_log call, { st with transport_log := st.transport_log ++ [call] })

/-- Read-modify-write of `inst->pages[page][x]`. -/
def pages_update (inst : bw_disp_t) (page x : Nat) (f : Nat → Nat) : Except fault bw_disp_t :=
  if page < inst.page_num ∧ page * inst.disp_if.width + x < inst.buffer.length then
    pure { inst with
      buffer := inst.buffer.set (page * inst.disp_if.width + x)
        (f (inst.buffer.getD (page * inst.disp_if.width + x) 0)) }
  else throw fault.out_of_bounds

/-- Read of `inst->pages[page][x]`. -/
def pages_read (inst : bw_disp_t) (page x : Nat) : Except fault Nat :=
  if page < inst.page_num ∧ page * inst.disp_if.width + x < inst.buffer.length then
    pure (inst.buffer.getD (page * inst.disp_if.width + x) 0)
  else throw fault.out_of_bounds

/-- Write of `inst->pages[page][x]`. -/
def pages_write (inst : bw_disp_t) (page x v : Nat) : Except fault bw_disp_t :=
  if page < inst.page_num ∧ page * inst.disp_if.width + x < inst.buffer.length then
    pure { inst with buffer := inst.buffer.set (page * inst.disp_if.width + x) v }
  else throw fault.out_of_bounds

/-- Read of `img->image[idx]`. -/
def image_read (img : bw_image_t) (idx : Nat) : Except fault Nat :=
  if idx < img.image.length then pure (img.image.getD idx 0) else throw fault.out_of_bounds

/-- Store the (mutated) instance back in its slot: in C the instance is
mutated in place through the pointer held in slot `handle - 1`. -/
def store_instance (st : bw_disp_state) (handle : Nat) (inst : bw_disp_t) : bw_disp_state :=
  { st with s_bw_disp_instances := st.s_bw_disp_instances.set (handle - 1) (some inst) }

/-! ## Dirty rectangle -/

/-- Function `bw_disp_clear_dirty_rect`. -/
def bw_disp_clear_dirty_rect (inst : bw_disp_t) : bw_disp_t :=
  { inst with dirty_rect := { x := 0, y := 0, width := 0, height := 0 } }

/-- Function `bw_disp_is_dirty`. -/
def bw_disp_is_dirty (inst : bw_disp_t) : Bool :=
  decide (inst.dirty_rect.width > 0) && decide (inst.dirty_rect.height > 0)

/-- Function `bw_disp_set_dirty_rect`.  The sums and `MIN`/`MAX` are computed
in `int`; `x0`, `y0`, `x1`, `y1` and the stored fields are `uint16_t`. -/
def bw_disp_set_dirty_rect (inst : bw_disp_t) (x y width height : Nat) :
    Except fault bw_disp_t :=
  if ¬ (width > 0 ∧ height > 0) then throw fault.assertion
  else if ¬ bw_disp_is_dirty inst then
    pure { inst with dirty_rect := { x := x, y := y, width := width, height := height } }
  else
    let x0 := u16 (min (x : Int) inst.dirty_rect.x)
    let y0 := u16 (min (y : Int) inst.dirty_rect.y)
    let x1 := u16 (max ((x : Int) + width - 1)
      ((inst.dirty_rect.x : Int) + inst.dirty_rect.width - 1))
    let y1 := u16 (max ((y : Int) + height - 1)
      ((inst.dirty_rect.y : Int) + inst.dirty_rect.height - 1))
    pure { inst with
      dirty_rect := { x := x0, y := y0,
                      width := u16 ((x1 : Int) - x0 + 1),
                      height := u16 ((y1 : Int) - y0 + 1) } }

/-! ## Instance pool: init, lookup, close -/

/-- Results of the two allocations made by `bw_disp_init`. -/
structure alloc_env where
  realloc_ok : Bool
  calloc_ok : Bool

/-- The scan `for (i = 0; i < s_bw_disp_inst_num; i++) if (instances[i] == NULL)`
of `bw_disp_init`: index of the first free slot at or after `i`, if any. -/
def find_free_slot : List (Option bw_disp_t) → Nat → Option Nat
  | [], _ => none
  | none :: _, i => some i
  | some _ :: rest, i => find_free_slot rest (i + 1)

/-- Function `bw_disp_init`.  Returns the handle (0 is `INVALID_HANDLE`). -/
def bw_disp_init (al : alloc_env) (tr : transport) (st : bw_disp_state)
    (comm_handle disp_type : Nat) : Except fault (Nat × bw_disp_state) :=
  if comm_handle = INVALID_HANDLE then pure (INVALID_HANDLE, st)
  else
    match (if disp_type = BWD_SH1106_128X64 then some bw_disp_sh1106_128x64_if else none) with
    | none => pure (INVALID_HANDLE, st)
    | some disp_if =>
      let width := disp_if.width
      let height := disp_if.height
      let page_num := u8 (if disp_if.page_num ≠ 0 then disp_if.page_num else height / 8 : Nat)
      if ¬ page_num ≤ MAX_PAGE_NUM then throw fault.assertion
      else if ¬ page_num * width ≤ 0xFFFF then throw fault.assertion
      else
        let buffer_size := u16 (page_num * width : Nat)
        -- slot selection: `none` is an early `return INVALID_HANDLE`,
        -- `some (inst_no, st1)` carries `inst_no` (`none` for -1)
        let sel : Option (Option Nat × bw_disp_state) :=
          if st.s_bw_disp_inst_free_num = 0 then
            if st.s_bw_disp_inst_num ≥ MAX_DISP_INST_NUM then none
            else if ¬ al.realloc_ok then none
            else some (some st.s_bw_disp_inst_num,
              { st with s_bw_disp_instances := st.s_bw_disp_instances ++ [none] })
          else some (find_free_slot st.s_bw_disp_instances 0, st)
        match sel with
        | none => pure (INVALID_HANDLE, st)
        | some (none, _) => throw fault.assertion
        | some (some inst_no, st1) =>
          if ¬ inst_no < st1.s_bw_disp_inst_num then throw fault.assertion
          else if ¬ al.calloc_ok then pure (INVALID_HANDLE, st1)
          else
            let inst : bw_disp_t :=
              { type := disp_type, handle := u16 (inst_no + 1 : Nat), comm_handle := comm_handle,
                disp_if := disp_if, page_num := page_num,
                dirty_rect := { x := 0, y := 0, width := 0, height := 0 },
                buffer_size := buffer_size, buffer := List.replicate buffer_size 0 }
            let st2 : bw_disp_state :=
              { st1 with s_bw_disp_instances := st1.s_bw_disp_instances.set inst_no (some inst) }
            let r := transport_do tr st2
              (transport_call.write_commands inst.comm_handle inst.disp_if.init_commands)
            if r.1 ≠ ESP_OK then
              pure (INVALID_HANDLE,
                { r.2 with
                  s_bw_disp_instances := r.2.s_bw_disp_instances.set inst_no none,
                  s_bw_disp_inst_free_num := r.2.s_bw_disp_inst_free_num + 1 })
            else do
              let inst1 ← bw_disp_set_dirty_rect inst 0 0 inst.disp_if.width inst.disp_if.height
              pure (inst1.handle,
                { r.2 with
                  s_bw_disp_instances := r.2.s_bw_disp_instances.set inst_no (some inst1) })

/-- Function `bw_disp_get_instance`; `none` is `NULL`. -/
def bw_disp_get_instance (st : bw_disp_state) (handle : Nat) : Option bw_disp_t :=
  if handle = 0 ∨ handle > st.s_bw_disp_inst_num then none
  else (st.s_bw_disp_instances.getD (handle - 1) none)

/-- Function `bw_disp_close`. -/
def bw_disp_close (tr : transport) (st : bw_disp_state) (handle : Nat) :
    Except fault (esp_err_t × bw_disp_state) :=
  match bw_disp_get_instance st handle with
  | none => pure (ESP_ERR_INVALID_ARG, st)
  | some inst =>
    let r := transport_do tr st
      (transport_call.write_commands inst.comm_handle inst.disp_if.close_commands)
    let r2 := transport_do tr r.2 (transport_call.close inst.comm_handle)
    pure (if r.1 ≠ ESP_OK then r.1 else r2.1,
      { r2.2 with
        s_bw_disp_instances := r2.2.s_bw_disp_instances.set (handle - 1) none,
        s_bw_disp_inst_free_num := r2.2.s_bw_disp_inst_free_num + 1 })

/-! ## Fill, refresh, pixels -/

/-- Function `bw_disp_fill`. -/
def bw_disp_fill (st : bw_disp_state) (handle : Nat) (c : bw_disp_clr_t) :
    Except fault (esp_err_t × bw_disp_state) :=
  match bw_disp_get_instance st handle with
  | none => pure (ESP_ERR_INVALID_ARG, st)
  | some inst =>
    if inst.buffer_size ≤ inst.buffer.length then do
      -- memset of the first buffer_size bytes
      let inst1 : bw_disp_t :=
        { inst with
          buffer := List.replicate inst.buffer_size (if c = BWDC_BLACK then 0x00 else 0xFF)
            ++ inst.buffer.drop inst.buffer_size }
      let inst2 ← bw_disp_set_dirty_rect inst1 0 0 inst.disp_if.width inst.disp_if.height
      pure (ESP_OK, store_instance st handle inst2)
    else throw fault.out_of_bounds

/-- Function `bw_disp_clear`. -/
def bw_disp_clear (st : bw_disp_state) (handle : Nat) :
    Except fault (esp_err_t × bw_disp_state) :=
  bw_disp_fill st handle BWDC_BLACK

/-- The page loop of `bw_disp_refresh`, `n` iterations left; the status is
`ESP_OK` when the loop ran to its end, else the first failure. -/
def refresh_loop (tr : transport) (inst : bw_disp_t) :
    Nat → Nat → bw_disp_state → Except fault (esp_err_t × bw_disp_state)
  | 0, _, st => pure (ESP_OK, st)
  | n + 1, page, st =>
    let r := transport_do tr st
      (transport_call.write_commands inst.comm_handle
        (inst.disp_if.set_page_col (u8 page) (u16 (inst.disp_if.first_col + inst.dirty_rect.x : Nat))))
    if r.1 ≠ ESP_OK then pure (r.1, r.2)
    else
      let start := page * inst.disp_if.width + inst.dirty_rect.x
      if start + inst.dirty_rect.width ≤ inst.buffer.length then
        let r2 := transport_do tr r.2
          (transport_call.write_data inst.comm_handle
            ((inst.buffer.drop start).take inst.dirty_rect.width))
        if r2.1 ≠ ESP_OK then pure (r2.1, r2.2)
        else refresh_loop tr inst n (page + 1) r2.2
      else throw fault.out_of_bounds

/-- Function `bw_disp_refresh`. -/
def bw_disp_refresh (tr : transport) (st : bw_disp_state) (handle : Nat) :
    Except fault (esp_err_t × bw_disp_state) :=
  match bw_disp_get_instance st handle with
  | none => pure (ESP_ERR_INVALID_ARG, st)
  | some inst =>
    if ¬ bw_disp_is_dirty inst then pure (ESP_OK, st)
    else do
      let first_page := u8 (inst.dirty_rect.y >>> 3 : Nat)
      let last_page := u8 ((inst.dirty_rect.y + inst.dirty_rect.height - 1) >>> 3 : Nat)
      let r ← refresh_loop tr inst (last_page + 1 - first_page) first_page st
      if r.1 ≠ ESP_OK then pure r
      else pure (ESP_OK, store_instance r.2 handle (bw_disp_clear_dirty_rect inst))

/-- The C expression `!v` on an `int`. -/
def lnot (v : Nat) : Nat := if v = 0 then 1 else 0

/-- Function `bw_disp_set_pixel`.  The black branch is
`pages[page][x] &= !y_bit` (logical negation), as in the source. -/
def bw_disp_set_pixel (st : bw_disp_state) (handle x y : Nat) (c : bw_disp_clr_t) :
    Except fault (esp_err_t × bw_disp_state) :=
  match bw_disp_get_instance st handle with
  | none => pure (ESP_ERR_INVALID_ARG, st)
  | some inst =>
    if x ≥ inst.disp_if.width ∨ y ≥ inst.disp_if.height then pure (ESP_ERR_INVALID_ARG, st)
    else do
      let page := y >>> 3
      let y_bit := 1 <<< (y &&& 0x07)
      let inst1 ←
        (if c = BWDC_BLACK then pages_update inst page x (fun b => b &&& lnot y_bit)
         else pages_update inst page x (fun b => (b ||| y_bit) % 256))
      let inst2 ← bw_disp_set_dirty_rect inst1 x y 1 1
      pure (ESP_OK, store_instance st handle inst2)

/-- Function `bw_disp_get_pixel`; the colour is `none` when `*c` is not written. -/
def bw_disp_get_pixel (st : bw_disp_state) (handle x y : Nat) :
    Except fault (esp_err_t × Option bw_disp_clr_t) :=
  match bw_disp_get_instance st handle with
  | none => pure (ESP_ERR_INVALID_ARG, none)
  | some inst =>
    if x ≥ inst.disp_if.width ∨ y ≥ inst.disp_if.height then pure (ESP_ERR_INVALID_ARG, none)
    else do
      let page := y >>> 3
      let y_bit := 1 <<< (y &&& 0x07)
      let b ← pages_read inst page x
      pure (ESP_OK, some (if b &&& y_bit ≠ 0 then BWDC_WHITE else BWDC_BLACK))

/-! ## Lines and rectangles -/

/-- The mask loops of `bw_disp_vline`,
`for (int i = s; i <= e; i <<= 1) pix_mask |= i;`, with `n` iterations
allowed; `i` at least 1 and `e` at most 128 leave at most 8 iterations. -/
def mask_or_loop (e : Nat) : Nat → Nat → Nat → Nat
  | 0, _, m => m
  | n + 1, i, m => if i ≤ e then mask_or_loop e n (i <<< 1) (u8 ((m ||| i : Nat) : Int)) else m

/-- The `while (page <= last_page)` loop of `bw_disp_vline`, `n` iterations
left (`n = last_page + 1 - page`). -/
def vline_loop (x last_page y_bit_e : Nat) (c : bw_disp_clr_t) :
    Nat → Nat → Nat → bw_disp_t → Except fault bw_disp_t
  | 0, _, _, inst => pure inst
  | n + 1, page, pix_mask, inst =>
    if page ≤ last_page then do
      let inst1 ←
        (if c = BWDC_WHITE then pages_update inst page x (fun b => (b ||| pix_mask) % 256)
         else pages_update inst page x (fun b => b &&& not8 pix_mask))
      let page1 := page + 1
      let pix_mask1 := if page1 < last_page then 0xFF else mask_or_loop y_bit_e 8 1 0
      vline_loop x last_page y_bit_e c n page1 pix_mask1 inst1
    else pure inst

/-- Function `bw_disp_vline`. -/
def bw_disp_vline (st : bw_disp_state) (handle x y h : Nat) (c : bw_disp_clr_t) :
    Except fault (esp_err_t × bw_disp_state) :=
  match bw_disp_get_instance st handle with
  | none => pure (ESP_ERR_INVALID_ARG, st)
  | some inst =>
    if x ≥ inst.disp_if.width ∨ y ≥ inst.disp_if.height ∨ y + h > inst.disp_if.height then
      pure (ESP_ERR_INVALID_ARG, st)
    else do
      let first_page := y >>> 3
      let y_e := u16 ((y : Int) + h - 1)
      let last_page := y_e >>> 3
      let page := first_page
      let y_bit_s := 1 <<< (y &&& 0x07)
      let y_bit_e := 1 <<< (y_e &&& 0x07)
      let y_bit_e_f := if first_page < last_page then 1 <<< 7 else y_bit_e
      let pix_mask := mask_or_loop y_bit_e_f 8 y_bit_s 0
      let inst1 ← vline_loop x last_page y_bit_e c (last_page + 1 - page) page pix_mask inst
      let inst2 ← bw_disp_set_dirty_rect inst1 x y 1 h
      pure (ESP_OK, store_instance st handle inst2)

/-- The loop `for (int i = 0; i < w; i++, x++) pages[page][x] = f (pages[page][x])`
of `bw_disp_hline`, `n` iterations left; returns the final value of the
`uint16_t` variable `x` as well. -/
def hline_loop (page : Nat) (f : Nat → Nat) : Nat → Nat → bw_disp_t → Except fault (Nat × bw_disp_t)
  | 0, x, inst => pure (x, inst)
  | n + 1, x, inst => do
    let inst1 ← pages_update inst page x f
    hline_loop page f n (u16 ((x : Int) + 1)) inst1

/-- Function `bw_disp_hline`.  The dirty region is marked with the value the
variable `x` has after the loop, as in the source. -/
def bw_disp_hline (st : bw_disp_state) (handle x y w : Nat) (c : bw_disp_clr_t) :
    Except fault (esp_err_t × bw_disp_state) :=
  match bw_disp_get_instance st handle with
  | none => pure (ESP_ERR_INVALID_ARG, st)
  | some inst =>
    if x ≥ inst.disp_if.width ∨ y ≥ inst.disp_if.height ∨ x + w > inst.disp_if.width then
      pure (ESP_ERR_INVALID_ARG, st)
    else do
      let page := y >>> 3
      let y_bit := 1 <<< (y &&& 0x07)
      let r ←
        (if c = BWDC_BLACK then hline_loop page (fun b => b &&& not8 y_bit) w x inst
         else hline_loop page (fun b => (b ||| y_bit) % 256) w x inst)
      let inst2 ← bw_disp_set_dirty_rect r.2 r.1 y w 1
      pure (ESP_OK, store_instance st handle inst2)

/-- Function `bw_disp_rect`. -/
def bw_disp_rect (st : bw_disp_state) (handle x y w h : Nat) (c : bw_disp_clr_t) :
    Except fault (esp_err_t × bw_disp_state) := do
  let r1 ← bw_disp_hline st handle x y w c
  if r1.1 ≠ ESP_OK then pure r1
  else
    let r2 ← bw_disp_vline r1.2 handle x y h c
    if r2.1 ≠ ESP_OK then pure r2
    else
      let r3 ← bw_disp_hline r2.2 handle x (u16 ((y : Int) + h - 1)) w c
      if r3.1 ≠ ESP_OK then pure r3
      else bw_disp_vline r3.2 handle (u16 ((x : Int) + w - 1)) y h c

/-- The loop of `bw_disp_fill_rect`, `n` iterations left. -/
def fill_rect_loop (handle y h : Nat) (c : bw_disp_clr_t) :
    Nat → Nat → bw_disp_state → Except fault (esp_err_t × bw_disp_state)
  | 0, _, st => pure (ESP_OK, st)
  | n + 1, x, st => do
    let r ← bw_disp_vline st handle x y h c
    if r.1 ≠ ESP_OK then pure r
    else fill_rect_loop handle y h c n (u16 ((x : Int) + 1)) r.2

/-- Function `bw_disp_fill_rect`. -/
def bw_disp_fill_rect (st : bw_disp_state) (handle x y w h : Nat) (c : bw_disp_clr_t) :
    Except fault (esp_err_t × bw_disp_state) :=
  fill_rect_loop handle y h c w x st

/-! ## Image compositor -/

/-- The loop `for (int i = 0; i < yo; i++) page_mask |= 1 << i;`. -/
def low_mask_loop (yo : Nat) : Nat :=
  (List.range yo).foldl (fun m i => u8 ((m ||| (1 <<< i) : Nat) : Int)) 0

/-- The loop `for (int i = lyo + 1; i <= 7; i++) last_page_mask |= 1 << i;`. -/
def high_mask_loop (lyo : Nat) : Nat :=
  (List.range' (lyo + 1) (7 - lyo)).foldl (fun m i => u8 ((m ||| (1 <<< i) : Nat) : Int)) 0

/-- The source bits of one destination byte: the part of the column loop's
body of `bw_disp_image_sel_priv` before the `switch (mode)`. -/
def image_src_pixels (img : bw_image_t) (first_img_page last_img_page img_page shrp shlc
    ix i : Nat) (inv_img : Bool) (img_mask : Nat) : Except fault Nat := do
  let imgw := img.width
  let pixels := 0
  let pixels ←
    (if img_page > first_img_page ∧ shrp > 0 then do
      let b ← image_read img ((imgw * (img_page - 1)) + ix + i)
      let ppxs := u8 ((b >>> shrp : Nat) : Int)
      let ppxs := if inv_img then not8 ppxs else ppxs
      pure (pixels ||| (ppxs &&& img_mask))
    else pure pixels)
  if img_page ≤ last_img_page then do
    let b ← image_read img ((imgw * img_page) + ix + i)
    let pxs := u8 ((b <<< shlc : Nat) : Int)
    let pxs := if inv_img then not8 pxs else pxs
    pure (pixels ||| (pxs &&& img_mask))
  else pure pixels

/-- The column loop `for (int i = 0; i < iw; i++)` of
`bw_disp_image_sel_priv`, `n` iterations left. -/
def image_col_loop (img : bw_image_t) (first_img_page last_img_page img_page shrp shlc
    x ix : Nat) (inv_img : Bool) (mode : bw_disp_img_draw_mode_t) (page page_mask : Nat) :
    Nat → Nat → bw_disp_t → Except fault bw_disp_t
  | 0, _, inst => pure inst
  | n + 1, i, inst => do
    let img_mask := not8 page_mask
    let pixels ← image_src_pixels img first_img_page last_img_page img_page shrp shlc
      ix i inv_img img_mask
    let d ← pages_read inst page (x + i)
    let pixels :=
      match mode with
      | BWDM_ADD_WHITE => pixels ||| d
      | BWDM_ADD_BLACK => pixels &&& d
      | BWDM_OVERRIDE => pixels ||| (d &&& page_mask)
    let inst1 ← pages_write inst page (x + i) (u8 (pixels : Int))
    image_col_loop img first_img_page last_img_page img_page shrp shlc x ix inv_img mode
      page page_mask n (i + 1) inst1

/-- The `while (page <= last_page)` loop of `bw_disp_image_sel_priv`, `n`
iterations left (`n = last_page + 1 - page`). -/
def image_page_loop (img : bw_image_t) (first_img_page last_img_page shrp shlc
    x ix iw : Nat) (inv_img : Bool) (mode : bw_disp_img_draw_mode_t)
    (last_page last_page_mask : Nat) :
    Nat → Nat → Nat → Nat → bw_disp_t → Except fault bw_disp_t
  | 0, _, _, _, inst => pure inst
  | n + 1, page, img_page, page_mask, inst =>
    if page ≤ last_page then do
      let inst1 ← image_col_loop img first_img_page last_img_page img_page shrp shlc x ix
        inv_img mode page page_mask iw 0 inst
      let img_page1 := img_page + 1
      let page1 := page + 1
      let page_mask1 := if page1 < last_page then 0 else last_page_mask
      image_page_loop img first_img_page last_img_page shrp shlc x ix iw inv_img mode
        last_page last_page_mask n page1 img_page1 page_mask1 inst1
    else pure inst

/-- Function `bw_disp_image_sel_priv`. -/
def bw_disp_image_sel_priv (inst : bw_disp_t) (x y ix iy iw ih : Nat) (inv_img : Bool)
    (mode : bw_disp_img_draw_mode_t) (img : bw_image_t) :
    Except fault (esp_err_t × bw_disp_t) := do
  let iw := if (iw : Int) > (img.width : Int) - ix then u16 ((img.width : Int) - ix) else iw
  let ih := if (ih : Int) > (img.height : Int) - iy then u16 ((img.height : Int) - iy) else ih
  let iw := if (iw : Int) > (inst.disp_if.width : Int) - x
    then u16 ((inst.disp_if.width : Int) - x) else iw
  let ih := if (ih : Int) > (inst.disp_if.height : Int) - y
    then u16 ((inst.disp_if.height : Int) - y) else ih
  let first_page := y >>> 3
  let ly := u16 ((y : Int) + ih - 1)
  let last_page := ly >>> 3
  let first_img_page := iy >>> 3
  let ily := u16 ((iy : Int) + ih - 1)
  let last_img_page := ily >>> 3
  let yo := y &&& 0x07
  let iyo := iy &&& 0x07
  let lyo := ly &&& 0x07
  let page := first_page
  let img_page := if iyo > yo then first_img_page + 1 else first_img_page
  let page_mask := low_mask_loop yo
  let last_page_mask := if lyo < 7 then high_mask_loop lyo else 0
  let page_mask :=
    if lyo < 7 ∧ first_page = last_page then page_mask ||| last_page_mask else page_mask
  let shrp := if iyo ≥ yo then iyo - yo else iyo + 8 - yo
  let shlc := if shrp > 0 then 8 - shrp else 0
  let inst1 ← image_page_loop img first_img_page last_img_page shrp shlc x ix iw inv_img mode
    last_page last_page_mask (last_page + 1 - page) page img_page page_mask inst
  let inst2 ← bw_disp_set_dirty_rect inst1 x y iw ih
  pure (ESP_OK, inst2)

/-- Function `bw_disp_image_sel_ex`. -/
def bw_disp_image_sel_ex (st : bw_disp_state) (handle x y ix iy iw ih : Nat) (inv_img : Bool)
    (mode : bw_disp_img_draw_mode_t) (img : bw_image_t) :
    Except fault (esp_err_t × bw_disp_state) :=
  match bw_disp_get_instance st handle with
  | none => pure (ESP_ERR_INVALID_ARG, st)
  | some inst =>
    if x ≥ inst.disp_if.width ∨ y ≥ inst.disp_if.height then pure (ESP_ERR_INVALID_ARG, st)
    else if ix ≥ img.width ∨ iy ≥ img.height then pure (ESP_ERR_INVALID_ARG, st)
    else do
      let iw := if (iw : Int) > (img.width : Int) - ix then u16 ((img.width : Int) - ix) else iw
      let ih := if (ih : Int) > (img.height : Int) - iy then u16 ((img.height : Int) - iy) else ih
      let r ← bw_disp_image_sel_priv inst x y ix iy iw ih inv_img mode img
      pure (r.1, store_instance st handle r.2)

/-- Function `bw_disp_image_sel`. -/
def bw_disp_image_sel (st : bw_disp_state) (handle x y ix iy iw ih : Nat) (img : bw_image_t) :
    Except fault (esp_err_t × bw_disp_state) :=
  bw_disp_image_sel_ex st handle x y ix iy iw ih false BWDM_OVERRIDE img

/-- Function `bw_disp_image`. -/
def bw_disp_image (st : bw_disp_state) (handle x y : Nat) (img : bw_image_t) :
    Except fault (esp_err_t × bw_disp_state) :=
  bw_disp_image_sel st handle x y 0 0 0xFFFF 0xFFFF img

/-- Function `bw_disp_get_height`. -/
def bw_disp_get_height (st : bw_disp_state) (handle : Nat) : Nat :=
  match bw_disp_get_instance st handle with
  | none => 0
  | some inst => inst.disp_if.height

/-- Function `bw_disp_get_width`. -/
def bw_disp_get_width (st : bw_disp_state) (handle : Nat) : Nat :=
  match bw_disp_get_instance st handle with
  | none => 0
  | some inst => inst.disp_if.width

/-- The image `img_tennis_ball` of `main.c`. -/
def img_tennis_ball : bw_image_t :=
  { width := 32, height := 32,
    image :=
      [0x00, 0x00, 0x80, 0xC0, 0xE0, 0xB0, 0x98, 0x9C, 0x8C, 0x86, 0x86, 0x03, 0x03, 0x03, 0x03, 0x03,
       0x03, 0x03, 0x03, 0x03, 0x07, 0x06, 0x0E, 0x3E, 0x7C, 0xF8, 0xB8, 0x70, 0xE0, 0xC0, 0x00, 0x00,
       0xF8, 0xFE, 0x0F, 0x07, 0x03, 0x03, 0x03, 0x03, 0x03, 0x03, 0x07, 0x0F, 0x3E, 0xFC, 0xF0, 0x00,
       0x00, 0x00, 0x00, 0x00, 0x00, 0x00, 0x00, 0x00, 0x00, 0x00, 0x03, 0xFF, 0xFC, 0x03, 0xFF, 0xFC,
       0x1F, 0x7F, 0xE0, 0x80, 0x00, 0x00, 0x00, 0x00, 0x00, 0x00, 0x00, 0x00, 0x00, 0x1F, 0x3F, 0x78,
       0xE0, 0xC0, 0xC0, 0xC0, 0xC0, 0xC0, 0xC0, 0xC0, 0xE0, 0x70, 0x38, 0x1F, 0x87, 0xE0, 0xFF, 0x1F,
       0x00, 0x00, 0x01, 0x03, 0x06, 0x0C, 0x18, 0x30, 0x70, 0x60, 0x60, 0xC0, 0xC0, 0xC0, 0xC0, 0xC0,
       0xC0, 0xC0, 0xC0, 0xC1, 0xC1, 0x61, 0x60, 0x70, 0x30, 0x18, 0x1C, 0x0E, 0x07, 0x01, 0x00, 0x00] }

/-! ## Observations used by the statements -/

/-- Layout invariant of an instance, established by `bw_disp_init`: the
dimensions are positive `uint16_t` values, the pages cover the height, and
the buffer holds `page_num * width` bytes. -/
def inst_wf (inst : bw_disp_t) : Prop :=
  0 < inst.disp_if.width ∧ 0 < inst.disp_if.height ∧
  inst.disp_if.width < 65536 ∧ inst.disp_if.height < 65536 ∧
  inst.disp_if.height ≤ 8 * inst.page_num ∧
  inst.buffer.length = inst.page_num * inst.disp_if.width

/-- The bit of pixel `(x, y)` in the framebuffer: bit `y & 7` of byte
`(y >> 3) * width + x`. -/
def pixel_bit (inst : bw_disp_t) (x y : Nat) : Bool :=
  (inst.buffer.getD ((y >>> 3) * inst.disp_if.width + x) 0).testBit (y &&& 0x07)

/-- Colour of a framebuffer bit: set is white, clear is black. -/
def clr_of_bit (b : Bool) : bw_disp_clr_t := if b then BWDC_WHITE else BWDC_BLACK

/-- The fields of an instance that no drawing operation changes. -/
def same_header (a b : bw_disp_t) : Prop :=
  b.type = a.type ∧ b.handle = a.handle ∧ b.comm_handle = a.comm_handle ∧
  b.disp_if = a.disp_if ∧ b.page_num = a.page_num ∧ b.buffer_size = a.buffer_size

/-- The bit of pixel `(x, y)` of an image: images use the framebuffer's byte
layout, bit `y & 7` of byte `(y >> 3) * width + x`. -/
def img_pixel (img : bw_image_t) (x y : Nat) : Bool :=
  (img.image.getD ((y >>> 3) * img.width + x) 0).testBit (y &&& 0x07)

/-- Layout invariant of an image: `width * ceil(height / 8)` bytes, each a
`uint8_t`, and `uint16_t` dimensions. -/
def img_wf (img : bw_image_t) : Prop :=
  img.width < 65536 ∧ img.height < 65536 ∧
  img.image.length = ((img.height + 7) / 8) * img.width ∧
  ∀ b ∈ img.image, b < 256

/-- A transport on which every call succeeds. -/
def transport_ok : transport := fun _ _ => ESP_OK

/-- Both allocations of `bw_disp_init` succeed. -/
def alloc_ok : alloc_env := { realloc_ok := true, calloc_ok := true }

/-- The instance built by the first `bw_disp_init` on transport handle 1. -/
def sh1106_inst : bw_disp_t :=
  { type := BWD_SH1106_128X64, handle := 1, comm_handle := 1,
    disp_if := bw_disp_sh1106_128x64_if, page_num := 8,
    dirty_rect := { x := 0, y := 0, width := 128, height := 64 },
    buffer_size := 1024, buffer := List.replicate 1024 0 }

/-- The state after the first `bw_disp_init` on transport handle 1. -/
def sh1106_state : bw_disp_state :=
  { s_bw_disp_inst_free_num := 0, s_bw_disp_instances := [some sh1106_inst],
    transport_log := [transport_call.write_commands 1 bw_disp_sh1106_init_commands] }

/-- Rectangle `r` contains rectangle `s` (every pixel of `s` is a pixel of `r`). -/
def rect_contains (r s : bwd_rect_t) : Prop :=
  r.x ≤ s.x ∧ r.y ≤ s.y ∧ s.x + s.width ≤ r.x + r.width ∧ s.y + s.height ≤ r.y + r.height

/-- The byte written by one iteration of the page loop of `bw_disp_vline`:
`b |= pix_mask` for white, `b &= ~pix_mask` for black. -/
def vline_byte (c : bw_disp_clr_t) (pix_mask b : Nat) : Nat :=
  if c = BWDC_WHITE then (b ||| pix_mask) % 256 else b &&& not8 pix_mask

/-- The `switch (mode)` of the column loop of `bw_disp_image_sel_priv` and the
narrowing of the result to the `uint8_t` that is stored. -/
def image_combine (mode : bw_disp_img_draw_mode_t) (pixels d page_mask : Nat) : Nat :=
  u8 (match mode with
    | BWDM_ADD_WHITE => ((pixels ||| d : Nat) : Int)
    | BWDM_ADD_BLACK => ((pixels &&& d : Nat) : Int)
    | BWDM_OVERRIDE => ((pixels ||| (d &&& page_mask) : Nat) : Int))

/-- The two image reads of `image_src_pixels` for column `i` are inside the
image array. -/
def image_reads_ok (img : bw_image_t) (first_img_page last_img_page img_page shrp ix i : Nat) :
    Prop :=
  (img_page > first_img_page ∧ shrp > 0 →
    (img.width * (img_page - 1)) + ix + i < img.image.length) ∧
  (img_page ≤ last_img_page → (img.width * img_page) + ix + i < img.image.length)

/-- The value `image_src_pixels` returns when its reads are inside the image. -/
def image_src_pixels_val (img : bw_image_t) (first_img_page last_img_page img_page shrp shlc
    ix i : Nat) (inv_img : Bool) (img_mask : Nat) : Nat :=
  (if img_page > first_img_page ∧ shrp > 0 then
      0 ||| ((if inv_img
        then not8 (u8 ((img.image.getD ((img.width * (img_page - 1)) + ix + i) 0 >>> shrp : Nat) : Int))
        else u8 ((img.image.getD ((img.width * (img_page - 1)) + ix + i) 0 >>> shrp : Nat) : Int))
        &&& img_mask)
    else 0) |||
  (if img_page ≤ last_img_page then
      (if inv_img
        then not8 (u8 ((img.image.getD ((img.width * img_page) + ix + i) 0 <<< shlc : Nat) : Int))
        else u8 ((img.image.getD ((img.width * img_page) + ix + i) 0 <<< shlc : Nat) : Int))
        &&& img_mask
    else 0)

/-- The page mask `bw_disp_image_sel_priv` uses for destination page `p` when
it draws `h` rows from row `y` on: the value of `page_mask` in the iteration
of its page loop for page `p`. -/
def image_page_mask (y h p : Nat) : Nat :=
  if p = y >>> 3 then
    (if (y + h - 1) &&& 0x07 < 7 ∧ y >>> 3 = (y + h - 1) >>> 3
      then low_mask_loop (y &&& 0x07) |||
        (if (y + h - 1) &&& 0x07 < 7 then high_mask_loop ((y + h - 1) &&& 0x07) else 0)
      else low_mask_loop (y &&& 0x07))
  else if p < (y + h - 1) >>> 3 then 0
  else (if (y + h - 1) &&& 0x07 < 7 then high_mask_loop ((y + h - 1) &&& 0x07) else 0)

/-- The value of `shrp` in `bw_disp_image_sel_priv`. -/
def image_shrp (y iy : Nat) : Nat :=
  if iy &&& 0x07 ≥ y &&& 0x07 then (iy &&& 0x07) - (y &&& 0x07)
  else (iy &&& 0x07) + 8 - (y &&& 0x07)

/-- The value of `shlc` in `bw_disp_image_sel_priv`. -/
def image_shlc (y iy : Nat) : Nat :=
  if image_shrp y iy > 0 then 8 - image_shrp y iy else 0

/-- The value of `img_page` in the iteration of the page loop of
`bw_disp_image_sel_priv` for destination page `p`. -/
def image_img_page (y iy p : Nat) : Nat :=
  (if iy &&& 0x07 > y &&& 0x07 then iy >>> 3 + 1 else iy >>> 3) + (p - y >>> 3)

/-- The byte `bw_disp_image_sel_priv` stores at page `p`, column `x + j`,
when it draws `h` rows and the byte there was `old`. -/
def image_dest_byte (mode : bw_disp_img_draw_mode_t) (inv_img : Bool) (img : bw_image_t)
    (y ix iy h p j old : Nat) : Nat :=
  image_combine mode
    (image_src_pixels_val img (iy >>> 3) ((iy + h - 1) >>> 3) (image_img_page y iy p)
      (image_shrp y iy) (image_shlc y iy) ix j inv_img (not8 (image_page_mask y h p)))
    old (image_page_mask y h p)

/-- The clipped width or height of a blit: `min (len, image extent, display extent)`. -/
def image_clip (len img_extent img_off disp_extent disp_off : Nat) : Nat :=
  min (min len (img_extent - img_off)) (disp_extent - disp_off)

/-- Successive calls `bw_disp_init (1), ..., bw_disp_init (n)`, one per transport
handle, each result ignored but its state kept: the scenario of filling the
pool. -/
def init_many (al : alloc_env) (tr : transport) : Nat → bw_disp_state → Except fault bw_disp_state
  | 0, st => pure st
  | n + 1, st => do
    let st1 ← init_many al tr n st
    let r ← bw_disp_init al tr st1 (n + 1) BWD_SH1106_128X64
    pure r.2

/-- Run the next call on the state the previous call returned. -/
def and_then {α β : Type} (r : Except fault (α × bw_disp_state))
    (f : bw_disp_state → Except fault β) : Except fault β :=
  r >>= fun p => f p.2

/-- The status (or handle) a call returned. -/
def status_of {α : Type} (r : Except fault (α × bw_disp_state)) : Except fault α :=
  r >>= fun p => pure p.1

/-- An observation of the instance behind `handle` in the state a call returned. -/
def observe {α β : Type} (r : Except fault (α × bw_disp_state)) (handle : Nat)
    (f : bw_disp_t → β) : Except fault (Option β) :=
  r >>= fun p => pure ((bw_disp_get_instance p.2 handle).map f)

/-- An observation of the state a call returned. -/
def observe_state {α β : Type} (r : Except fault (α × bw_disp_state))
    (f : bw_disp_state → β) : Except fault β :=
  r >>= fun p => pure (f p.2)

/-- The calls `calls` were made in this order on a transport whose history
was `log`, every call but the last returned `ESP_OK`, and `r` is the status
of the last call (`ESP_OK` when no call was made): a failure ends the run. -/
def transport_run (tr : transport) : List transport_call → List transport_call → esp_err_t → Prop
  | _, [], r => r = ESP_OK
  | log, [c], r => r = tr log c
  | log, c :: c2 :: rest, r => tr log c = ESP_OK ∧ transport_run tr (log ++ [c]) (c2 :: rest) r

/-- The transport calls the spec prescribes for a refresh of the pages
`page, page + 1, ..., page + n - 1`, in this order: for each page one
`set_page_col (page, first_col + dirty.x)` (sent through `write_commands`)
followed by one `write_data` of the `dirty.width` bytes of the page from column
`dirty.x` on. -/
def refresh_calls (inst : bw_disp_t) : Nat → Nat → List transport_call
  | 0, _ => []
  | n + 1, page =>
    transport_call.write_commands inst.comm_handle
      (inst.disp_if.set_page_col page (inst.disp_if.first_col + inst.dirty_rect.x)) ::
    transport_call.write_data inst.comm_handle
      ((inst.buffer.drop (page * inst.disp_if.width + inst.dirty_rect.x)).take
        inst.dirty_rect.width) ::
    refresh_calls inst n (page + 1)

/-- The instance a successful `bw_disp_init (comm_handle, BWD_SH1106_128X64)`
leaves in slot `inst_no`. -/
def sh1106_new_inst (comm_handle inst_no : Nat) : bw_disp_t :=
  { type := BWD_SH1106_128X64, handle := inst_no + 1, comm_handle := comm_handle,
    disp_if := bw_disp_sh1106_128x64_if, page_num := 8,
    dirty_rect := { x := 0, y := 0, width := 128, height := 64 },
    buffer_size := 1024, buffer := List.replicate 1024 0 }

/-- Slot `i` is the lowest-indexed free (`NULL`) slot of the pool. -/
def lowest_free_slot (instances : List (Option bw_disp_t)) (i : Nat) : Prop :=
  i < instances.length ∧ instances.getD i none = none ∧
  ∀ j, j < i → instances.getD j none ≠ none

/-- The scenario of `n` close/init cycles: close the handle, initialise a
display again on transport handle `comm_handle`, and go on with the handle
that `bw_disp_init` returned. -/
def close_init_cycles (al : alloc_env) (tr : transport) (comm_handle : Nat) :
    Nat → bw_disp_state → Nat → Except fault (Nat × bw_disp_state)
  | 0, st, handle => pure (handle, st)
  | n + 1, st, handle => do
    let r ← bw_disp_close tr st handle
    let r2 ← bw_disp_init al tr r.2 comm_handle BWD_SH1106_128X64
    close_init_cycles al tr comm_handle n r2.2 r2.1

/-- The mask of the rows `8 * p + b`, `b < n`, of page `p` that lie inside
`[y, y + h)`: bit `b` is set exactly for such a row. -/
def rows_mask_upto (y h p : Nat) : Nat → Nat
  | 0 => 0
  | b + 1 => rows_mask_upto y h p b |||
      (if y ≤ 8 * p + b ∧ 8 * p + b < y + h then 1 <<< b else 0)

/-- The mask `m` of the rows of page `p` inside `[y, y + h)`, as the
specification of the page-aligned blit words it. -/
def page_rows_mask (y h p : Nat) : Nat := rows_mask_upto y h p 8

/-- The byte of a direct per-page copy, as the specification of the
page-aligned blit words it: `(srcByte & m) | (oldDestByte & ~m)`. -/
def aligned_copy_byte (src old m : Nat) : Nat := (src &&& m) ||| (old &&& not8 m)

/-- The dirty rectangle after marking the region `s` on a display whose dirty
rectangle is `d`, as the specification words it: `s` itself when `d` is clean,
else the bounding box of `d` and `s`. -/
def dirty_mark (d s : bwd_rect_t) : bwd_rect_t :=
  if d.width > 0 ∧ d.height > 0 then
    { x := min s.x d.x, y := min s.y d.y,
      width := max (s.x + s.width) (d.x + d.width) - min s.x d.x,
      height := max (s.y + s.height) (d.y + d.height) - min s.y d.y }
  else s

/-! # Theorems -/

/-! ## Helper lemmas -/

theorem and_bit_ne_zero (b k : Nat) : (b &&& (1 <<< k) ≠ 0) ↔ b.testBit k = true := by
  rw [Nat.one_shiftLeft, Nat.and_two_pow]
  cases b.testBit k <;> simp

theorem getD_set_eq (l : List Nat) (i j v : Nat) :
    (l.set i v).getD j 0 = if i = j ∧ i < l.length then v else l.getD j 0 := by
  simp only [List.getD_eq_getElem?_getD, List.getElem?_set]
  by_cases h : i = j
  · subst h
    by_cases h2 : i < l.length
    · simp [h2]
    · simp only [h2, if_false, and_false]
      rw [List.getElem?_eq_none (by omega)]
      rfl
  · simp [h]

theorem page_index_lt {inst : bw_disp_t} (hwf : inst_wf inst) {x y : Nat}
    (hx : x < inst.disp_if.width) (hy : y < inst.disp_if.height) :
    y >>> 3 < inst.page_num ∧ (y >>> 3) * inst.disp_if.width + x < inst.buffer.length := by
  obtain ⟨_, _, _, _, hp, hl⟩ := hwf
  have h1 : y >>> 3 < inst.page_num := by
    rw [Nat.shiftRight_eq_div_pow]; omega
  refine ⟨h1, ?_⟩
  rw [hl]
  calc (y >>> 3) * inst.disp_if.width + x < (y >>> 3) * inst.disp_if.width + inst.disp_if.width := by omega
    _ = (y >>> 3 + 1) * inst.disp_if.width := by ring
    _ ≤ inst.page_num * inst.disp_if.width := Nat.mul_le_mul_right _ h1

theorem get_instance_store {st : bw_disp_state} {handle : Nat} {inst : bw_disp_t}
    (h : bw_disp_get_instance st handle = some inst) (inst1 : bw_disp_t) :
    bw_disp_get_instance (store_instance st handle inst1) handle = some inst1 := by
  unfold bw_disp_get_instance at h ⊢
  unfold bw_disp_state.s_bw_disp_inst_num at h ⊢
  unfold store_instance
  split at h
  · simp at h
  · rename_i hc
    simp only [List.length_set]
    rw [if_neg hc]
    simp only [List.getD_eq_getElem?_getD, List.getElem?_set]
    have : handle - 1 < st.s_bw_disp_instances.length := by omega
    simp [this]

theorem same_header_refl (a : bw_disp_t) : same_header a a :=
  ⟨rfl, rfl, rfl, rfl, rfl, rfl⟩

theorem same_header_trans {a b c : bw_disp_t} (h1 : same_header a b) (h2 : same_header b c) :
    same_header a c := by
  unfold same_header at h1 h2 ⊢
  refine ⟨?_, ?_, ?_, ?_, ?_, ?_⟩
  · rw [h2.1, h1.1]
  · rw [h2.2.1, h1.2.1]
  · rw [h2.2.2.1, h1.2.2.1]
  · rw [h2.2.2.2.1, h1.2.2.2.1]
  · rw [h2.2.2.2.2.1, h1.2.2.2.2.1]
  · rw [h2.2.2.2.2.2, h1.2.2.2.2.2]

theorem inst_wf_of_same_header {a b : bw_disp_t} (hwf : inst_wf a) (h : same_header a b)
    (hl : b.buffer.length = a.buffer.length) : inst_wf b := by
  obtain ⟨_, _, _, h4, h5, _⟩ := h
  unfold inst_wf at hwf ⊢
  rw [h4, h5, hl]
  exact hwf

theorem set_dirty_rect_ok (inst : bw_disp_t) (x y w h : Nat) (hw : 0 < w) (hh : 0 < h) :
    ∃ inst1, bw_disp_set_dirty_rect inst x y w h = .ok inst1 ∧ same_header inst inst1 ∧
      inst1.buffer = inst.buffer := by
  unfold bw_disp_set_dirty_rect
  rw [if_neg (by simp only [not_not]; exact ⟨hw, hh⟩)]
  by_cases hd : bw_disp_is_dirty inst = true
  · rw [if_neg (by simp [hd])]
    exact ⟨_, rfl, same_header_refl _, rfl⟩
  · rw [if_pos hd]
    exact ⟨_, rfl, same_header_refl _, rfl⟩

theorem set_dirty_rect_marks (inst : bw_disp_t) (x y w h : Nat) (hw : 1 ≤ w) (hh : 1 ≤ h) :
    ∃ inst1, bw_disp_set_dirty_rect inst x y w h = .ok inst1 ∧ same_header inst inst1 ∧
      inst1.buffer = inst.buffer ∧
      (x + w ≤ 65535 → y + h ≤ 65535 → inst.dirty_rect.x + inst.dirty_rect.width ≤ 65535 →
        inst.dirty_rect.y + inst.dirty_rect.height ≤ 65535 →
        inst1.dirty_rect
          = dirty_mark inst.dirty_rect { x := x, y := y, width := w, height := h }) := by
  unfold bw_disp_set_dirty_rect
  rw [if_neg (by simp only [not_not]; exact ⟨hw, hh⟩)]
  by_cases hd : bw_disp_is_dirty inst = true
  · rw [if_neg (by simp [hd])]
    refine ⟨_, rfl, same_header_refl _, rfl, ?_⟩
    intro hx hy hdx hdy
    unfold bw_disp_is_dirty at hd
    simp only [Bool.and_eq_true, decide_eq_true_eq] at hd
    unfold dirty_mark
    rw [if_pos hd]
    simp only [u16, bwd_rect_t.mk.injEq]
    refine ⟨?_, ?_, ?_, ?_⟩ <;> omega
  · rw [if_pos hd]
    refine ⟨_, rfl, same_header_refl _, rfl, ?_⟩
    intro _ _ _ _
    unfold bw_disp_is_dirty at hd
    simp only [Bool.and_eq_true, decide_eq_true_eq] at hd
    unfold dirty_mark
    rw [if_neg hd]

theorem get_pixel_eq {st : bw_disp_state} {handle : Nat} {inst : bw_disp_t}
    (hinst : bw_disp_get_instance st handle = some inst) (hwf : inst_wf inst) {x y : Nat}
    (hx : x < inst.disp_if.width) (hy : y < inst.disp_if.height) :
    bw_disp_get_pixel st handle x y = .ok (ESP_OK, some (clr_of_bit (pixel_bit inst x y))) := by
  have hp := page_index_lt hwf hx hy
  unfold bw_disp_get_pixel
  rw [hinst]
  simp only [ge_iff_le, Nat.not_le.mpr hx, Nat.not_le.mpr hy, or_self, if_false]
  unfold pages_read
  rw [if_pos hp]
  simp only [pure, Except.pure, bind, Except.bind, clr_of_bit, pixel_bit]
  congr 3
  by_cases hb : (inst.buffer.getD ((y >>> 3) * inst.disp_if.width + x) 0).testBit (y &&& 7) = true
  · rw [if_pos ((and_bit_ne_zero _ _).mpr hb), if_pos hb]
  · rw [if_neg (fun h => hb ((and_bit_ne_zero _ _).mp h)), if_neg hb]


theorem get_instance_valid {st : bw_disp_state} {handle : Nat} {inst : bw_disp_t}
    (h : bw_disp_get_instance st handle = some inst) :
    0 < handle ∧ handle - 1 < st.s_bw_disp_instances.length ∧
      st.s_bw_disp_instances.getD (handle - 1) none = some inst := by
  unfold bw_disp_get_instance bw_disp_state.s_bw_disp_inst_num at h
  split at h
  · simp at h
  · exact ⟨by omega, by omega, h⟩

theorem pages_update_ok {inst : bw_disp_t} (hwf : inst_wf inst) {x y : Nat}
    (hx : x < inst.disp_if.width) (hy : y < inst.disp_if.height) (f : Nat → Nat) :
    ∃ inst1, pages_update inst (y >>> 3) x f = .ok inst1 ∧ same_header inst inst1 ∧
      inst1.dirty_rect = inst.dirty_rect ∧
      inst1.buffer = inst.buffer.set ((y >>> 3) * inst.disp_if.width + x)
        (f (inst.buffer.getD ((y >>> 3) * inst.disp_if.width + x) 0)) := by
  unfold pages_update
  rw [if_pos (page_index_lt hwf hx hy)]
  exact ⟨_, rfl, same_header_refl _, rfl, rfl⟩

theorem lnot_bit (k : Nat) : lnot (1 <<< k) = 0 := by
  unfold lnot
  rw [if_neg]
  rw [Nat.one_shiftLeft]
  exact Nat.pos_iff_ne_zero.mp (Nat.two_pow_pos k)

theorem and7_lt (y : Nat) : y &&& 7 < 8 := by
  have := Nat.and_pow_two_sub_one_eq_mod y 3
  simp only [Nat.reducePow, Nat.add_one_sub_one] at this
  omega

theorem testBit_or_bit (b k : Nat) (hk : k < 8) : ((b ||| (1 <<< k)) % 256).testBit k = true := by
  have : (256 : Nat) = 2 ^ 8 := by norm_num
  rw [this, Nat.testBit_mod_two_pow, Nat.testBit_or, Nat.one_shiftLeft, Nat.testBit_two_pow]
  simp [hk]

/-- C1: on a valid handle and an in-bounds coordinate, `bw_disp_set_pixel`
returns `ESP_OK`, and `bw_disp_get_pixel` at the same coordinate then returns
`ESP_OK` and the colour that was set (black as well as white). -/
theorem set_pixel_then_get_pixel (st : bw_disp_state) (handle : Nat) (inst : bw_disp_t)
    (x y : Nat) (c : bw_disp_clr_t)
    (hinst : bw_disp_get_instance st handle = some inst) (hwf : inst_wf inst)
    (hx : x < inst.disp_if.width) (hy : y < inst.disp_if.height) :
    ∃ st1, bw_disp_set_pixel st handle x y c = .ok (ESP_OK, st1) ∧
      bw_disp_get_pixel st1 handle x y = .ok (ESP_OK, some c) := by
  have hp := page_index_lt hwf hx hy
  obtain ⟨inst1, h1, hh1, -, hb1⟩ := pages_update_ok hwf hx hy
    (if c = BWDC_BLACK then (fun b => b &&& lnot (1 <<< (y &&& 0x07)))
      else (fun b => (b ||| 1 <<< (y &&& 0x07)) % 256))
  obtain ⟨inst2, h2, hh2, hb2⟩ := set_dirty_rect_ok inst1 x y 1 1 (by decide) (by decide)
  have hh := same_header_trans hh1 hh2
  have hw2 : inst2.disp_if = inst.disp_if := hh.2.2.2.1
  have hwf2 : inst_wf inst2 := inst_wf_of_same_header hwf hh (by rw [hb2, hb1, List.length_set])
  refine ⟨store_instance st handle inst2, ?_, ?_⟩
  · unfold bw_disp_set_pixel
    rw [hinst]
    simp only [ge_iff_le, Nat.not_le.mpr hx, Nat.not_le.mpr hy, or_self, if_false]
    have : (if c = BWDC_BLACK then pages_update inst (y >>> 3) x (fun b => b &&& lnot (1 <<< (y &&& 0x07)))
        else pages_update inst (y >>> 3) x (fun b => (b ||| 1 <<< (y &&& 0x07)) % 256)) = .ok inst1 := by
      rw [← h1]; split <;> rfl
    simp only [bind, Except.bind, this, h2, pure, Except.pure]
  · rw [get_pixel_eq (get_instance_store hinst inst2) hwf2 (by rw [hw2]; exact hx)
      (by rw [hw2]; exact hy)]
    unfold pixel_bit
    rw [hw2, hb2, hb1, getD_set_eq, if_pos ⟨rfl, hp.2⟩]
    cases c
    · simp only [if_true, lnot_bit, Nat.and_zero, Nat.zero_testBit]
      rfl
    · simp only [reduceCtorEq, if_false, testBit_or_bit _ _ (and7_lt y)]
      rfl


set_option maxRecDepth 100000 in
theorem init_first :
    bw_disp_init alloc_ok transport_ok bw_disp_state_initial 1 BWD_SH1106_128X64
      = .ok (1, sh1106_state) := by
  rfl

theorem sh1106_inst_valid : bw_disp_get_instance sh1106_state 1 = some sh1106_inst := by
  rfl

theorem sh1106_inst_wf : inst_wf sh1106_inst := by
  unfold inst_wf
  refine ⟨by decide, by decide, by decide, by decide, by decide, ?_⟩
  exact List.length_replicate 1024 0

set_option maxRecDepth 100000 in
/-- Witness of C1 on the freshly initialised 128x64 display: pixel (3, 12),
set to black. -/
theorem set_pixel_then_get_pixel_witness :
    ∃ st1, bw_disp_set_pixel sh1106_state 1 3 12 BWDC_BLACK = .ok (ESP_OK, st1) ∧
      bw_disp_get_pixel st1 1 3 12 = .ok (ESP_OK, some BWDC_BLACK) :=
  set_pixel_then_get_pixel sh1106_state 1 sh1106_inst 3 12 BWDC_BLACK sh1106_inst_valid
    sh1106_inst_wf (by decide) (by decide)

set_option maxRecDepth 100000 in
/-- C2, evaluated at the failing input: on the 128x64 display filled white,
pixel (0, 1) is white; `bw_disp_set_pixel (0, 0, BLACK)` returns `ESP_OK`, and
afterwards pixel (0, 1), which is a different pixel of the same byte, reads
black: the black branch `pages[page][x] &= !y_bit` clears the whole byte. -/
theorem set_pixel_black_clears_other_pixel :
    status_of (bw_disp_fill sh1106_state 1 BWDC_WHITE) = .ok ESP_OK ∧
    and_then (bw_disp_fill sh1106_state 1 BWDC_WHITE)
      (fun st1 => bw_disp_get_pixel st1 1 0 1) = .ok (ESP_OK, some BWDC_WHITE) ∧
    status_of (and_then (bw_disp_fill sh1106_state 1 BWDC_WHITE)
      (fun st1 => bw_disp_set_pixel st1 1 0 0 BWDC_BLACK)) = .ok ESP_OK ∧
    and_then (and_then (bw_disp_fill sh1106_state 1 BWDC_WHITE)
      (fun st1 => bw_disp_set_pixel st1 1 0 0 BWDC_BLACK))
      (fun st2 => bw_disp_get_pixel st2 1 0 1) = .ok (ESP_OK, some BWDC_BLACK) :=
  ⟨rfl, rfl, rfl, rfl⟩

set_option maxRecDepth 100000 in
/-- C3, evaluated at the failing input: the 32x32 image of `main.c` drawn
inverted in mode OVERRIDE at (0, 1) (`y & 7 = 1`, `iy & 7 = 0`).  Image pixel
(2, 7) is set, so the complemented source pixel is clear, yet display pixel
(2, 8) reads white after the call. -/
theorem image_inverted_unaligned_wrong_pixel :
    status_of (bw_disp_image_sel_ex sh1106_state 1 0 1 0 0 32 32 true BWDM_OVERRIDE
      img_tennis_ball) = .ok ESP_OK ∧
    img_pixel img_tennis_ball 2 7 = true ∧
    and_then (bw_disp_image_sel_ex sh1106_state 1 0 1 0 0 32 32 true BWDM_OVERRIDE
      img_tennis_ball) (fun st1 => bw_disp_get_pixel st1 1 2 8)
      = .ok (ESP_OK, some BWDC_WHITE) :=
  ⟨rfl, rfl, rfl⟩

set_option maxRecDepth 100000 in
/-- C5, evaluated at the failing input: after a successful refresh the
display is clean; `bw_disp_hline (x = 0, y = 0, w = 1, WHITE)` returns
`ESP_OK` and changes byte 0 (page 0, column 0) from 0 to 1, but the dirty
rectangle becomes (x = 1, y = 0, 1 x 1), which does not contain column 0, and
the next successful refresh sends only the byte of column 1 (the last two
transport calls of the 5 made in all). -/
theorem hline_dirty_rect_misses_drawn_column :
    status_of (bw_disp_refresh transport_ok sh1106_state 1) = .ok ESP_OK ∧
    observe (bw_disp_refresh transport_ok sh1106_state 1) 1
      (fun inst1 => (inst1.dirty_rect, inst1.buffer.getD 0 0))
      = .ok (some ({ x := 0, y := 0, width := 0, height := 0 }, 0)) ∧
    status_of (and_then (bw_disp_refresh transport_ok sh1106_state 1)
      (fun st1 => bw_disp_hline st1 1 0 0 1 BWDC_WHITE)) = .ok ESP_OK ∧
    observe (and_then (bw_disp_refresh transport_ok sh1106_state 1)
      (fun st1 => bw_disp_hline st1 1 0 0 1 BWDC_WHITE)) 1
      (fun inst2 => (inst2.dirty_rect, inst2.buffer.getD 0 0))
      = .ok (some ({ x := 1, y := 0, width := 1, height := 1 }, 1)) ∧
    status_of (and_then (and_then (bw_disp_refresh transport_ok sh1106_state 1)
      (fun st1 => bw_disp_hline st1 1 0 0 1 BWDC_WHITE))
      (fun st2 => bw_disp_refresh transport_ok st2 1)) = .ok ESP_OK ∧
    observe_state (and_then (and_then (bw_disp_refresh transport_ok sh1106_state 1)
      (fun st1 => bw_disp_hline st1 1 0 0 1 BWDC_WHITE))
      (fun st2 => bw_disp_refresh transport_ok st2 1))
      (fun st3 => (st3.transport_log.length, st3.transport_log.drop 17))
      = .ok (19, [transport_call.write_commands 1 [0xB0, 0x03, 0x10],
                  transport_call.write_data 1 [0]]) :=
  ⟨rfl, rfl, rfl, rfl, rfl, rfl⟩

/-- C10: `bw_disp_set_dirty_rect` with `width, height >= 1` (coordinates are
`uint16_t`; both rectangles end at or before 65535) succeeds; on a clean
instance the dirty rectangle becomes exactly the marked region; on a dirty
instance it becomes the bounding box of the previous dirty rectangle and the
region, which contains both and is contained in every rectangle containing
both; and from any clean instance, marking (0,0) 1x1 and then (10,20) 1x1
yields the rectangle x = 0, y = 0, width = 11, height = 21. -/
theorem set_dirty_rect_union (inst : bw_disp_t) (x y width height : Nat)
    (hw : 1 ≤ width) (hh : 1 ≤ height)
    (hx : x + width ≤ 65535) (hy : y + height ≤ 65535)
    (hdx : inst.dirty_rect.x + inst.dirty_rect.width ≤ 65535)
    (hdy : inst.dirty_rect.y + inst.dirty_rect.height ≤ 65535) :
    (∃ inst1, bw_disp_set_dirty_rect inst x y width height = .ok inst1 ∧
      inst1.buffer = inst.buffer ∧
      (bw_disp_is_dirty inst = false →
        inst1.dirty_rect = { x := x, y := y, width := width, height := height }) ∧
      (bw_disp_is_dirty inst = true →
        inst1.dirty_rect.x = min x inst.dirty_rect.x ∧
        inst1.dirty_rect.y = min y inst.dirty_rect.y ∧
        inst1.dirty_rect.x + inst1.dirty_rect.width
          = max (x + width) (inst.dirty_rect.x + inst.dirty_rect.width) ∧
        inst1.dirty_rect.y + inst1.dirty_rect.height
          = max (y + height) (inst.dirty_rect.y + inst.dirty_rect.height) ∧
        rect_contains inst1.dirty_rect inst.dirty_rect ∧
        rect_contains inst1.dirty_rect { x := x, y := y, width := width, height := height } ∧
        ∀ r : bwd_rect_t, rect_contains r inst.dirty_rect →
          rect_contains r { x := x, y := y, width := width, height := height } →
          rect_contains r inst1.dirty_rect)) ∧
    (bw_disp_is_dirty inst = false →
      ∃ inst1 inst2, bw_disp_set_dirty_rect inst 0 0 1 1 = .ok inst1 ∧
        bw_disp_set_dirty_rect inst1 10 20 1 1 = .ok inst2 ∧
        inst2.dirty_rect = { x := 0, y := 0, width := 11, height := 21 }) := by
  constructor
  · unfold bw_disp_set_dirty_rect
    rw [if_neg (by simp only [not_not]; exact ⟨hw, hh⟩)]
    by_cases hd : bw_disp_is_dirty inst = true
    · rw [if_neg (by simp [hd])]
      refine ⟨_, rfl, rfl, by simp [hd], fun _ => ?_⟩
      unfold bw_disp_is_dirty at hd
      simp only [Bool.and_eq_true, decide_eq_true_eq] at hd
      obtain ⟨hd1, hd2⟩ := hd
      simp only [u16, rect_contains]
      refine ⟨?_, ?_, ?_, ?_, ⟨?_, ?_, ?_, ?_⟩, ⟨?_, ?_, ?_, ?_⟩, ?_⟩ <;> omega
    · rw [if_pos hd]
      refine ⟨_, rfl, rfl, fun _ => rfl, fun h => absurd h hd⟩
  · intro hc
    have h1 : bw_disp_set_dirty_rect inst 0 0 1 1
        = .ok { inst with dirty_rect := { x := 0, y := 0, width := 1, height := 1 } } := by
      unfold bw_disp_set_dirty_rect
      simp [hc]
      rfl
    refine ⟨_, _, h1, rfl, rfl⟩

/-- Witness of C10: the full-screen dirty instance of the 128x64 display,
marked with the region (10, 20) 1x1. -/
theorem set_dirty_rect_union_witness :
    (∃ inst1, bw_disp_set_dirty_rect sh1106_inst 10 20 1 1 = .ok inst1 ∧
      inst1.buffer = sh1106_inst.buffer ∧
      (bw_disp_is_dirty sh1106_inst = false →
        inst1.dirty_rect = { x := 10, y := 20, width := 1, height := 1 }) ∧
      (bw_disp_is_dirty sh1106_inst = true →
        inst1.dirty_rect.x = min 10 sh1106_inst.dirty_rect.x ∧
        inst1.dirty_rect.y = min 20 sh1106_inst.dirty_rect.y ∧
        inst1.dirty_rect.x + inst1.dirty_rect.width
          = max (10 + 1) (sh1106_inst.dirty_rect.x + sh1106_inst.dirty_rect.width) ∧
        inst1.dirty_rect.y + inst1.dirty_rect.height
          = max (20 + 1) (sh1106_inst.dirty_rect.y + sh1106_inst.dirty_rect.height) ∧
        rect_contains inst1.dirty_rect sh1106_inst.dirty_rect ∧
        rect_contains inst1.dirty_rect { x := 10, y := 20, width := 1, height := 1 } ∧
        ∀ r : bwd_rect_t, rect_contains r sh1106_inst.dirty_rect →
          rect_contains r { x := 10, y := 20, width := 1, height := 1 } →
          rect_contains r inst1.dirty_rect)) ∧
    (bw_disp_is_dirty sh1106_inst = false →
      ∃ inst1 inst2, bw_disp_set_dirty_rect sh1106_inst 0 0 1 1 = .ok inst1 ∧
        bw_disp_set_dirty_rect inst1 10 20 1 1 = .ok inst2 ∧
        inst2.dirty_rect = { x := 0, y := 0, width := 11, height := 21 }) :=
  set_dirty_rect_union sh1106_inst 10 20 1 1 (by decide) (by decide) (by decide) (by decide)
    (by decide) (by decide)

theorem pages_update_at {inst : bw_disp_t} {page x : Nat} (h1 : page < inst.page_num)
    (h2 : page * inst.disp_if.width + x < inst.buffer.length) (f : Nat → Nat) :
    ∃ inst1, pages_update inst page x f = .ok inst1 ∧ same_header inst inst1 ∧
      inst1.dirty_rect = inst.dirty_rect ∧
      inst1.buffer = inst.buffer.set (page * inst.disp_if.width + x)
        (f (inst.buffer.getD (page * inst.disp_if.width + x) 0)) := by
  unfold pages_update
  rw [if_pos ⟨h1, h2⟩]
  exact ⟨_, rfl, same_header_refl _, rfl, rfl⟩

theorem hline_loop_spec (page : Nat) (f : Nat → Nat) :
    ∀ (n x : Nat) (inst : bw_disp_t), page < inst.page_num →
      page * inst.disp_if.width + x + n ≤ inst.buffer.length → x + n < 65536 →
      ∃ inst1, hline_loop page f n x inst = .ok (x + n, inst1) ∧ same_header inst inst1 ∧
        inst1.dirty_rect = inst.dirty_rect ∧
        inst1.buffer.length = inst.buffer.length ∧
        ∀ k, inst1.buffer.getD k 0 =
          if page * inst.disp_if.width + x ≤ k ∧ k < page * inst.disp_if.width + x + n
          then f (inst.buffer.getD k 0) else inst.buffer.getD k 0 := by
  intro n
  induction n with
  | zero =>
    intro x inst _ _ _
    refine ⟨inst, rfl, same_header_refl _, rfl, rfl, fun k => ?_⟩
    rw [if_neg (by omega)]
  | succ n ih =>
    intro x inst hp hlen hx
    obtain ⟨inst1, h1, hh1, hd1, hb1⟩ := pages_update_at (x := x) hp (by omega) f
    have hw1 : inst1.disp_if.width = inst.disp_if.width := by rw [hh1.2.2.2.1]
    have hl1 : inst1.buffer.length = inst.buffer.length := by rw [hb1, List.length_set]
    obtain ⟨inst2, h2, hh2, hd2, hl2, hb2⟩ := ih (x + 1) inst1 (by rw [hh1.2.2.2.2.1]; exact hp)
      (by rw [hw1, hl1]; omega) (by omega)
    refine ⟨inst2, ?_, same_header_trans hh1 hh2, hd2.trans hd1, hl2.trans hl1, fun k => ?_⟩
    · unfold hline_loop
      simp only [h1, bind, Except.bind]
      have : u16 ((x : Int) + 1) = x + 1 := by unfold u16; omega
      rw [this, h2]
      congr 2
      omega
    · rw [hb2 k, hw1, hb1, getD_set_eq]
      by_cases hk : page * inst.disp_if.width + x = k
      · subst hk
        rw [if_neg (by omega), if_pos ⟨rfl, by omega⟩, if_pos (by omega)]
      · by_cases hk2 : page * inst.disp_if.width + (x + 1) ≤ k ∧
            k < page * inst.disp_if.width + (x + 1) + n
        · rw [if_pos hk2, if_neg (by omega), if_pos (by omega)]
        · rw [if_neg hk2, if_neg (by omega), if_neg (by omega)]

theorem mul_add_le_of_lt {p q : Nat} (W : Nat) (h : p < q) : p * W + W ≤ q * W := by
  calc p * W + W = (p + 1) * W := (Nat.succ_mul p W).symm
    _ ≤ q * W := Nat.mul_le_mul_right W h

theorem shift_and_inj {a b : Nat} (h1 : a >>> 3 = b >>> 3) (h2 : a &&& 7 = b &&& 7) : a = b := by
  have ea := Nat.and_pow_two_sub_one_eq_mod a 3
  have eb := Nat.and_pow_two_sub_one_eq_mod b 3
  simp only [Nat.reducePow, Nat.add_one_sub_one] at ea eb
  rw [Nat.shiftRight_eq_div_pow, Nat.shiftRight_eq_div_pow] at h1
  omega

theorem testBit_set_bit (o yb b : Nat) (hb : b < 8) :
    ((o ||| 1 <<< yb) % 256).testBit b = (o.testBit b || decide (yb = b)) := by
  have : (256 : Nat) = 2 ^ 8 := by norm_num
  rw [this, Nat.testBit_mod_two_pow, Nat.testBit_or, Nat.one_shiftLeft, Nat.testBit_two_pow]
  simp [hb]

theorem testBit_not8 (m b : Nat) (hb : b < 8) : (not8 m).testBit b = !(m.testBit b) := by
  unfold not8
  have h255 : (255 : Nat) = 2 ^ 8 - 1 := by norm_num
  have h256 : (256 : Nat) = 2 ^ 8 := by norm_num
  rw [Nat.testBit_xor, h255, Nat.testBit_two_pow_sub_one, h256, Nat.testBit_mod_two_pow]
  simp [hb]

theorem testBit_clear_bit (o yb b : Nat) (hb : b < 8) :
    (o &&& not8 (1 <<< yb)).testBit b = (o.testBit b && !decide (yb = b)) := by
  rw [Nat.testBit_and, testBit_not8 _ _ hb, Nat.one_shiftLeft, Nat.testBit_two_pow]

/-- C9: on a valid handle, `bw_disp_hline` with `x < width`, `y < height`,
`w >= 1`, `x + w <= width` returns `ESP_OK`; afterwards bit `y & 7` of the `w`
bytes of page `y >> 3` from column `x` on has the colour's value and every
other framebuffer bit is as before, so the pixels `(x, y) .. (x+w-1, y)` read
`c` and every other pixel reads as before; and with `x >= width`,
`y >= height` or `x + w > width` it returns `ESP_ERR_INVALID_ARG` (and leaves
the state as it was). -/
theorem hline_sets_exactly_the_line (st : bw_disp_state) (handle : Nat) (inst : bw_disp_t)
    (x y w : Nat) (c : bw_disp_clr_t)
    (hinst : bw_disp_get_instance st handle = some inst) (hwf : inst_wf inst) :
    (x < inst.disp_if.width → y < inst.disp_if.height → 1 ≤ w → x + w ≤ inst.disp_if.width →
      ∃ st1 inst1, bw_disp_hline st handle x y w c = .ok (ESP_OK, st1) ∧
        bw_disp_get_instance st1 handle = some inst1 ∧
        inst1.buffer.length = inst.buffer.length ∧
        (∀ k b, b < 8 → (inst1.buffer.getD k 0).testBit b =
          if (y >>> 3) * inst.disp_if.width + x ≤ k ∧
              k < (y >>> 3) * inst.disp_if.width + x + w ∧ b = y &&& 0x07
          then decide (c = BWDC_WHITE) else (inst.buffer.getD k 0).testBit b) ∧
        (∀ i j, i < inst.disp_if.width → j < inst.disp_if.height →
          bw_disp_get_pixel st1 handle i j =
            if j = y ∧ x ≤ i ∧ i < x + w then .ok (ESP_OK, some c)
            else bw_disp_get_pixel st handle i j)) ∧
    (x ≥ inst.disp_if.width ∨ y ≥ inst.disp_if.height ∨ x + w > inst.disp_if.width →
      bw_disp_hline st handle x y w c = .ok (ESP_ERR_INVALID_ARG, st)) := by
  constructor
  · intro hx hy hw hxw
    have hp := page_index_lt hwf hx hy
    have hwf' := hwf
    obtain ⟨_, _, hW, _, _, hlen⟩ := hwf'
    have hrow : (y >>> 3) * inst.disp_if.width + inst.disp_if.width ≤ inst.buffer.length := by
      rw [hlen]; exact mul_add_le_of_lt _ hp.1
    obtain ⟨inst1, h1, hh1, hd1, hl1, hb1⟩ := hline_loop_spec (y >>> 3)
      (if c = BWDC_BLACK then (fun b => b &&& not8 (1 <<< (y &&& 0x07)))
        else (fun b => (b ||| 1 <<< (y &&& 0x07)) % 256)) w x inst hp.1 (by omega) (by omega)
    obtain ⟨inst2, h2, hh2, hb2⟩ := set_dirty_rect_ok inst1 (x + w) y w 1 hw (by decide)
    have hh := same_header_trans hh1 hh2
    have hw2 : inst2.disp_if = inst.disp_if := hh.2.2.2.1
    have hl2 : inst2.buffer.length = inst.buffer.length := by rw [hb2, hl1]
    have hwf2 : inst_wf inst2 := inst_wf_of_same_header hwf hh hl2
    have hbits : ∀ k b, b < 8 → (inst2.buffer.getD k 0).testBit b =
          if (y >>> 3) * inst.disp_if.width + x ≤ k ∧
              k < (y >>> 3) * inst.disp_if.width + x + w ∧ b = y &&& 0x07
          then decide (c = BWDC_WHITE) else (inst.buffer.getD k 0).testBit b := by
      intro k b hb
      rw [hb2, hb1 k]
      by_cases hk : (y >>> 3) * inst.disp_if.width + x ≤ k ∧
          k < (y >>> 3) * inst.disp_if.width + x + w
      · rw [if_pos hk]
        cases c
        · simp only [if_true, testBit_clear_bit _ _ _ hb]
          by_cases hby : b = y &&& 7
          · subst hby; simp [hk]
          · rw [if_neg (by tauto)]
            simp [Ne.symm hby]
        · simp only [reduceCtorEq, if_false, testBit_set_bit _ _ _ hb]
          by_cases hby : b = y &&& 7
          · subst hby; simp [hk]
          · rw [if_neg (by tauto)]
            simp [Ne.symm hby]
      · rw [if_neg hk, if_neg (by tauto)]
    refine ⟨store_instance st handle inst2, inst2, ?_, get_instance_store hinst inst2, hl2,
      hbits, ?_⟩
    · unfold bw_disp_hline
      rw [hinst]
      simp only [ge_iff_le, Nat.not_le.mpr hx, Nat.not_le.mpr hy, gt_iff_lt, Nat.not_lt.mpr hxw,
        or_self, if_false]
      have : (if c = BWDC_BLACK then
            hline_loop (y >>> 3) (fun b => b &&& not8 (1 <<< (y &&& 0x07))) w x inst
          else hline_loop (y >>> 3) (fun b => (b ||| 1 <<< (y &&& 0x07)) % 256) w x inst)
          = .ok (x + w, inst1) := by
        rw [← h1]; split <;> rfl
      simp only [bind, Except.bind, this, h2, pure, Except.pure]
    · intro i j hi hj
      rw [get_pixel_eq (get_instance_store hinst inst2) hwf2 (by rw [hw2]; exact hi)
        (by rw [hw2]; exact hj), get_pixel_eq hinst hwf hi hj]
      unfold pixel_bit
      rw [hw2, hbits _ _ (and7_lt j)]
      have hpj := page_index_lt hwf hi hj
      by_cases hj2 : j = y ∧ x ≤ i ∧ i < x + w
      · obtain ⟨rfl, hi1, hi2⟩ := hj2
        rw [if_pos ⟨by omega, by omega, rfl⟩, if_pos ⟨rfl, hi1, hi2⟩]
        cases c <;> rfl
      · rw [if_neg hj2, if_neg]
        rintro ⟨a1, a2, a3⟩
        apply hj2
        have hpage : j >>> 3 = y >>> 3 := by
          rcases Nat.lt_trichotomy (j >>> 3) (y >>> 3) with h | h | h
          · have := mul_add_le_of_lt inst.disp_if.width h; omega
          · exact h
          · have := mul_add_le_of_lt inst.disp_if.width h; omega
        have := shift_and_inj hpage a3
        rw [hpage] at a1 a2
        exact ⟨this, by omega, by omega⟩
  · intro h
    unfold bw_disp_hline
    rw [hinst]
    simp only [ge_iff_le, gt_iff_lt]
    rw [if_pos h]
    rfl

set_option maxRecDepth 100000 in
/-- Witness of C9 on the freshly initialised 128x64 display: the white line
`x = 3, y = 12, w = 5`. -/
theorem hline_sets_exactly_the_line_witness :
    ∃ st1 inst1, bw_disp_hline sh1106_state 1 3 12 5 BWDC_WHITE = .ok (ESP_OK, st1) ∧
      bw_disp_get_instance st1 1 = some inst1 ∧
      inst1.buffer.length = sh1106_inst.buffer.length ∧
      (∀ k b, b < 8 → (inst1.buffer.getD k 0).testBit b =
        if (12 >>> 3) * sh1106_inst.disp_if.width + 3 ≤ k ∧
            k < (12 >>> 3) * sh1106_inst.disp_if.width + 3 + 5 ∧ b = 12 &&& 0x07
        then decide (BWDC_WHITE = BWDC_WHITE) else (sh1106_inst.buffer.getD k 0).testBit b) ∧
      (∀ i j, i < sh1106_inst.disp_if.width → j < sh1106_inst.disp_if.height →
        bw_disp_get_pixel st1 1 i j =
          if j = 12 ∧ 3 ≤ i ∧ i < 3 + 5 then .ok (ESP_OK, some BWDC_WHITE)
          else bw_disp_get_pixel sh1106_state 1 i j) :=
  (hline_sets_exactly_the_line sh1106_state 1 sh1106_inst 3 12 5 BWDC_WHITE sh1106_inst_valid
    sh1106_inst_wf).1 (by decide) (by decide) (by decide) (by decide)

theorem mask_or_loop_testBit : ∀ s < 8, ∀ e < 8, ∀ b < 8,
    (mask_or_loop (1 <<< e) 8 (1 <<< s) 0).testBit b = decide (s ≤ b ∧ b ≤ e) := by
  decide

theorem vline_loop_spec (x last_page y_bit_e : Nat) (c : bw_disp_clr_t) :
    ∀ (n page pix_mask : Nat) (inst : bw_disp_t), n = last_page + 1 - page →
      last_page < inst.page_num → x < inst.disp_if.width →
      inst.buffer.length = inst.page_num * inst.disp_if.width →
      ∃ inst1, vline_loop x last_page y_bit_e c n page pix_mask inst = .ok inst1 ∧
        same_header inst inst1 ∧ inst1.dirty_rect = inst.dirty_rect ∧
        inst1.buffer.length = inst.buffer.length ∧
        (∀ p, page ≤ p → p ≤ last_page →
          inst1.buffer.getD (p * inst.disp_if.width + x) 0 =
            vline_byte c (if p = page then pix_mask else if p < last_page then 0xFF
              else mask_or_loop y_bit_e 8 1 0) (inst.buffer.getD (p * inst.disp_if.width + x) 0)) ∧
        (∀ k, (∀ p, page ≤ p → p ≤ last_page → k ≠ p * inst.disp_if.width + x) →
          inst1.buffer.getD k 0 = inst.buffer.getD k 0) := by
  intro n
  induction n with
  | zero =>
    intro page pix_mask inst hn _ _ _
    refine ⟨inst, rfl, same_header_refl _, rfl, rfl, fun p h1 h2 => ?_, fun k _ => rfl⟩
    omega
  | succ n ih =>
    intro page pix_mask inst hn hlast hx hlen
    have hpl : page ≤ last_page := by omega
    have hrow : page * inst.disp_if.width + inst.disp_if.width ≤ inst.buffer.length := by
      rw [hlen]; exact mul_add_le_of_lt _ (by omega)
    obtain ⟨inst1, h1, hh1, hd1, hb1⟩ := (pages_update_at (by omega) (by omega) (vline_byte c pix_mask) :
        ∃ inst1, pages_update inst page x (vline_byte c pix_mask) = .ok inst1 ∧ _)
    have hw1 : inst1.disp_if.width = inst.disp_if.width := by rw [hh1.2.2.2.1]
    have hp1 : inst1.page_num = inst.page_num := hh1.2.2.2.2.1
    have hl1 : inst1.buffer.length = inst.buffer.length := by rw [hb1, List.length_set]
    obtain ⟨inst2, h2, hh2, hd2, hl2, hb2, hf2⟩ := ih (page + 1)
      (if page + 1 < last_page then 0xFF else mask_or_loop y_bit_e 8 1 0) inst1 (by omega)
      (by rw [hp1]; exact hlast) (by rw [hw1]; exact hx) (by rw [hl1, hp1, hw1]; exact hlen)
    rw [hw1] at hb2 hf2
    refine ⟨inst2, ?_, same_header_trans hh1 hh2, hd2.trans hd1, hl2.trans hl1, ?_, ?_⟩
    · unfold vline_loop
      rw [if_pos hpl]
      have : (if c = BWDC_WHITE then pages_update inst page x (fun b => (b ||| pix_mask) % 256)
          else pages_update inst page x (fun b => b &&& not8 pix_mask)) = .ok inst1 := by
        rw [← h1]; unfold vline_byte; split <;> rfl
      simp only [bind, Except.bind, this]
      exact h2
    · intro p hp1' hp2'
      by_cases hpp : p = page
      · subst hpp
        rw [if_pos rfl, hf2 _ (fun q hq1 hq2 => by
          have := mul_add_le_of_lt inst.disp_if.width (show p < q by omega); omega),
          hb1, getD_set_eq, if_pos ⟨rfl, by omega⟩]
      · have hne : page * inst.disp_if.width + x ≠ p * inst.disp_if.width + x := by
          have := mul_add_le_of_lt inst.disp_if.width (show page < p by omega); omega
        have hset : inst1.buffer.getD (p * inst.disp_if.width + x) 0
            = inst.buffer.getD (p * inst.disp_if.width + x) 0 := by
          rw [hb1, getD_set_eq, if_neg (fun h => hne h.1)]
        rw [if_neg hpp, hb2 p (by omega) hp2', hset]
        congr 1
        by_cases hq : p = page + 1
        · subst hq; simp
        · rw [if_neg hq]
    · intro k hk
      rw [hf2 k (fun p hp1' hp2' => hk p (by omega) hp2'), hb1, getD_set_eq,
        if_neg (fun h => hk page (le_refl _) hpl h.1.symm)]

theorem shift3_eq_div (y : Nat) : y >>> 3 = y / 8 := by
  rw [Nat.shiftRight_eq_div_pow]

theorem and7_eq_mod (y : Nat) : y &&& 7 = y % 8 := by
  have := Nat.and_pow_two_sub_one_eq_mod y 3
  simpa using this

theorem testBit_255 (b : Nat) (hb : b < 8) : (255 : Nat).testBit b = true := by
  have h255 : (255 : Nat) = 2 ^ 8 - 1 := by norm_num
  rw [h255, Nat.testBit_two_pow_sub_one]
  simp [hb]

theorem testBit_vline_byte (c : bw_disp_clr_t) (m o b : Nat) (hb : b < 8) :
    (vline_byte c m o).testBit b =
      if m.testBit b = true then decide (c = BWDC_WHITE) else o.testBit b := by
  unfold vline_byte
  have h256 : (256 : Nat) = 2 ^ 8 := by norm_num
  cases c
  · simp only [reduceCtorEq, if_false, Nat.testBit_and, testBit_not8 _ _ hb]
    cases m.testBit b <;> simp
  · simp only [if_true, h256, Nat.testBit_mod_two_pow, Nat.testBit_or]
    cases m.testBit b <;> simp [hb]

/-- The masks used by `bw_disp_vline` select exactly the rows of page `p`
that lie in `[y, y + h)`. -/
theorem vline_mask_testBit (y h p b : Nat) (hh : 1 ≤ h) (hb : b < 8)
    (hp1 : y >>> 3 ≤ p) (hp2 : p ≤ (y + h - 1) >>> 3) :
    (if p = y >>> 3 then
        mask_or_loop (if y >>> 3 < (y + h - 1) >>> 3 then 1 <<< 7
          else 1 <<< ((y + h - 1) &&& 0x07)) 8 (1 <<< (y &&& 0x07)) 0
      else if p < (y + h - 1) >>> 3 then 0xFF
      else mask_or_loop (1 <<< ((y + h - 1) &&& 0x07)) 8 1 0).testBit b
    = decide (y ≤ 8 * p + b ∧ 8 * p + b < y + h) := by
  have hs := and7_lt y
  have he := and7_lt (y + h - 1)
  rw [shift3_eq_div] at hp1 hp2 ⊢
  rw [shift3_eq_div]
  have es := and7_eq_mod y
  have ee := and7_eq_mod (y + h - 1)
  by_cases h1 : p = y / 8
  · rw [if_pos h1]
    by_cases h2 : y / 8 < (y + h - 1) / 8
    · rw [if_pos h2, mask_or_loop_testBit _ hs 7 (by decide) b hb]
      apply decide_eq_decide.mpr
      omega
    · rw [if_neg h2, mask_or_loop_testBit _ hs _ he b hb]
      apply decide_eq_decide.mpr
      omega
  · rw [if_neg h1]
    by_cases h2 : p < (y + h - 1) / 8
    · rw [if_pos h2, testBit_255 b hb]
      symm
      apply decide_eq_true
      omega
    · rw [if_neg h2]
      have := mask_or_loop_testBit 0 (by decide) _ he b hb
      rw [show (1 <<< 0 : Nat) = 1 from rfl] at this
      rw [this]
      apply decide_eq_decide.mpr
      omega

theorem vline_bytes {st : bw_disp_state} {handle : Nat} {inst : bw_disp_t}
    (x y h : Nat) (c : bw_disp_clr_t)
    (hinst : bw_disp_get_instance st handle = some inst) (hwf : inst_wf inst)
    (hx : x < inst.disp_if.width) (hy : y < inst.disp_if.height) (hh : 1 ≤ h)
    (hyh : y + h ≤ inst.disp_if.height) :
    ∃ inst1, bw_disp_vline st handle x y h c = .ok (ESP_OK, store_instance st handle inst1) ∧
      same_header inst inst1 ∧ inst1.buffer.length = inst.buffer.length ∧
      (∀ p, y >>> 3 ≤ p → p ≤ (y + h - 1) >>> 3 →
        inst1.buffer.getD (p * inst.disp_if.width + x) 0 =
          vline_byte c (if p = y >>> 3 then
              mask_or_loop (if y >>> 3 < (y + h - 1) >>> 3 then 1 <<< 7
                else 1 <<< ((y + h - 1) &&& 0x07)) 8 (1 <<< (y &&& 0x07)) 0
            else if p < (y + h - 1) >>> 3 then 0xFF
            else mask_or_loop (1 <<< ((y + h - 1) &&& 0x07)) 8 1 0)
            (inst.buffer.getD (p * inst.disp_if.width + x) 0)) ∧
      (∀ k, (∀ p, y >>> 3 ≤ p → p ≤ (y + h - 1) >>> 3 → k ≠ p * inst.disp_if.width + x) →
        inst1.buffer.getD k 0 = inst.buffer.getD k 0) := by
  have hwf' := hwf
  obtain ⟨_, _, _, hH, hpages, hlen⟩ := hwf'
  have hye : u16 ((y : Int) + h - 1) = y + h - 1 := by unfold u16; omega
  have hlast : (y + h - 1) >>> 3 < inst.page_num := by rw [shift3_eq_div]; omega
  obtain ⟨inst1, h1, hh1, hd1, hl1, hb1, hf1⟩ := vline_loop_spec x ((y + h - 1) >>> 3)
    (1 <<< ((y + h - 1) &&& 0x07)) c ((y + h - 1) >>> 3 + 1 - y >>> 3) (y >>> 3)
    (mask_or_loop (if y >>> 3 < (y + h - 1) >>> 3 then 1 <<< 7
                else 1 <<< ((y + h - 1) &&& 0x07)) 8 (1 <<< (y &&& 0x07)) 0)
    inst rfl hlast hx hlen
  obtain ⟨inst2, h2, hh2, hb2⟩ := set_dirty_rect_ok inst1 x y 1 h (by decide) hh
  refine ⟨inst2, ?_, same_header_trans hh1 hh2, by rw [hb2, hl1], ?_, ?_⟩
  · unfold bw_disp_vline
    rw [hinst]
    simp only [ge_iff_le, Nat.not_le.mpr hx, Nat.not_le.mpr hy, gt_iff_lt, Nat.not_lt.mpr hyh,
      or_self, if_false, hye]
    simp only [bind, Except.bind, h1, h2, pure, Except.pure]
  · intro p hp1 hp2
    rw [hb2, hb1 p hp1 hp2]
  · intro k hk
    rw [hb2, hf1 k hk]


/-- C8: on a valid handle, `bw_disp_vline` with `x < width`, `y < height`,
`h >= 1`, `y + h <= height` returns `ESP_OK`; afterwards the bits of column
`x` for the rows `y .. y+h-1` have the colour's value and every other
framebuffer bit is as before, so the pixels `(x, y) .. (x, y+h-1)` read `c` and
every other pixel reads as before.  The example of the claim: with
`5 < width` and `13 <= height`, `vline (x = 5, y = 3, h = 10, WHITE)` ORs 0xF8
into page 0 column 5 and 0x1F into page 1 column 5 and changes no other byte. -/
theorem vline_sets_exactly_the_column (st : bw_disp_state) (handle : Nat) (inst : bw_disp_t)
    (x y h : Nat) (c : bw_disp_clr_t)
    (hinst : bw_disp_get_instance st handle = some inst) (hwf : inst_wf inst)
    (hx : x < inst.disp_if.width) (hy : y < inst.disp_if.height) (hh : 1 ≤ h)
    (hyh : y + h ≤ inst.disp_if.height) :
    (∃ st1 inst1, bw_disp_vline st handle x y h c = .ok (ESP_OK, st1) ∧
      bw_disp_get_instance st1 handle = some inst1 ∧
      inst1.buffer.length = inst.buffer.length ∧
      (∀ p i b, p < inst.page_num → i < inst.disp_if.width → b < 8 →
        (inst1.buffer.getD (p * inst.disp_if.width + i) 0).testBit b =
          if i = x ∧ y ≤ 8 * p + b ∧ 8 * p + b < y + h then decide (c = BWDC_WHITE)
          else (inst.buffer.getD (p * inst.disp_if.width + i) 0).testBit b) ∧
      (∀ i j, i < inst.disp_if.width → j < inst.disp_if.height →
        bw_disp_get_pixel st1 handle i j =
          if i = x ∧ y ≤ j ∧ j < y + h then .ok (ESP_OK, some c)
          else bw_disp_get_pixel st handle i j)) ∧
    (5 < inst.disp_if.width → 13 ≤ inst.disp_if.height →
      ∃ st1 inst1, bw_disp_vline st handle 5 3 10 BWDC_WHITE = .ok (ESP_OK, st1) ∧
        bw_disp_get_instance st1 handle = some inst1 ∧
        inst1.buffer.getD (0 * inst.disp_if.width + 5) 0
          = (inst.buffer.getD (0 * inst.disp_if.width + 5) 0 ||| 0xF8) % 256 ∧
        inst1.buffer.getD (1 * inst.disp_if.width + 5) 0
          = (inst.buffer.getD (1 * inst.disp_if.width + 5) 0 ||| 0x1F) % 256 ∧
        ∀ k, k ≠ 0 * inst.disp_if.width + 5 → k ≠ 1 * inst.disp_if.width + 5 →
          inst1.buffer.getD k 0 = inst.buffer.getD k 0) := by
  constructor
  · obtain ⟨inst1, h1, hh1, hl1, hb1, hf1⟩ := vline_bytes x y h c hinst hwf hx hy hh hyh
    have hw1 : inst1.disp_if = inst.disp_if := hh1.2.2.2.1
    have hwf1 : inst_wf inst1 := inst_wf_of_same_header hwf hh1 hl1
    have hbits : ∀ p i b, p < inst.page_num → i < inst.disp_if.width → b < 8 →
        (inst1.buffer.getD (p * inst.disp_if.width + i) 0).testBit b =
          if i = x ∧ y ≤ 8 * p + b ∧ 8 * p + b < y + h then decide (c = BWDC_WHITE)
          else (inst.buffer.getD (p * inst.disp_if.width + i) 0).testBit b := by
      intro p i b hp hi hb
      by_cases hin : i = x ∧ y >>> 3 ≤ p ∧ p ≤ (y + h - 1) >>> 3
      · obtain ⟨rfl, hp1, hp2⟩ := hin
        rw [hb1 p hp1 hp2, testBit_vline_byte _ _ _ _ hb, vline_mask_testBit y h p b hh hb hp1 hp2]
        simp only [decide_eq_true_eq, true_and]
      · rw [hf1, if_neg]
        · rintro ⟨a1, a2, a3⟩
          apply hin
          rw [shift3_eq_div, shift3_eq_div]
          exact ⟨a1, by omega, by omega⟩
        · intro q hq1 hq2 heq
          apply hin
          have hpq : p = q := by
            rcases Nat.lt_trichotomy p q with h | h | h
            · have := mul_add_le_of_lt inst.disp_if.width h; omega
            · exact h
            · have := mul_add_le_of_lt inst.disp_if.width h; omega
          subst hpq
          exact ⟨by omega, hq1, hq2⟩
    refine ⟨_, inst1, h1, get_instance_store hinst inst1, hl1, hbits, ?_⟩
    intro i j hi hj
    rw [get_pixel_eq (get_instance_store hinst inst1) hwf1 (by rw [hw1]; exact hi)
      (by rw [hw1]; exact hj), get_pixel_eq hinst hwf hi hj]
    unfold pixel_bit
    have hpj := page_index_lt hwf hi hj
    rw [hw1, hbits _ _ _ hpj.1 hi (and7_lt j)]
    have hj8 : 8 * (j >>> 3) + (j &&& 7) = j := by
      rw [shift3_eq_div, and7_eq_mod]; omega
    rw [hj8]
    by_cases hc : i = x ∧ y ≤ j ∧ j < y + h
    · rw [if_pos hc, if_pos hc]
      cases c <;> rfl
    · rw [if_neg hc, if_neg hc]
  · intro h5 h13
    obtain ⟨inst1, h1, hh1, hl1, hb1, hf1⟩ := vline_bytes 5 3 10 BWDC_WHITE hinst hwf h5
      (by omega) (by decide) (by omega)
    refine ⟨_, inst1, h1, get_instance_store hinst inst1, ?_, ?_, ?_⟩
    · rw [hb1 0 (by decide) (by decide)]
      rfl
    · rw [hb1 1 (by decide) (by decide)]
      rfl
    · intro k hk0 hk1
      apply hf1
      intro p hp1 hp2
      have : p = 0 ∨ p = 1 := by
        have : (3 + 10 - 1) >>> 3 = 1 := by decide
        omega
      rcases this with rfl | rfl
      · exact hk0
      · exact hk1

/-- Witness of C8 on the freshly initialised 128x64 display: the white
column `x = 5, y = 3, h = 10`. -/
theorem vline_sets_exactly_the_column_witness :
    ∃ st1 inst1, bw_disp_vline sh1106_state 1 5 3 10 BWDC_WHITE = .ok (ESP_OK, st1) ∧
      bw_disp_get_instance st1 1 = some inst1 ∧
      inst1.buffer.length = sh1106_inst.buffer.length ∧
      (∀ p i b, p < sh1106_inst.page_num → i < sh1106_inst.disp_if.width → b < 8 →
        (inst1.buffer.getD (p * sh1106_inst.disp_if.width + i) 0).testBit b =
          if i = 5 ∧ 3 ≤ 8 * p + b ∧ 8 * p + b < 3 + 10 then decide (BWDC_WHITE = BWDC_WHITE)
          else (sh1106_inst.buffer.getD (p * sh1106_inst.disp_if.width + i) 0).testBit b) ∧
      (∀ i j, i < sh1106_inst.disp_if.width → j < sh1106_inst.disp_if.height →
        bw_disp_get_pixel st1 1 i j =
          if i = 5 ∧ 3 ≤ j ∧ j < 3 + 10 then .ok (ESP_OK, some BWDC_WHITE)
          else bw_disp_get_pixel sh1106_state 1 i j) :=
  (vline_sets_exactly_the_column sh1106_state 1 sh1106_inst 5 3 10 BWDC_WHITE sh1106_inst_valid
    sh1106_inst_wf (by decide) (by decide) (by decide) (by decide)).1

theorem image_src_pixels_eq (img : bw_image_t) (first_img_page last_img_page img_page shrp shlc
    ix i : Nat) (inv_img : Bool) (img_mask : Nat)
    (h : image_reads_ok img first_img_page last_img_page img_page shrp ix i) :
    image_src_pixels img first_img_page last_img_page img_page shrp shlc ix i inv_img img_mask
      = .ok (image_src_pixels_val img first_img_page last_img_page img_page shrp shlc ix i
          inv_img img_mask) := by
  obtain ⟨h1, h2⟩ := h
  unfold image_src_pixels image_src_pixels_val image_read
  by_cases c1 : img_page > first_img_page ∧ shrp > 0
  · by_cases c2 : img_page ≤ last_img_page
    · simp only [c1, c2, and_self, if_true, h1 c1, h2 c2, bind, Except.bind, pure, Except.pure]
    · simp only [c1, c2, and_self, if_true, if_false, h1 c1, bind, Except.bind, pure,
        Except.pure, Nat.or_zero]
  · by_cases c2 : img_page ≤ last_img_page
    · simp only [c1, c2, if_true, if_false, h2 c2, bind, Except.bind, pure, Except.pure]
    · simp only [c1, c2, if_false, bind, Except.bind, pure, Except.pure, Nat.or_zero]

theorem pages_read_at {inst : bw_disp_t} {page x : Nat} (h1 : page < inst.page_num)
    (h2 : page * inst.disp_if.width + x < inst.buffer.length) :
    pages_read inst page x = .ok (inst.buffer.getD (page * inst.disp_if.width + x) 0) := by
  unfold pages_read
  rw [if_pos ⟨h1, h2⟩]
  rfl

theorem pages_write_at {inst : bw_disp_t} {page x : Nat} (h1 : page < inst.page_num)
    (h2 : page * inst.disp_if.width + x < inst.buffer.length) (v : Nat) :
    ∃ inst1, pages_write inst page x v = .ok inst1 ∧ same_header inst inst1 ∧
      inst1.dirty_rect = inst.dirty_rect ∧
      inst1.buffer = inst.buffer.set (page * inst.disp_if.width + x) v := by
  unfold pages_write
  rw [if_pos ⟨h1, h2⟩]
  exact ⟨_, rfl, same_header_refl _, rfl, rfl⟩

theorem image_col_loop_spec (img : bw_image_t) (first_img_page last_img_page img_page shrp shlc
    x ix : Nat) (inv_img : Bool) (mode : bw_disp_img_draw_mode_t) (page page_mask : Nat) :
    ∀ (n i : Nat) (inst : bw_disp_t), page < inst.page_num →
      page * inst.disp_if.width + x + i + n ≤ inst.buffer.length →
      (∀ j, i ≤ j → j < i + n →
        image_reads_ok img first_img_page last_img_page img_page shrp ix j) →
      ∃ inst1, image_col_loop img first_img_page last_img_page img_page shrp shlc x ix inv_img
          mode page page_mask n i inst = .ok inst1 ∧
        same_header inst inst1 ∧ inst1.dirty_rect = inst.dirty_rect ∧
        inst1.buffer.length = inst.buffer.length ∧
        ∀ k, inst1.buffer.getD k 0 =
          if page * inst.disp_if.width + x + i ≤ k ∧ k < page * inst.disp_if.width + x + i + n
          then image_combine mode
            (image_src_pixels_val img first_img_page last_img_page img_page shrp shlc ix
              (k - (page * inst.disp_if.width + x)) inv_img (not8 page_mask))
            (inst.buffer.getD k 0) page_mask
          else inst.buffer.getD k 0 := by
  intro n
  induction n with
  | zero =>
    intro i inst _ _ _
    refine ⟨inst, rfl, same_header_refl _, rfl, rfl, fun k => ?_⟩
    rw [if_neg (by omega)]
  | succ n ih =>
    intro i inst hp hlen hreads
    have hidx : page * inst.disp_if.width + (x + i) < inst.buffer.length := by omega
    obtain ⟨inst1, h1, hh1, hd1, hb1⟩ := pages_write_at hp hidx (image_combine mode
      (image_src_pixels_val img first_img_page last_img_page img_page shrp shlc ix i inv_img
        (not8 page_mask)) (inst.buffer.getD (page * inst.disp_if.width + (x + i)) 0) page_mask)
    have hw1 : inst1.disp_if.width = inst.disp_if.width := by rw [hh1.2.2.2.1]
    have hp1 : inst1.page_num = inst.page_num := hh1.2.2.2.2.1
    have hl1 : inst1.buffer.length = inst.buffer.length := by rw [hb1, List.length_set]
    obtain ⟨inst2, h2, hh2, hd2, hl2, hb2⟩ := ih (i + 1) inst1 (by rw [hp1]; exact hp)
      (by rw [hl1, hw1]; omega) (fun j hj1 hj2 => hreads j (by omega) (by omega))
    rw [hw1] at hb2
    refine ⟨inst2, ?_, same_header_trans hh1 hh2, hd2.trans hd1, hl2.trans hl1, fun k => ?_⟩
    · unfold image_col_loop
      unfold image_combine at h1
      simp only [image_src_pixels_eq _ _ _ _ _ _ _ _ _ _ (hreads i (le_refl _) (by omega)),
        pages_read_at hp hidx, bind, Except.bind, h1]
      exact h2
    · rw [hb2 k, hb1, getD_set_eq]
      by_cases hk : page * inst.disp_if.width + (x + i) = k
      · rw [if_neg (by omega), if_pos ⟨hk, hidx⟩, if_pos (by omega)]
        subst hk
        congr 2
        omega
      · by_cases hk2 : page * inst.disp_if.width + x + (i + 1) ≤ k ∧
            k < page * inst.disp_if.width + x + (i + 1) + n
        · rw [if_pos hk2, if_neg (fun h => hk h.1), if_pos (by omega)]
        · rw [if_neg hk2, if_neg (fun h => hk h.1), if_neg (by omega)]

theorem image_page_loop_spec (img : bw_image_t) (first_img_page last_img_page shrp shlc
    x ix iw : Nat) (inv_img : Bool) (mode : bw_disp_img_draw_mode_t)
    (last_page last_page_mask : Nat) :
    ∀ (n page img_page page_mask : Nat) (inst : bw_disp_t), n = last_page + 1 - page →
      last_page < inst.page_num → x + iw ≤ inst.disp_if.width →
      inst.buffer.length = inst.page_num * inst.disp_if.width →
      (∀ p, page ≤ p → p ≤ last_page → ∀ j, j < iw →
        image_reads_ok img first_img_page last_img_page (img_page + (p - page)) shrp ix j) →
      ∃ inst1, image_page_loop img first_img_page last_img_page shrp shlc x ix iw inv_img mode
          last_page last_page_mask n page img_page page_mask inst = .ok inst1 ∧
        same_header inst inst1 ∧ inst1.dirty_rect = inst.dirty_rect ∧
        inst1.buffer.length = inst.buffer.length ∧
        (∀ p, page ≤ p → p ≤ last_page → ∀ j, j < iw →
          inst1.buffer.getD (p * inst.disp_if.width + x + j) 0 =
            image_combine mode
              (image_src_pixels_val img first_img_page last_img_page (img_page + (p - page))
                shrp shlc ix j inv_img
                (not8 (if p = page then page_mask else if p < last_page then 0
                  else last_page_mask)))
              (inst.buffer.getD (p * inst.disp_if.width + x + j) 0)
              (if p = page then page_mask else if p < last_page then 0 else last_page_mask)) ∧
        (∀ k, (∀ p, page ≤ p → p ≤ last_page → ∀ j, j < iw →
            k ≠ p * inst.disp_if.width + x + j) →
          inst1.buffer.getD k 0 = inst.buffer.getD k 0) := by
  intro n
  induction n with
  | zero =>
    intro page img_page page_mask inst hn _ _ _ _
    refine ⟨inst, rfl, same_header_refl _, rfl, rfl, fun p h1 h2 => ?_, fun k _ => rfl⟩
    omega
  | succ n ih =>
    intro page img_page page_mask inst hn hlast hxw hlen hreads
    have hpl : page ≤ last_page := by omega
    have hrow : page * inst.disp_if.width + inst.disp_if.width ≤ inst.buffer.length := by
      rw [hlen]; exact mul_add_le_of_lt _ (by omega)
    obtain ⟨inst1, h1, hh1, hd1, hl1, hb1⟩ := image_col_loop_spec img first_img_page
      last_img_page img_page shrp shlc x ix inv_img mode page page_mask iw 0 inst (by omega)
      (by omega) (fun j _ hj => by
        have := hreads page (le_refl _) hpl j (by omega)
        rwa [Nat.sub_self, Nat.add_zero] at this)
    have hw1 : inst1.disp_if.width = inst.disp_if.width := by rw [hh1.2.2.2.1]
    have hp1 : inst1.page_num = inst.page_num := hh1.2.2.2.2.1
    obtain ⟨inst2, h2, hh2, hd2, hl2, hb2, hf2⟩ := ih (page + 1) (img_page + 1)
      (if page + 1 < last_page then 0 else last_page_mask) inst1 (by omega)
      (by rw [hp1]; exact hlast) (by rw [hw1]; exact hxw) (by rw [hl1, hp1, hw1]; exact hlen)
      (fun p hp1' hp2' j hj => by
        have := hreads p (by omega) hp2' j hj
        rwa [show img_page + 1 + (p - (page + 1)) = img_page + (p - page) by omega])
    rw [hw1] at hb2 hf2
    refine ⟨inst2, ?_, same_header_trans hh1 hh2, hd2.trans hd1, hl2.trans hl1, ?_, ?_⟩
    · unfold image_page_loop
      rw [if_pos hpl]
      simp only [bind, Except.bind, h1]
      exact h2
    · intro p hp1' hp2' j hj
      by_cases hpp : p = page
      · subst hpp
        rw [if_pos rfl, hf2 _ (fun q hq1 hq2 j' hj' => by
          have := mul_add_le_of_lt inst.disp_if.width (show p < q by omega); omega),
          hb1, if_pos (by omega), Nat.sub_self, Nat.add_zero]
        congr 2
        omega
      · have hne : ¬ (page * inst.disp_if.width + x + 0 ≤ p * inst.disp_if.width + x + j ∧
            p * inst.disp_if.width + x + j < page * inst.disp_if.width + x + 0 + iw) := by
          have := mul_add_le_of_lt inst.disp_if.width (show page < p by omega); omega
        have hset : inst1.buffer.getD (p * inst.disp_if.width + x + j) 0
            = inst.buffer.getD (p * inst.disp_if.width + x + j) 0 := by
          rw [hb1, if_neg hne]
        rw [if_neg hpp, hb2 p (by omega) hp2' j hj, hset,
          show img_page + 1 + (p - (page + 1)) = img_page + (p - page) by omega]
        by_cases hq : p = page + 1
        · subst hq; simp
        · rw [if_neg hq]
    · intro k hk
      rw [hf2 k (fun p hp1' hp2' j hj => hk p (by omega) hp2' j hj), hb1, if_neg]
      rintro ⟨a1, a2⟩
      exact hk page (le_refl _) hpl (k - (page * inst.disp_if.width + x)) (by omega) (by omega)

theorem clip_eq (len a b : Nat) (ha : a < 65536) :
    (if (len : Int) > (a : Int) - b then u16 ((a : Int) - b) else len) = min len (a - b)
      ∨ a < b := by
  unfold u16
  by_cases h : a < b
  · exact Or.inr h
  · left
    split <;> omega

theorem img_index_lt {width q c total : Nat} (hq : q < total) (hc : c < width) :
    width * q + c < total * width := by
  have := mul_add_le_of_lt width hq
  rw [Nat.mul_comm width q]
  omega

theorem image_reads_in_range (img : bw_image_t) (hiw : img_wf img) (y ix iy h p j : Nat)
    (hiy : iy + h ≤ img.height) (hh : 1 ≤ h) (hj : ix + j < img.width)
    (hp1 : y >>> 3 ≤ p) (hp2 : p ≤ (y + h - 1) >>> 3) :
    image_reads_ok img (iy >>> 3) ((iy + h - 1) >>> 3) (image_img_page y iy p)
      (image_shrp y iy) ix j := by
  obtain ⟨_, _, hlen, _⟩ := hiw
  unfold image_reads_ok image_img_page image_shrp
  rw [hlen]
  simp only [shift3_eq_div, and7_eq_mod] at hp1 hp2 ⊢
  constructor
  · intro hc
    rw [Nat.add_assoc]
    apply img_index_lt _ hj
    split at hc <;> split at hc <;> split <;> omega
  · intro hc
    rw [Nat.add_assoc]
    apply img_index_lt _ hj
    split at hc <;> split <;> omega

theorem image_sel_priv_full (inst : bw_disp_t) (x y ix iy iw ih : Nat) (inv_img : Bool)
    (mode : bw_disp_img_draw_mode_t) (img : bw_image_t)
    (hwf : inst_wf inst) (hiwf : img_wf img)
    (hx : x < inst.disp_if.width) (hy : y < inst.disp_if.height)
    (hix : ix < img.width) (hiy : iy < img.height)
    (hw : 1 ≤ image_clip iw img.width ix inst.disp_if.width x)
    (hh : 1 ≤ image_clip ih img.height iy inst.disp_if.height y) :
    ∃ inst1, bw_disp_image_sel_priv inst x y ix iy iw ih inv_img mode img = .ok (ESP_OK, inst1) ∧
      same_header inst inst1 ∧ inst1.buffer.length = inst.buffer.length ∧
      (∀ p, y >>> 3 ≤ p →
        p ≤ (y + image_clip ih img.height iy inst.disp_if.height y - 1) >>> 3 →
        ∀ j, j < image_clip iw img.width ix inst.disp_if.width x →
        inst1.buffer.getD (p * inst.disp_if.width + x + j) 0 =
          image_dest_byte mode inv_img img y ix iy
            (image_clip ih img.height iy inst.disp_if.height y) p j
            (inst.buffer.getD (p * inst.disp_if.width + x + j) 0)) ∧
      (∀ k, (∀ p, y >>> 3 ≤ p →
          p ≤ (y + image_clip ih img.height iy inst.disp_if.height y - 1) >>> 3 →
          ∀ j, j < image_clip iw img.width ix inst.disp_if.width x →
          k ≠ p * inst.disp_if.width + x + j) →
        inst1.buffer.getD k 0 = inst.buffer.getD k 0) ∧
      (inst.dirty_rect.x + inst.dirty_rect.width ≤ 65535 →
        inst.dirty_rect.y + inst.dirty_rect.height ≤ 65535 →
        inst1.dirty_rect = dirty_mark inst.dirty_rect
          { x := x, y := y, width := image_clip iw img.width ix inst.disp_if.width x,
            height := image_clip ih img.height iy inst.disp_if.height y }) := by
  have hwf' := hwf
  obtain ⟨_, _, hW, hH, hpages, hlen⟩ := hwf'
  have hiwf' := hiwf
  obtain ⟨hIW, hIH, _, _⟩ := hiwf'
  generalize hwd : image_clip iw img.width ix inst.disp_if.width x = w' at hw ⊢
  generalize hhd : image_clip ih img.height iy inst.disp_if.height y = h' at hh ⊢
  unfold image_clip at hwd hhd
  have e1 : (if (iw : Int) > (img.width : Int) - ix then u16 ((img.width : Int) - ix) else iw)
      = min iw (img.width - ix) := by
    unfold u16; split <;> omega
  have e2 : (if ((min iw (img.width - ix) : Nat) : Int) > (inst.disp_if.width : Int) - x
      then u16 ((inst.disp_if.width : Int) - x) else min iw (img.width - ix)) = w' := by
    unfold u16; split <;> omega
  have e3 : (if (ih : Int) > (img.height : Int) - iy then u16 ((img.height : Int) - iy) else ih)
      = min ih (img.height - iy) := by
    unfold u16; split <;> omega
  have e4 : (if ((min ih (img.height - iy) : Nat) : Int) > (inst.disp_if.height : Int) - y
      then u16 ((inst.disp_if.height : Int) - y) else min ih (img.height - iy)) = h' := by
    unfold u16; split <;> omega
  have e5 : u16 ((y : Int) + h' - 1) = y + h' - 1 := by unfold u16; omega
  have e6 : u16 ((iy : Int) + h' - 1) = iy + h' - 1 := by unfold u16; omega
  have hlast : (y + h' - 1) >>> 3 < inst.page_num := by rw [shift3_eq_div]; omega
  obtain ⟨inst1, h1, hh1, hd1, hl1, hb1, hf1⟩ := image_page_loop_spec img (iy >>> 3)
    ((iy + h' - 1) >>> 3) (image_shrp y iy) (image_shlc y iy) x ix w' inv_img mode
    ((y + h' - 1) >>> 3)
    (if (y + h' - 1) &&& 0x07 < 7 then high_mask_loop ((y + h' - 1) &&& 0x07) else 0)
    ((y + h' - 1) >>> 3 + 1 - y >>> 3) (y >>> 3)
    (if iy &&& 0x07 > y &&& 0x07 then iy >>> 3 + 1 else iy >>> 3)
    (if (y + h' - 1) &&& 0x07 < 7 ∧ y >>> 3 = (y + h' - 1) >>> 3
      then low_mask_loop (y &&& 0x07) |||
        (if (y + h' - 1) &&& 0x07 < 7 then high_mask_loop ((y + h' - 1) &&& 0x07) else 0)
      else low_mask_loop (y &&& 0x07))
    inst rfl hlast (by omega) hlen
    (fun p hp1 hp2 j hj => image_reads_in_range img hiwf y ix iy h' p j (by omega) hh
      (by omega) hp1 hp2)
  obtain ⟨inst2, h2, hh2, hb2, hd2⟩ := set_dirty_rect_marks inst1 x y w' h' hw hh
  refine ⟨inst2, ?_, same_header_trans hh1 hh2, by rw [hb2, hl1], ?_, ?_, ?_⟩
  · unfold bw_disp_image_sel_priv
    simp only [e1, e2, e3, e4, e5, e6]
    unfold image_shrp image_shlc image_shrp at h1
    simp only [bind, Except.bind, h1, h2, pure, Except.pure]
  · intro p hp1 hp2 j hj
    rw [hb2, hb1 p hp1 hp2 j hj]
    rfl
  · intro k hk
    rw [hb2, hf1 k hk]
  · intro hdx hdy
    rw [hd1] at hd2
    exact hd2 (by omega) (by omega) hdx hdy

theorem image_sel_priv_bytes (inst : bw_disp_t) (x y ix iy iw ih : Nat) (inv_img : Bool)
    (mode : bw_disp_img_draw_mode_t) (img : bw_image_t)
    (hwf : inst_wf inst) (hiwf : img_wf img)
    (hx : x < inst.disp_if.width) (hy : y < inst.disp_if.height)
    (hix : ix < img.width) (hiy : iy < img.height)
    (hw : 1 ≤ image_clip iw img.width ix inst.disp_if.width x)
    (hh : 1 ≤ image_clip ih img.height iy inst.disp_if.height y) :
    ∃ inst1, bw_disp_image_sel_priv inst x y ix iy iw ih inv_img mode img = .ok (ESP_OK, inst1) ∧
      same_header inst inst1 ∧ inst1.buffer.length = inst.buffer.length ∧
      (∀ p, y >>> 3 ≤ p →
        p ≤ (y + image_clip ih img.height iy inst.disp_if.height y - 1) >>> 3 →
        ∀ j, j < image_clip iw img.width ix inst.disp_if.width x →
        inst1.buffer.getD (p * inst.disp_if.width + x + j) 0 =
          image_dest_byte mode inv_img img y ix iy
            (image_clip ih img.height iy inst.disp_if.height y) p j
            (inst.buffer.getD (p * inst.disp_if.width + x + j) 0)) ∧
      (∀ k, (∀ p, y >>> 3 ≤ p →
          p ≤ (y + image_clip ih img.height iy inst.disp_if.height y - 1) >>> 3 →
          ∀ j, j < image_clip iw img.width ix inst.disp_if.width x →
          k ≠ p * inst.disp_if.width + x + j) →
        inst1.buffer.getD k 0 = inst.buffer.getD k 0) := by
  obtain ⟨inst1, h1, h2, h3, h4, h5, _⟩ := image_sel_priv_full inst x y ix iy iw ih inv_img mode
    img hwf hiwf hx hy hix hiy hw hh
  exact ⟨inst1, h1, h2, h3, h4, h5⟩

theorem low_mask_loop_testBit : ∀ yo < 8, ∀ b < 8,
    (low_mask_loop yo).testBit b = decide (b < yo) := by
  decide

theorem high_mask_loop_testBit : ∀ lyo < 8, ∀ b < 8,
    (if lyo < 7 then high_mask_loop lyo else 0).testBit b = decide (lyo < b) := by
  decide

/-- The page masks of `bw_disp_image_sel_priv` select exactly the rows of page
`p` that lie outside `[y, y + h)`. -/
theorem image_page_mask_testBit (y h p b : Nat) (hh : 1 ≤ h) (hb : b < 8)
    (hp1 : y >>> 3 ≤ p) (hp2 : p ≤ (y + h - 1) >>> 3) :
    (image_page_mask y h p).testBit b = decide (8 * p + b < y ∨ y + h ≤ 8 * p + b) := by
  have hs := and7_lt y
  have he := and7_lt (y + h - 1)
  have hlow := low_mask_loop_testBit _ hs b hb
  have hhigh := high_mask_loop_testBit _ he b hb
  unfold image_page_mask
  rw [shift3_eq_div] at hp1 hp2
  have es := and7_eq_mod y
  have ee := and7_eq_mod (y + h - 1)
  simp only [shift3_eq_div]
  by_cases h1 : p = y / 8
  · rw [if_pos h1]
    by_cases h2 : (y + h - 1) &&& 7 < 7 ∧ y / 8 = (y + h - 1) / 8
    · rw [if_pos h2, Nat.testBit_or, hlow, hhigh]
      rw [← Bool.decide_or]
      apply decide_eq_decide.mpr
      omega
    · rw [if_neg h2, hlow]
      apply decide_eq_decide.mpr
      omega
  · rw [if_neg h1]
    by_cases h2 : p < (y + h - 1) / 8
    · rw [if_pos h2, Nat.zero_testBit]
      symm
      apply decide_eq_false
      omega
    · rw [if_neg h2, hhigh]
      apply decide_eq_decide.mpr
      omega

theorem u8_cast (n : Nat) : u8 (n : Int) = n % 256 := by
  unfold u8; omega

theorem testBit_u8_cast (n b : Nat) (hb : b < 8) : (u8 (n : Int)).testBit b = n.testBit b := by
  have h256 : (256 : Nat) = 2 ^ 8 := by norm_num
  rw [u8_cast, h256, Nat.testBit_mod_two_pow]
  simp [hb]

theorem img_byte_lt {img : bw_image_t} (hiwf : img_wf img) (k : Nat) :
    img.image.getD k 0 < 256 := by
  obtain ⟨_, _, _, hb⟩ := hiwf
  rw [List.getD_eq_getElem?_getD]
  by_cases hk : k < img.image.length
  · rw [List.getElem?_eq_getElem hk]
    exact hb _ (List.getElem_mem _)
  · rw [List.getElem?_eq_none (by omega)]
    decide

theorem testBit_byte_high {v : Nat} (hv : v < 256) {i : Nat} (hi : 8 ≤ i) :
    v.testBit i = false := by
  apply Nat.testBit_lt_two_pow
  calc v < 2 ^ 8 := hv
    _ ≤ 2 ^ i := Nat.pow_le_pow_right (by decide) hi

theorem masked_part_testBit (c : Prop) [Decidable c] (v mask b : Nat)
    (hm : mask.testBit b = true) :
    (if c then v &&& mask else 0).testBit b = (decide c && v.testBit b) := by
  by_cases h : c
  · simp [h, Nat.testBit_and, hm]
  · simp [h]

theorem img_index_eq (w a b ix j : Nat) (h : a = b) : w * a + ix + j = b * w + (ix + j) := by
  subst h
  rw [Nat.mul_comm, Nat.add_assoc]

/-- Non-inverted source bits of a destination byte, at a row inside the blit:
the bit is the image pixel the row maps to. -/
theorem image_src_pixels_val_testBit (img : bw_image_t) (hiwf : img_wf img)
    (y ix iy h p j b mask : Nat)
    (hb : b < 8) (hm : mask.testBit b = true)
    (hr1 : y ≤ 8 * p + b) (hr2 : 8 * p + b < y + h) :
    (image_src_pixels_val img (iy >>> 3) ((iy + h - 1) >>> 3) (image_img_page y iy p)
      (image_shrp y iy) (image_shlc y iy) ix j false mask).testBit b
    = img_pixel img (ix + j) (iy + (8 * p + b - y)) := by
  have hL : image_shlc y iy = if image_shrp y iy > 0 then 8 - image_shrp y iy else 0 := rfl
  have hS : (iy % 8 ≥ y % 8 ∧ image_shrp y iy = iy % 8 - y % 8) ∨
      (iy % 8 < y % 8 ∧ image_shrp y iy = iy % 8 + 8 - y % 8) := by
    unfold image_shrp
    simp only [and7_eq_mod]
    split <;> omega
  have hP : (iy % 8 > y % 8 ∧ image_img_page y iy p = iy / 8 + 1 + (p - y / 8)) ∨
      (iy % 8 ≤ y % 8 ∧ image_img_page y iy p = iy / 8 + (p - y / 8)) := by
    unfold image_img_page
    simp only [and7_eq_mod, shift3_eq_div]
    split <;> omega
  generalize image_shrp y iy = shrp at hL hS ⊢
  generalize image_shlc y iy = shlc at hL ⊢
  generalize image_img_page y iy p = ipg at hP ⊢
  have hL' : (shrp > 0 ∧ shlc = 8 - shrp) ∨ (shrp = 0 ∧ shlc = 0) := by
    rw [hL]; split <;> omega
  clear hL
  unfold image_src_pixels_val img_pixel
  simp only [Bool.false_eq_true, if_false, Nat.zero_or, shift3_eq_div, and7_eq_mod]
  have hprev := img_byte_lt hiwf ((img.width * (ipg - 1)) + ix + j)
  rw [Nat.testBit_or, masked_part_testBit _ _ _ _ hm, masked_part_testBit _ _ _ _ hm,
    testBit_u8_cast _ _ hb, testBit_u8_cast _ _ hb, Nat.testBit_shiftRight, Nat.testBit_shiftLeft]
  by_cases hlt : shrp + b < 8
  · by_cases hz : shrp = 0
    · -- aligned: the current image page, no shift
      have e : ipg = (iy + (8 * p + b - y)) / 8 := by omega
      have e2 : b - shlc = (iy + (8 * p + b - y)) % 8 := by omega
      rw [img_index_eq _ _ _ _ _ e, e2]
      have c1 : ¬ (ipg > iy / 8 ∧ shrp > 0) := by omega
      have c2 : ipg ≤ (iy + h - 1) / 8 := by omega
      have c3 : b ≥ shlc := by omega
      rw [decide_eq_false c1, decide_eq_true c2, decide_eq_true c3]
      simp
    · -- the bit comes from the previous image page
      have e : ipg - 1 = (iy + (8 * p + b - y)) / 8 := by omega
      have e2 : shrp + b = (iy + (8 * p + b - y)) % 8 := by omega
      rw [img_index_eq _ _ _ _ _ e, e2]
      have c1 : ipg > iy / 8 ∧ shrp > 0 := by omega
      have c3 : ¬ b ≥ shlc := by omega
      rw [decide_eq_true c1, decide_eq_false c3]
      simp
  · -- the bit comes from the current image page
    have e : ipg = (iy + (8 * p + b - y)) / 8 := by omega
    have e2 : b - shlc = (iy + (8 * p + b - y)) % 8 := by omega
    rw [testBit_byte_high hprev (by omega), img_index_eq _ _ _ _ _ e, e2]
    have c2 : ipg ≤ (iy + h - 1) / 8 := by omega
    have c3 : b ≥ shlc := by omega
    rw [decide_eq_true c2, decide_eq_true c3]
    simp

/-- Source bits are masked: outside the image mask they are clear. -/
theorem image_src_pixels_val_masked (img : bw_image_t) (fip lip ipg shrp shlc ix j : Nat)
    (inv_img : Bool) (mask b : Nat) (hm : mask.testBit b = false) :
    (image_src_pixels_val img fip lip ipg shrp shlc ix j inv_img mask).testBit b = false := by
  unfold image_src_pixels_val
  rw [Nat.testBit_or]
  have h1 : ∀ (c : Prop) [Decidable c] (v : Nat), (if c then v &&& mask else 0).testBit b = false := by
    intro c _ v
    by_cases h : c
    · simp [h, Nat.testBit_and, hm]
    · simp [h]
  have h2 : ∀ (c : Prop) [Decidable c] (v : Nat),
      (if c then 0 ||| (v &&& mask) else 0).testBit b = false := by
    intro c _ v
    rw [Nat.zero_or]
    exact h1 c v
  rw [h1, h2]
  rfl

/-- One bit of the byte stored by a non-inverted OVERRIDE blit: inside the
rows `[y, y + h)` it is the image pixel, outside it is the old bit. -/
theorem image_dest_byte_override_testBit (img : bw_image_t) (hiwf : img_wf img)
    (y ix iy h p j old b : Nat) (hh : 1 ≤ h) (hb : b < 8)
    (hp1 : y >>> 3 ≤ p) (hp2 : p ≤ (y + h - 1) >>> 3) :
    (image_dest_byte BWDM_OVERRIDE false img y ix iy h p j old).testBit b =
      if y ≤ 8 * p + b ∧ 8 * p + b < y + h then img_pixel img (ix + j) (iy + (8 * p + b - y))
      else old.testBit b := by
  unfold image_dest_byte image_combine
  have hpm := image_page_mask_testBit y h p b hh hb hp1 hp2
  simp only []
  rw [testBit_u8_cast _ _ hb, Nat.testBit_or, Nat.testBit_and, hpm]
  by_cases hin : y ≤ 8 * p + b ∧ 8 * p + b < y + h
  · have hm : (not8 (image_page_mask y h p)).testBit b = true := by
      rw [testBit_not8 _ _ hb, hpm]
      simp only [Bool.not_eq_true', decide_eq_false_iff_not]
      omega
    rw [if_pos hin, image_src_pixels_val_testBit img hiwf y ix iy h p j b _ hb hm hin.1 hin.2,
      decide_eq_false (by omega)]
    simp
  · have hm : (not8 (image_page_mask y h p)).testBit b = false := by
      rw [testBit_not8 _ _ hb, hpm]
      simp only [Bool.not_eq_false', decide_eq_true_eq]
      omega
    rw [if_neg hin, image_src_pixels_val_masked _ _ _ _ _ _ _ _ _ _ _ hm,
      decide_eq_true (by omega)]
    simp

theorem image_clip_idem (len a b c d : Nat) :
    image_clip (min len (a - b)) a b c d = image_clip len a b c d := by
  unfold image_clip
  omega

theorem image_sel_ex_full {st : bw_disp_state} {handle : Nat} {inst : bw_disp_t}
    (x y ix iy iw ih : Nat) (inv_img : Bool) (mode : bw_disp_img_draw_mode_t) (img : bw_image_t)
    (hinst : bw_disp_get_instance st handle = some inst)
    (hwf : inst_wf inst) (hiwf : img_wf img)
    (hx : x < inst.disp_if.width) (hy : y < inst.disp_if.height)
    (hix : ix < img.width) (hiy : iy < img.height)
    (hw : 1 ≤ image_clip iw img.width ix inst.disp_if.width x)
    (hh : 1 ≤ image_clip ih img.height iy inst.disp_if.height y) :
    ∃ inst1, bw_disp_image_sel_ex st handle x y ix iy iw ih inv_img mode img
        = .ok (ESP_OK, store_instance st handle inst1) ∧
      same_header inst inst1 ∧ inst1.buffer.length = inst.buffer.length ∧
      (∀ p, y >>> 3 ≤ p →
        p ≤ (y + image_clip ih img.height iy inst.disp_if.height y - 1) >>> 3 →
        ∀ j, j < image_clip iw img.width ix inst.disp_if.width x →
        inst1.buffer.getD (p * inst.disp_if.width + x + j) 0 =
          image_dest_byte mode inv_img img y ix iy
            (image_clip ih img.height iy inst.disp_if.height y) p j
            (inst.buffer.getD (p * inst.disp_if.width + x + j) 0)) ∧
      (∀ k, (∀ p, y >>> 3 ≤ p →
          p ≤ (y + image_clip ih img.height iy inst.disp_if.height y - 1) >>> 3 →
          ∀ j, j < image_clip iw img.width ix inst.disp_if.width x →
          k ≠ p * inst.disp_if.width + x + j) →
        inst1.buffer.getD k 0 = inst.buffer.getD k 0) ∧
      (inst.dirty_rect.x + inst.dirty_rect.width ≤ 65535 →
        inst.dirty_rect.y + inst.dirty_rect.height ≤ 65535 →
        inst1.dirty_rect = dirty_mark inst.dirty_rect
          { x := x, y := y, width := image_clip iw img.width ix inst.disp_if.width x,
            height := image_clip ih img.height iy inst.disp_if.height y }) := by
  have hiwf' := hiwf
  obtain ⟨hIW, hIH, _, _⟩ := hiwf'
  have e1 : (if (iw : Int) > (img.width : Int) - ix then u16 ((img.width : Int) - ix) else iw)
      = min iw (img.width - ix) := by
    unfold u16; split <;> omega
  have e3 : (if (ih : Int) > (img.height : Int) - iy then u16 ((img.height : Int) - iy) else ih)
      = min ih (img.height - iy) := by
    unfold u16; split <;> omega
  obtain ⟨inst1, h1, hh1, hl1, hb1, hf1, hd1⟩ := image_sel_priv_full inst x y ix iy
    (min iw (img.width - ix)) (min ih (img.height - iy)) inv_img mode img hwf hiwf hx hy hix hiy
    (by rw [image_clip_idem]; exact hw) (by rw [image_clip_idem]; exact hh)
  rw [image_clip_idem] at hb1 hf1 hd1
  rw [image_clip_idem] at hb1 hf1 hd1
  refine ⟨inst1, ?_, hh1, hl1, hb1, hf1, hd1⟩
  unfold bw_disp_image_sel_ex
  rw [hinst]
  simp only [ge_iff_le, Nat.not_le.mpr hx, Nat.not_le.mpr hy, Nat.not_le.mpr hix,
    Nat.not_le.mpr hiy, or_self, if_false, e1, e3, bind, Except.bind, h1, pure, Except.pure]

theorem image_sel_ex_bytes {st : bw_disp_state} {handle : Nat} {inst : bw_disp_t}
    (x y ix iy iw ih : Nat) (inv_img : Bool) (mode : bw_disp_img_draw_mode_t) (img : bw_image_t)
    (hinst : bw_disp_get_instance st handle = some inst)
    (hwf : inst_wf inst) (hiwf : img_wf img)
    (hx : x < inst.disp_if.width) (hy : y < inst.disp_if.height)
    (hix : ix < img.width) (hiy : iy < img.height)
    (hw : 1 ≤ image_clip iw img.width ix inst.disp_if.width x)
    (hh : 1 ≤ image_clip ih img.height iy inst.disp_if.height y) :
    ∃ inst1, bw_disp_image_sel_ex st handle x y ix iy iw ih inv_img mode img
        = .ok (ESP_OK, store_instance st handle inst1) ∧
      same_header inst inst1 ∧ inst1.buffer.length = inst.buffer.length ∧
      (∀ p, y >>> 3 ≤ p →
        p ≤ (y + image_clip ih img.height iy inst.disp_if.height y - 1) >>> 3 →
        ∀ j, j < image_clip iw img.width ix inst.disp_if.width x →
        inst1.buffer.getD (p * inst.disp_if.width + x + j) 0 =
          image_dest_byte mode inv_img img y ix iy
            (image_clip ih img.height iy inst.disp_if.height y) p j
            (inst.buffer.getD (p * inst.disp_if.width + x + j) 0)) ∧
      (∀ k, (∀ p, y >>> 3 ≤ p →
          p ≤ (y + image_clip ih img.height iy inst.disp_if.height y - 1) >>> 3 →
          ∀ j, j < image_clip iw img.width ix inst.disp_if.width x →
          k ≠ p * inst.disp_if.width + x + j) →
        inst1.buffer.getD k 0 = inst.buffer.getD k 0) := by
  obtain ⟨inst1, h1, h2, h3, h4, h5, _⟩ := image_sel_ex_full x y ix iy iw ih inv_img mode img
    hinst hwf hiwf hx hy hix hiy hw hh
  exact ⟨inst1, h1, h2, h3, h4, h5⟩

/-- Pixel-level effect of a non-inverted OVERRIDE blit. -/
theorem image_sel_ex_override_pixels {st : bw_disp_state} {handle : Nat} {inst : bw_disp_t}
    (x y ix iy iw ih : Nat) (img : bw_image_t)
    (hinst : bw_disp_get_instance st handle = some inst)
    (hwf : inst_wf inst) (hiwf : img_wf img)
    (hx : x < inst.disp_if.width) (hy : y < inst.disp_if.height)
    (hix : ix < img.width) (hiy : iy < img.height)
    (hw : 1 ≤ image_clip iw img.width ix inst.disp_if.width x)
    (hh : 1 ≤ image_clip ih img.height iy inst.disp_if.height y) :
    ∃ st1, bw_disp_image_sel_ex st handle x y ix iy iw ih false BWDM_OVERRIDE img
        = .ok (ESP_OK, st1) ∧
      (∀ i j, i < image_clip iw img.width ix inst.disp_if.width x →
        j < image_clip ih img.height iy inst.disp_if.height y →
        bw_disp_get_pixel st1 handle (x + i) (y + j)
          = .ok (ESP_OK, some (clr_of_bit (img_pixel img (ix + i) (iy + j))))) ∧
      (∀ a c, a < inst.disp_if.width → c < inst.disp_if.height →
        ¬ (x ≤ a ∧ a < x + image_clip iw img.width ix inst.disp_if.width x ∧
           y ≤ c ∧ c < y + image_clip ih img.height iy inst.disp_if.height y) →
        bw_disp_get_pixel st1 handle a c = bw_disp_get_pixel st handle a c) := by
  obtain ⟨inst1, h1, hh1, hl1, hb1, hf1⟩ := image_sel_ex_bytes x y ix iy iw ih false
    BWDM_OVERRIDE img hinst hwf hiwf hx hy hix hiy hw hh
  have hw1 : inst1.disp_if = inst.disp_if := hh1.2.2.2.1
  have hwf1 : inst_wf inst1 := inst_wf_of_same_header hwf hh1 hl1
  generalize hwd : image_clip iw img.width ix inst.disp_if.width x = w' at *
  generalize hhd : image_clip ih img.height iy inst.disp_if.height y = h' at *
  have hwb : x + w' ≤ inst.disp_if.width := by
    rw [← hwd]; unfold image_clip; omega
  have hhb : y + h' ≤ inst.disp_if.height ∧ iy + h' ≤ img.height := by
    rw [← hhd]; unfold image_clip; omega
  have hpix : ∀ a c, a < inst.disp_if.width → c < inst.disp_if.height →
      pixel_bit inst1 a c =
        if x ≤ a ∧ a < x + w' ∧ y ≤ c ∧ c < y + h' then img_pixel img (ix + (a - x)) (iy + (c - y))
        else pixel_bit inst a c := by
    intro a c ha hc
    unfold pixel_bit
    rw [hw1]
    have hc8 : 8 * (c >>> 3) + (c &&& 7) = c := by
      rw [shift3_eq_div, and7_eq_mod]; omega
    by_cases hcol : x ≤ a ∧ a < x + w' ∧ y >>> 3 ≤ c >>> 3 ∧ c >>> 3 ≤ (y + h' - 1) >>> 3
    · obtain ⟨ha1, ha2, hp1, hp2⟩ := hcol
      have := hb1 (c >>> 3) hp1 hp2 (a - x) (by omega)
      rw [show (c >>> 3) * inst.disp_if.width + x + (a - x) = (c >>> 3) * inst.disp_if.width + a
        by omega] at this
      rw [this, image_dest_byte_override_testBit img hiwf y ix iy h' (c >>> 3) (a - x) _ _ hh
        (and7_lt c) hp1 hp2, hc8]
      by_cases hrow : y ≤ c ∧ c < y + h'
      · rw [if_pos hrow, if_pos ⟨ha1, ha2, hrow.1, hrow.2⟩]
      · rw [if_neg hrow, if_neg (fun h => hrow ⟨h.2.2.1, h.2.2.2⟩)]
    · rw [hf1, if_neg]
      · rintro ⟨a1, a2, a3, a4⟩
        apply hcol
        rw [shift3_eq_div, shift3_eq_div, shift3_eq_div]
        exact ⟨a1, a2, by omega, by omega⟩
      · intro q hq1 hq2 j hj heq
        apply hcol
        have hpq : c >>> 3 = q := by
          rcases Nat.lt_trichotomy (c >>> 3) q with h | h | h
          · have := mul_add_le_of_lt inst.disp_if.width h; omega
          · exact h
          · have := mul_add_le_of_lt inst.disp_if.width h; omega
        rw [hpq] at heq ⊢
        exact ⟨by omega, by omega, hq1, hq2⟩
  refine ⟨_, h1, ?_, ?_⟩
  · intro i j hi hj
    rw [get_pixel_eq (get_instance_store hinst inst1) hwf1 (by rw [hw1]; omega)
      (by rw [hw1]; omega), hpix _ _ (by omega) (by omega), if_pos (by omega),
      Nat.add_sub_cancel_left, Nat.add_sub_cancel_left]
  · intro a c ha hc hout
    rw [get_pixel_eq (get_instance_store hinst inst1) hwf1 (by rw [hw1]; exact ha)
      (by rw [hw1]; exact hc), get_pixel_eq hinst hwf ha hc, hpix a c ha hc, if_neg hout]

/-- C4: for a valid handle, a well-formed image, `x < width`, `y < height`,
`ix < img.width`, `iy < img.height` and a clipped size `w' x h'` of at least
1x1, `bw_disp_image_sel_ex` with `inv_img = false` in mode OVERRIDE returns
`ESP_OK`, and afterwards display pixel `(x+i, y+j)` equals image pixel
`(ix+i, iy+j)` for all `i < w'`, `j < h'`, whatever `y & 7` and `iy & 7` are,
and every pixel outside the destination rectangle reads as before;
`bw_disp_image` is this call with `ix = iy = 0`, `iw = ih = 0xFFFF`, and draws
the whole image clipped to the display. -/
theorem image_override_copies_source (st : bw_disp_state) (handle : Nat) (inst : bw_disp_t)
    (x y ix iy iw ih : Nat) (img : bw_image_t)
    (hinst : bw_disp_get_instance st handle = some inst)
    (hwf : inst_wf inst) (hiwf : img_wf img)
    (hx : x < inst.disp_if.width) (hy : y < inst.disp_if.height)
    (hix : ix < img.width) (hiy : iy < img.height)
    (hw : 1 ≤ image_clip iw img.width ix inst.disp_if.width x)
    (hh : 1 ≤ image_clip ih img.height iy inst.disp_if.height y) :
    (∃ st1, bw_disp_image_sel_ex st handle x y ix iy iw ih false BWDM_OVERRIDE img
        = .ok (ESP_OK, st1) ∧
      (∀ i j, i < image_clip iw img.width ix inst.disp_if.width x →
        j < image_clip ih img.height iy inst.disp_if.height y →
        bw_disp_get_pixel st1 handle (x + i) (y + j)
          = .ok (ESP_OK, some (clr_of_bit (img_pixel img (ix + i) (iy + j))))) ∧
      (∀ a c, a < inst.disp_if.width → c < inst.disp_if.height →
        ¬ (x ≤ a ∧ a < x + image_clip iw img.width ix inst.disp_if.width x ∧
           y ≤ c ∧ c < y + image_clip ih img.height iy inst.disp_if.height y) →
        bw_disp_get_pixel st1 handle a c = bw_disp_get_pixel st handle a c)) ∧
    bw_disp_image st handle x y img
      = bw_disp_image_sel_ex st handle x y 0 0 0xFFFF 0xFFFF false BWDM_OVERRIDE img ∧
    (∃ st1, bw_disp_image st handle x y img = .ok (ESP_OK, st1) ∧
      ∀ i j, i < min img.width (inst.disp_if.width - x) →
        j < min img.height (inst.disp_if.height - y) →
        bw_disp_get_pixel st1 handle (x + i) (y + j)
          = .ok (ESP_OK, some (clr_of_bit (img_pixel img i j)))) := by
  refine ⟨image_sel_ex_override_pixels x y ix iy iw ih img hinst hwf hiwf hx hy hix hiy hw hh,
    rfl, ?_⟩
  have hiwf' := hiwf
  obtain ⟨hIW, hIH, _, _⟩ := hiwf'
  have cw : image_clip 0xFFFF img.width 0 inst.disp_if.width x
      = min img.width (inst.disp_if.width - x) := by
    unfold image_clip; omega
  have ch : image_clip 0xFFFF img.height 0 inst.disp_if.height y
      = min img.height (inst.disp_if.height - y) := by
    unfold image_clip; omega
  obtain ⟨st1, h1, hp1, -⟩ := image_sel_ex_override_pixels x y 0 0 0xFFFF 0xFFFF img hinst hwf
    hiwf hx hy (by omega) (by omega) (by rw [cw]; omega) (by rw [ch]; omega)
  refine ⟨st1, h1, fun i j hi hj => ?_⟩
  have := hp1 i j (by rw [cw]; exact hi) (by rw [ch]; exact hj)
  rwa [Nat.zero_add, Nat.zero_add] at this

set_option maxRecDepth 100000 in
theorem img_tennis_ball_wf : img_wf img_tennis_ball := by
  unfold img_wf
  decide

/-- Witness of C4: the second frame of `app_main`, the 32x32 image drawn by
`bw_disp_image` at (1, 17) on the 128x64 display (`y & 7 = 1`, `iy & 7 = 0`). -/
theorem image_override_copies_source_witness :
    (∃ st1, bw_disp_image_sel_ex sh1106_state 1 1 17 0 0 0xFFFF 0xFFFF false BWDM_OVERRIDE
        img_tennis_ball = .ok (ESP_OK, st1) ∧
      (∀ i j, i < image_clip 0xFFFF img_tennis_ball.width 0 sh1106_inst.disp_if.width 1 →
        j < image_clip 0xFFFF img_tennis_ball.height 0 sh1106_inst.disp_if.height 17 →
        bw_disp_get_pixel st1 1 (1 + i) (17 + j)
          = .ok (ESP_OK, some (clr_of_bit (img_pixel img_tennis_ball (0 + i) (0 + j))))) ∧
      (∀ a c, a < sh1106_inst.disp_if.width → c < sh1106_inst.disp_if.height →
        ¬ (1 ≤ a ∧ a < 1 + image_clip 0xFFFF img_tennis_ball.width 0 sh1106_inst.disp_if.width 1 ∧
           17 ≤ c ∧
           c < 17 + image_clip 0xFFFF img_tennis_ball.height 0 sh1106_inst.disp_if.height 17) →
        bw_disp_get_pixel st1 1 a c = bw_disp_get_pixel sh1106_state 1 a c)) ∧
    bw_disp_image sh1106_state 1 1 17 img_tennis_ball
      = bw_disp_image_sel_ex sh1106_state 1 1 17 0 0 0xFFFF 0xFFFF false BWDM_OVERRIDE
          img_tennis_ball ∧
    (∃ st1, bw_disp_image sh1106_state 1 1 17 img_tennis_ball = .ok (ESP_OK, st1) ∧
      ∀ i j, i < min img_tennis_ball.width (sh1106_inst.disp_if.width - 1) →
        j < min img_tennis_ball.height (sh1106_inst.disp_if.height - 17) →
        bw_disp_get_pixel st1 1 (1 + i) (17 + j)
          = .ok (ESP_OK, some (clr_of_bit (img_pixel img_tennis_ball i j)))) :=
  image_override_copies_source sh1106_state 1 sh1106_inst 1 17 0 0 0xFFFF 0xFFFF img_tennis_ball
    sh1106_inst_valid sh1106_inst_wf img_tennis_ball_wf (by decide) (by decide) (by decide)
    (by decide) (by decide) (by decide)

set_option maxRecDepth 1000000 in
/-- C6, evaluated at the failing input: 128 calls of `bw_disp_init` fill the
pool (128 slots, all occupied); `bw_disp_close (1)` frees slot 0 and a further
`bw_disp_init` reuses it (handle 1) without decrementing
`s_bw_disp_inst_free_num`, which stays 1.  Now all 128 slots are occupied
and no slot is free, and the next `bw_disp_init` does not return
`INVALID_HANDLE`: it fails the assertion on `inst_no`. -/
theorem init_on_full_pool_fails_assertion :
    (init_many alloc_ok transport_ok 128 bw_disp_state_initial >>= fun st128 =>
      pure (st128.s_bw_disp_instances.length, st128.s_bw_disp_instances.all Option.isSome))
      = .ok (MAX_DISP_INST_NUM, true) ∧
    (init_many alloc_ok transport_ok 128 bw_disp_state_initial >>= fun st128 =>
      status_of (bw_disp_close transport_ok st128 1)) = .ok ESP_OK ∧
    (init_many alloc_ok transport_ok 128 bw_disp_state_initial >>= fun st128 =>
      status_of (and_then (bw_disp_close transport_ok st128 1)
        (fun st_c => bw_disp_init alloc_ok transport_ok st_c 129 BWD_SH1106_128X64)))
      = .ok 1 ∧
    (init_many alloc_ok transport_ok 128 bw_disp_state_initial >>= fun st128 =>
      observe_state (and_then (bw_disp_close transport_ok st128 1)
        (fun st_c => bw_disp_init alloc_ok transport_ok st_c 129 BWD_SH1106_128X64))
        (fun st_r => (st_r.s_bw_disp_instances.length,
          st_r.s_bw_disp_instances.all Option.isSome, st_r.s_bw_disp_inst_free_num)))
      = .ok (MAX_DISP_INST_NUM, true, 1) ∧
    (init_many alloc_ok transport_ok 128 bw_disp_state_initial >>= fun st128 =>
      and_then (and_then (bw_disp_close transport_ok st128 1)
        (fun st_c => bw_disp_init alloc_ok transport_ok st_c 129 BWD_SH1106_128X64))
        (fun st_r => bw_disp_init alloc_ok transport_ok st_r 130 BWD_SH1106_128X64))
      = .error fault.assertion :=
  ⟨rfl, rfl, rfl, rfl, rfl⟩

theorem set_pixel_fail_unchanged {st : bw_disp_state} {handle x y : Nat} {c : bw_disp_clr_t}
    {r : esp_err_t} {st1 : bw_disp_state}
    (h : bw_disp_set_pixel st handle x y c = .ok (r, st1)) (hr : r ≠ ESP_OK) : st1 = st := by
  unfold bw_disp_set_pixel at h
  split at h
  · cases h; rfl
  · split at h
    · cases h; rfl
    · simp only [bind, Except.bind, pure, Except.pure] at h
      split at h
      · cases h
      · split at h
        · cases h
        · cases h
          exact absurd rfl hr

theorem hline_fail_unchanged {st : bw_disp_state} {handle x y w : Nat} {c : bw_disp_clr_t}
    {r : esp_err_t} {st1 : bw_disp_state}
    (h : bw_disp_hline st handle x y w c = .ok (r, st1)) (hr : r ≠ ESP_OK) : st1 = st := by
  unfold bw_disp_hline at h
  split at h
  · cases h; rfl
  · split at h
    · cases h; rfl
    · simp only [bind, Except.bind, pure, Except.pure] at h
      split at h
      · cases h
      · split at h
        · cases h
        · cases h
          exact absurd rfl hr

theorem vline_fail_unchanged {st : bw_disp_state} {handle x y hh : Nat} {c : bw_disp_clr_t}
    {r : esp_err_t} {st1 : bw_disp_state}
    (h : bw_disp_vline st handle x y hh c = .ok (r, st1)) (hr : r ≠ ESP_OK) : st1 = st := by
  unfold bw_disp_vline at h
  split at h
  · cases h; rfl
  · split at h
    · cases h; rfl
    · simp only [bind, Except.bind, pure, Except.pure] at h
      split at h
      · cases h
      · split at h
        · cases h
        · cases h
          exact absurd rfl hr

theorem fill_fail_unchanged {st : bw_disp_state} {handle : Nat} {c : bw_disp_clr_t}
    {r : esp_err_t} {st1 : bw_disp_state}
    (h : bw_disp_fill st handle c = .ok (r, st1)) (hr : r ≠ ESP_OK) : st1 = st := by
  unfold bw_disp_fill at h
  split at h
  · cases h; rfl
  · split at h
    · simp only [bind, Except.bind, pure, Except.pure] at h
      split at h
      · cases h
      · cases h
        exact absurd rfl hr
    · cases h

theorem image_sel_priv_status {inst : bw_disp_t} {x y ix iy iw ih : Nat} {inv_img : Bool}
    {mode : bw_disp_img_draw_mode_t} {img : bw_image_t} {r : esp_err_t} {inst1 : bw_disp_t}
    (h : bw_disp_image_sel_priv inst x y ix iy iw ih inv_img mode img = .ok (r, inst1)) :
    r = ESP_OK := by
  unfold bw_disp_image_sel_priv at h
  simp only [bind, Except.bind, pure, Except.pure] at h
  split at h
  · cases h
  · split at h
    · cases h
    · cases h
      rfl

theorem image_sel_ex_fail_unchanged {st : bw_disp_state} {handle x y ix iy iw ih : Nat}
    {inv_img : Bool} {mode : bw_disp_img_draw_mode_t} {img : bw_image_t}
    {r : esp_err_t} {st1 : bw_disp_state}
    (h : bw_disp_image_sel_ex st handle x y ix iy iw ih inv_img mode img = .ok (r, st1))
    (hr : r ≠ ESP_OK) : st1 = st := by
  unfold bw_disp_image_sel_ex at h
  split at h
  · cases h; rfl
  · split at h
    · cases h; rfl
    · split at h
      · cases h; rfl
      · simp only [bind, Except.bind, pure, Except.pure] at h
        split at h
        · cases h
        · rename_i v hv
          cases h
          exact absurd (image_sel_priv_status hv) hr

theorem fill_rect_loop_fail (handle y h : Nat) (c : bw_disp_clr_t) {r : esp_err_t}
    {st1 : bw_disp_state} (hr : r ≠ ESP_OK) :
    ∀ (n x : Nat) (st : bw_disp_state),
      fill_rect_loop handle y h c n x st = .ok (r, st1) →
      ∃ k xk, k < n ∧ fill_rect_loop handle y h c k x st = .ok (ESP_OK, st1) ∧
        bw_disp_vline st1 handle xk y h c = .ok (r, st1) := by
  intro n
  induction n with
  | zero =>
    intro x st hl
    unfold fill_rect_loop at hl
    cases hl
    exact absurd rfl hr
  | succ n ih =>
    intro x st hl
    unfold fill_rect_loop at hl
    simp only [bind, Except.bind, pure, Except.pure] at hl
    split at hl
    · cases hl
    · rename_i v hv
      split at hl
      · rename_i hne
        cases hl
        have hst : st1 = st := vline_fail_unchanged hv hne
        subst hst
        exact ⟨0, x, Nat.succ_pos n, rfl, hv⟩
      · rename_i hok
        obtain ⟨k, xk, hk, hloop, hfail⟩ := ih _ _ hl
        refine ⟨k + 1, xk, Nat.succ_lt_succ hk, ?_, hfail⟩
        unfold fill_rect_loop
        simp only [bind, Except.bind, pure, Except.pure, hv, hok, if_false]
        exact hloop

set_option maxRecDepth 100000 in
/-- C7, counterexample: on the freshly initialised 128x64 display,
`bw_disp_rect (x = 0, y = 0, w = 1, h = 65)` returns `ESP_ERR_INVALID_ARG`
(its first `hline` succeeds, its first `vline` rejects `y + h > height`) and
byte 0 of the framebuffer has changed from 0 to 1; and
`bw_disp_fill_rect (x = 127, y = 0, w = 2, h = 1)` returns
`ESP_ERR_INVALID_ARG` (column 128 is rejected) after column 127 was drawn. -/
theorem rect_fails_after_drawing :
    ESP_ERR_INVALID_ARG ≠ ESP_OK ∧
    sh1106_inst.buffer.getD 0 0 = 0 ∧ sh1106_inst.buffer.getD 127 0 = 0 ∧
    status_of (bw_disp_rect sh1106_state 1 0 0 1 65 BWDC_WHITE) = .ok ESP_ERR_INVALID_ARG ∧
    observe (bw_disp_rect sh1106_state 1 0 0 1 65 BWDC_WHITE) 1
      (fun inst1 => inst1.buffer.getD 0 0) = .ok (some 1) ∧
    status_of (bw_disp_fill_rect sh1106_state 1 127 0 2 1 BWDC_WHITE)
      = .ok ESP_ERR_INVALID_ARG ∧
    observe (bw_disp_fill_rect sh1106_state 1 127 0 2 1 BWDC_WHITE) 1
      (fun inst2 => inst2.buffer.getD 127 0) = .ok (some 1) :=
  ⟨by decide, rfl, rfl, rfl, rfl, rfl, rfl⟩

/-- C7, amended: a call of `bw_disp_set_pixel`, `bw_disp_hline`, `bw_disp_vline`,
`bw_disp_fill`, `bw_disp_image`, `bw_disp_image_sel` or `bw_disp_image_sel_ex`
that returns a status other than `ESP_OK` leaves the whole state (framebuffer,
dirty rectangle) as it was.  `bw_disp_rect` and `bw_disp_fill_rect` do not
validate before drawing: when they return a status other than `ESP_OK`, it
is the status of a failing `hline` / `vline` call, and the state is the one
left by the successful calls made before it (the initial state when the
first call fails). -/
theorem failed_call_state (st : bw_disp_state) (handle x y w h ix iy iw ih : Nat)
    (c : bw_disp_clr_t) (inv_img : Bool) (mode : bw_disp_img_draw_mode_t) (img : bw_image_t)
    (r : esp_err_t) (st1 : bw_disp_state) (hr : r ≠ ESP_OK) :
    (bw_disp_set_pixel st handle x y c = .ok (r, st1) → st1 = st) ∧
    (bw_disp_hline st handle x y w c = .ok (r, st1) → st1 = st) ∧
    (bw_disp_vline st handle x y h c = .ok (r, st1) → st1 = st) ∧
    (bw_disp_fill st handle c = .ok (r, st1) → st1 = st) ∧
    (bw_disp_image st handle x y img = .ok (r, st1) → st1 = st) ∧
    (bw_disp_image_sel st handle x y ix iy iw ih img = .ok (r, st1) → st1 = st) ∧
    (bw_disp_image_sel_ex st handle x y ix iy iw ih inv_img mode img = .ok (r, st1) →
      st1 = st) ∧
    (bw_disp_rect st handle x y w h c = .ok (r, st1) →
      (bw_disp_hline st handle x y w c = .ok (r, st1) ∧ st1 = st) ∨
      (∃ s1, bw_disp_hline st handle x y w c = .ok (ESP_OK, s1) ∧
        bw_disp_vline s1 handle x y h c = .ok (r, st1) ∧ st1 = s1) ∨
      (∃ s1 s2, bw_disp_hline st handle x y w c = .ok (ESP_OK, s1) ∧
        bw_disp_vline s1 handle x y h c = .ok (ESP_OK, s2) ∧
        bw_disp_hline s2 handle x (u16 ((y : Int) + h - 1)) w c = .ok (r, st1) ∧ st1 = s2) ∨
      (∃ s1 s2 s3, bw_disp_hline st handle x y w c = .ok (ESP_OK, s1) ∧
        bw_disp_vline s1 handle x y h c = .ok (ESP_OK, s2) ∧
        bw_disp_hline s2 handle x (u16 ((y : Int) + h - 1)) w c = .ok (ESP_OK, s3) ∧
        bw_disp_vline s3 handle (u16 ((x : Int) + w - 1)) y h c = .ok (r, st1) ∧ st1 = s3)) ∧
    (bw_disp_fill_rect st handle x y w h c = .ok (r, st1) →
      ∃ k xk, k < w ∧ bw_disp_fill_rect st handle x y k h c = .ok (ESP_OK, st1) ∧
        bw_disp_vline st1 handle xk y h c = .ok (r, st1)) := by
  refine ⟨fun h1 => set_pixel_fail_unchanged h1 hr, fun h1 => hline_fail_unchanged h1 hr,
    fun h1 => vline_fail_unchanged h1 hr, fun h1 => fill_fail_unchanged h1 hr,
    fun h1 => image_sel_ex_fail_unchanged h1 hr, fun h1 => image_sel_ex_fail_unchanged h1 hr,
    fun h1 => image_sel_ex_fail_unchanged h1 hr, ?_,
    fun h1 => fill_rect_loop_fail handle y h c hr w x st h1⟩
  intro h1
  unfold bw_disp_rect at h1
  simp only [bind, Except.bind, pure, Except.pure] at h1
  split at h1
  · cases h1
  · rename_i v1 hv1
    split at h1
    · rename_i hne
      cases h1
      have := hline_fail_unchanged hv1 hne
      exact Or.inl ⟨hv1, this⟩
    · rename_i hok1
      have e1 : v1 = (ESP_OK, v1.2) := by
        rcases v1 with ⟨a, b⟩
        simp only [ne_eq, Decidable.not_not] at hok1
        simp only [hok1]
      split at h1
      · cases h1
      · rename_i v2 hv2
        split at h1
        · rename_i hne
          cases h1
          have := vline_fail_unchanged hv2 hne
          exact Or.inr (Or.inl ⟨v1.2, by rw [hv1]; exact congrArg _ e1, hv2, this⟩)
        · rename_i hok2
          have e2 : v2 = (ESP_OK, v2.2) := by
            rcases v2 with ⟨a, b⟩
            simp only [ne_eq, Decidable.not_not] at hok2
            simp only [hok2]
          split at h1
          · cases h1
          · rename_i v3 hv3
            split at h1
            · rename_i hne
              cases h1
              have := hline_fail_unchanged hv3 hne
              exact Or.inr (Or.inr (Or.inl ⟨v1.2, v2.2, by rw [hv1]; exact congrArg _ e1,
                by rw [hv2]; exact congrArg _ e2, hv3, this⟩))
            · rename_i hok3
              have e3 : v3 = (ESP_OK, v3.2) := by
                rcases v3 with ⟨a, b⟩
                simp only [ne_eq, Decidable.not_not] at hok3
                simp only [hok3]
              have := vline_fail_unchanged h1 hr
              exact Or.inr (Or.inr (Or.inr ⟨v1.2, v2.2, v3.2, by rw [hv1]; exact congrArg _ e1,
                by rw [hv2]; exact congrArg _ e2, by rw [hv3]; exact congrArg _ e3, h1, this⟩))

/-- Witness of C7 (amended): `bw_disp_rect (200, 0, 1, 1)` on the freshly
initialised 128x64 display fails in its first `hline` call with
`ESP_ERR_INVALID_ARG` and leaves the state as it was. -/
theorem failed_call_state_witness :
    (bw_disp_hline sh1106_state 1 200 0 1 BWDC_WHITE
        = .ok (ESP_ERR_INVALID_ARG, sh1106_state) ∧ sh1106_state = sh1106_state) ∨
    (∃ s1, bw_disp_hline sh1106_state 1 200 0 1 BWDC_WHITE = .ok (ESP_OK, s1) ∧
      bw_disp_vline s1 1 200 0 1 BWDC_WHITE = .ok (ESP_ERR_INVALID_ARG, sh1106_state) ∧
      sh1106_state = s1) ∨
    (∃ s1 s2, bw_disp_hline sh1106_state 1 200 0 1 BWDC_WHITE = .ok (ESP_OK, s1) ∧
      bw_disp_vline s1 1 200 0 1 BWDC_WHITE = .ok (ESP_OK, s2) ∧
      bw_disp_hline s2 1 200 (u16 ((0 : Nat) + (1 : Nat) - 1)) 1 BWDC_WHITE
        = .ok (ESP_ERR_INVALID_ARG, sh1106_state) ∧ sh1106_state = s2) ∨
    (∃ s1 s2 s3, bw_disp_hline sh1106_state 1 200 0 1 BWDC_WHITE = .ok (ESP_OK, s1) ∧
      bw_disp_vline s1 1 200 0 1 BWDC_WHITE = .ok (ESP_OK, s2) ∧
      bw_disp_hline s2 1 200 (u16 ((0 : Nat) + (1 : Nat) - 1)) 1 BWDC_WHITE = .ok (ESP_OK, s3) ∧
      bw_disp_vline s3 1 (u16 ((200 : Nat) + (1 : Nat) - 1)) 0 1 BWDC_WHITE
        = .ok (ESP_ERR_INVALID_ARG, sh1106_state) ∧ sh1106_state = s3) :=
  (failed_call_state sh1106_state 1 200 0 1 1 0 0 1 1 BWDC_WHITE false BWDM_OVERRIDE
    img_tennis_ball ESP_ERR_INVALID_ARG sh1106_state (by decide)).2.2.2.2.2.2.2.1 rfl

set_option maxRecDepth 100000 in
/-- C11, evaluated at the failing input: after a successful refresh the
128x64 display is clean; `bw_disp_hline (x = 0, y = 0, w = 128, WHITE)`
returns `ESP_OK` and leaves the dirty rectangle (x = 128, y = 0, 128 x 1):
the instance is dirty and `dirty.x + dirty.width = 256` exceeds the width 128. -/
theorem hline_dirty_rect_outside_display :
    status_of (and_then (bw_disp_refresh transport_ok sh1106_state 1)
      (fun st1 => bw_disp_hline st1 1 0 0 128 BWDC_WHITE)) = .ok ESP_OK ∧
    observe (and_then (bw_disp_refresh transport_ok sh1106_state 1)
      (fun st1 => bw_disp_hline st1 1 0 0 128 BWDC_WHITE)) 1
      (fun inst => (bw_disp_is_dirty inst, inst.dirty_rect, inst.disp_if.width))
      = .ok (some (true, { x := 128, y := 0, width := 128, height := 1 }, 128)) :=
  ⟨rfl, rfl⟩

set_option maxRecDepth 100000 in
/-- C13, evaluated at the failing input: on the 128x64 display filled white,
the 32x32 image of `main.c` is drawn inverted in mode ADD_BLACK at (0, 1).
Image pixel (2, 7) is set, so the inverted source pixel is clear and the AND
with the previous pixel is clear, yet display pixel (2, 8) still reads white. -/
theorem image_add_black_inverted_wrong_pixel :
    status_of (and_then (bw_disp_fill sh1106_state 1 BWDC_WHITE) (fun st1 =>
      bw_disp_image_sel_ex st1 1 0 1 0 0 32 32 true BWDM_ADD_BLACK img_tennis_ball))
      = .ok ESP_OK ∧
    img_pixel img_tennis_ball 2 7 = true ∧
    and_then (and_then (bw_disp_fill sh1106_state 1 BWDC_WHITE) (fun st1 =>
      bw_disp_image_sel_ex st1 1 0 1 0 0 32 32 true BWDM_ADD_BLACK img_tennis_ball))
      (fun st2 => bw_disp_get_pixel st2 1 2 8) = .ok (ESP_OK, some BWDC_WHITE) :=
  ⟨rfl, rfl, rfl⟩

set_option maxRecDepth 100000 in
/-- C28, evaluated at the failing input: on the 128x64 display filled white,
the 32x32 image of `main.c` is drawn in mode ADD_BLACK at (0, 1), so the
destination rectangle is rows 1..32 of columns 0..31.  Pixel (0, 0) lies
outside it (row 0 of the first affected page), was white, and reads black
after the call. -/
theorem image_add_black_clears_outside_pixel :
    and_then (bw_disp_fill sh1106_state 1 BWDC_WHITE)
      (fun st1 => bw_disp_get_pixel st1 1 0 0) = .ok (ESP_OK, some BWDC_WHITE) ∧
    status_of (and_then (bw_disp_fill sh1106_state 1 BWDC_WHITE) (fun st1 =>
      bw_disp_image_sel_ex st1 1 0 1 0 0 32 32 false BWDM_ADD_BLACK img_tennis_ball))
      = .ok ESP_OK ∧
    and_then (and_then (bw_disp_fill sh1106_state 1 BWDC_WHITE) (fun st1 =>
      bw_disp_image_sel_ex st1 1 0 1 0 0 32 32 false BWDM_ADD_BLACK img_tennis_ball))
      (fun st2 => bw_disp_get_pixel st2 1 0 0) = .ok (ESP_OK, some BWDC_BLACK) :=
  ⟨rfl, rfl, rfl⟩

set_option maxRecDepth 100000 in
/-- C29, evaluated at the failing input: `bw_disp_init`, `bw_disp_close (1)`,
`bw_disp_init` (which reuses slot 0 and returns handle 1).  Afterwards the
pool has one slot, it is occupied, so no slot is empty, and
`s_bw_disp_inst_free_num` is 1. -/
theorem free_num_not_decremented_on_reuse :
    status_of (and_then (and_then
        (bw_disp_init alloc_ok transport_ok bw_disp_state_initial 1 BWD_SH1106_128X64)
        (fun st1 => bw_disp_close transport_ok st1 1))
        (fun st2 => bw_disp_init alloc_ok transport_ok st2 2 BWD_SH1106_128X64)) = .ok 1 ∧
    observe_state (and_then (and_then
        (bw_disp_init alloc_ok transport_ok bw_disp_state_initial 1 BWD_SH1106_128X64)
        (fun st1 => bw_disp_close transport_ok st1 1))
        (fun st2 => bw_disp_init alloc_ok transport_ok st2 2 BWD_SH1106_128X64))
      (fun st3 => (st3.s_bw_disp_inst_num,
        (st3.s_bw_disp_instances.filter Option.isNone).length, st3.s_bw_disp_inst_free_num))
      = .ok (1, 0, 1) :=
  ⟨rfl, rfl⟩

set_option maxRecDepth 100000 in
/-- C30, evaluated at the failing inputs, on the freshly initialised 128x64
display: `bw_disp_hline (x = 0, y = 0, w = 0)` passes the bounds checks and
fails `assert(width > 0 && height > 0)` in `bw_disp_set_dirty_rect`;
`bw_disp_vline (x = 0, y = 0, h = 0)` passes the bounds checks, computes
`y_e = 65535`, and accesses page 8 of 8; `bw_disp_image_sel_ex` with
`iw = 0, ih = 1` passes the checks and fails the same assertion. -/
theorem zero_length_calls_fault :
    bw_disp_hline sh1106_state 1 0 0 0 BWDC_WHITE = .error fault.assertion ∧
    bw_disp_vline sh1106_state 1 0 0 0 BWDC_WHITE = .error fault.out_of_bounds ∧
    bw_disp_image_sel_ex sh1106_state 1 0 0 0 0 0 1 false BWDM_OVERRIDE img_tennis_ball
      = .error fault.assertion :=
  ⟨rfl, rfl, rfl⟩

/-- C15: on a valid handle and an out-of-bounds coordinate (`x >= width` or
`y >= height`), `bw_disp_set_pixel` returns `ESP_ERR_INVALID_ARG` with the
state (framebuffer, dirty rectangle) exactly as before, and
`bw_disp_get_pixel` returns `ESP_ERR_INVALID_ARG` without writing a colour. -/
theorem pixel_out_of_bounds_rejected (st : bw_disp_state) (handle : Nat) (inst : bw_disp_t)
    (x y : Nat) (c : bw_disp_clr_t)
    (hinst : bw_disp_get_instance st handle = some inst)
    (hoob : x ≥ inst.disp_if.width ∨ y ≥ inst.disp_if.height) :
    bw_disp_set_pixel st handle x y c = .ok (ESP_ERR_INVALID_ARG, st) ∧
    bw_disp_get_pixel st handle x y = .ok (ESP_ERR_INVALID_ARG, none) := by
  constructor
  · unfold bw_disp_set_pixel
    rw [hinst]
    simp only []
    rw [if_pos hoob]
    rfl
  · unfold bw_disp_get_pixel
    rw [hinst]
    simp only []
    rw [if_pos hoob]
    rfl

/-- Witness of C15: column 128 of the 128x64 display. -/
theorem pixel_out_of_bounds_rejected_witness :
    bw_disp_set_pixel sh1106_state 1 128 0 BWDC_WHITE = .ok (ESP_ERR_INVALID_ARG, sh1106_state) ∧
    bw_disp_get_pixel sh1106_state 1 128 0 = .ok (ESP_ERR_INVALID_ARG, none) :=
  pixel_out_of_bounds_rejected sh1106_state 1 sh1106_inst 128 0 BWDC_WHITE sh1106_inst_valid
    (Or.inl (by decide))

theorem get_instance_set_none {st : bw_disp_state} {handle : Nat}
    (l : List transport_call) (n : Nat) :
    bw_disp_get_instance
      { s_bw_disp_inst_free_num := n,
        s_bw_disp_instances := st.s_bw_disp_instances.set (handle - 1) none,
        transport_log := l } handle = none := by
  unfold bw_disp_get_instance bw_disp_state.s_bw_disp_inst_num
  simp only [List.length_set]
  split
  · rfl
  · rename_i hc
    simp only [List.getD_eq_getElem?_getD, List.getElem?_set]
    have : handle - 1 < st.s_bw_disp_instances.length := by omega
    simp [this]

/-- C21: on a valid handle `bw_disp_close` sends the close sequence, closes
the transport, and frees the slot whatever the two results are: the handle is
invalid afterwards, its slot is empty and the free counter is incremented;
the status is the close-sequence write's status when that is not `ESP_OK`,
otherwise the transport close's status, so it is `ESP_OK` only if both are. -/
theorem close_always_frees_slot (tr : transport) (st : bw_disp_state) (handle : Nat)
    (inst : bw_disp_t) (hinst : bw_disp_get_instance st handle = some inst) :
    ∃ ret st1, bw_disp_close tr st handle = .ok (ret, st1) ∧
      ret = (if tr st.transport_log
              (transport_call.write_commands inst.comm_handle inst.disp_if.close_commands)
              ≠ ESP_OK
            then tr st.transport_log
              (transport_call.write_commands inst.comm_handle inst.disp_if.close_commands)
            else tr (st.transport_log ++
              [transport_call.write_commands inst.comm_handle inst.disp_if.close_commands])
              (transport_call.close inst.comm_handle)) ∧
      (ret = ESP_OK ↔
        tr st.transport_log
          (transport_call.write_commands inst.comm_handle inst.disp_if.close_commands)
          = ESP_OK ∧
        tr (st.transport_log ++
          [transport_call.write_commands inst.comm_handle inst.disp_if.close_commands])
          (transport_call.close inst.comm_handle) = ESP_OK) ∧
      bw_disp_get_instance st1 handle = none ∧
      handle - 1 < st1.s_bw_disp_instances.length ∧
      st1.s_bw_disp_instances.getD (handle - 1) (some inst) = none ∧
      st1.s_bw_disp_inst_free_num = st.s_bw_disp_inst_free_num + 1 ∧
      st1.transport_log = st.transport_log ++
        [transport_call.write_commands inst.comm_handle inst.disp_if.close_commands,
         transport_call.close inst.comm_handle] := by
  obtain ⟨hpos, hlt, _⟩ := get_instance_valid hinst
  unfold bw_disp_close
  rw [hinst]
  refine ⟨_, _, rfl, rfl, ?_, ?_, ?_, ?_, rfl, ?_⟩
  · simp only [transport_do]
    constructor
    · intro h
      split at h
      · rename_i hne
        exact absurd h hne
      · rename_i he
        simp only [ne_eq, Decidable.not_not] at he
        exact ⟨he, h⟩
    · rintro ⟨h1, h2⟩
      rw [if_neg (by simp [h1])]
      exact h2
  · exact get_instance_set_none _ _
  · simp only [transport_do, List.length_set]
    exact hlt
  · simp only [transport_do, List.getD_eq_getElem?_getD, List.getElem?_set]
    simp [hlt]
  · simp only [transport_do, List.append_assoc, List.singleton_append]

/-- Witness of C21: closing handle 1 of the freshly initialised display on a
working transport. -/
theorem close_always_frees_slot_witness :
    ∃ ret st1, bw_disp_close transport_ok sh1106_state 1 = .ok (ret, st1) ∧
      ret = (if transport_ok sh1106_state.transport_log
              (transport_call.write_commands sh1106_inst.comm_handle
                sh1106_inst.disp_if.close_commands) ≠ ESP_OK
            then transport_ok sh1106_state.transport_log
              (transport_call.write_commands sh1106_inst.comm_handle
                sh1106_inst.disp_if.close_commands)
            else transport_ok (sh1106_state.transport_log ++
              [transport_call.write_commands sh1106_inst.comm_handle
                sh1106_inst.disp_if.close_commands])
              (transport_call.close sh1106_inst.comm_handle)) ∧
      (ret = ESP_OK ↔
        transport_ok sh1106_state.transport_log
          (transport_call.write_commands sh1106_inst.comm_handle
            sh1106_inst.disp_if.close_commands) = ESP_OK ∧
        transport_ok (sh1106_state.transport_log ++
          [transport_call.write_commands sh1106_inst.comm_handle
            sh1106_inst.disp_if.close_commands])
          (transport_call.close sh1106_inst.comm_handle) = ESP_OK) ∧
      bw_disp_get_instance st1 1 = none ∧
      1 - 1 < st1.s_bw_disp_instances.length ∧
      st1.s_bw_disp_instances.getD (1 - 1) (some sh1106_inst) = none ∧
      st1.s_bw_disp_inst_free_num = sh1106_state.s_bw_disp_inst_free_num + 1 ∧
      st1.transport_log = sh1106_state.transport_log ++
        [transport_call.write_commands sh1106_inst.comm_handle
          sh1106_inst.disp_if.close_commands,
         transport_call.close sh1106_inst.comm_handle] :=
  close_always_frees_slot transport_ok sh1106_state 1 sh1106_inst sh1106_inst_valid

theorem get_instance_none_iff (st : bw_disp_state) (handle : Nat) :
    bw_disp_get_instance st handle = none ↔
      (handle = 0 ∨ handle > st.s_bw_disp_inst_num ∨
        st.s_bw_disp_instances.getD (handle - 1) none = none) := by
  unfold bw_disp_get_instance
  constructor
  · intro h
    split at h
    · rename_i hc
      rcases hc with h0 | h1
      · exact Or.inl h0
      · exact Or.inr (Or.inl h1)
    · exact Or.inr (Or.inr h)
  · intro h
    split
    · rfl
    · rename_i hc
      rcases h with h0 | h1 | h2
      · exact absurd (Or.inl h0) hc
      · exact absurd (Or.inr h1) hc
      · exact h2

set_option maxRecDepth 100000 in
/-- C23, counterexample: `bw_disp_fill_rect` with the invalid handle 0 and
`w = 0` returns `ESP_OK`. -/
theorem fill_rect_invalid_handle_zero_width :
    bw_disp_get_instance sh1106_state 0 = none ∧
    bw_disp_fill_rect sh1106_state 0 0 0 0 1 BWDC_WHITE = .ok (ESP_OK, sh1106_state) :=
  ⟨rfl, rfl⟩

/-- C23, amended: for a handle that is 0, greater than the pool size, or
whose slot is empty, `close`, `clear`, `fill`, `refresh`, `set_pixel`,
`get_pixel`, `hline`, `vline`, `rect`, `image`, `image_sel` and `image_sel_ex`
return `ESP_ERR_INVALID_ARG` for all other argument values and leave the
state as it was, `get_width` and `get_height` return 0, and `fill_rect`
returns `ESP_ERR_INVALID_ARG` when `w >= 1` and `ESP_OK` when `w = 0` (it
makes no call then), the state unchanged in both cases. -/
theorem invalid_handle_rejected (tr : transport) (st : bw_disp_state)
    (handle x y w h ix iy iw ih : Nat) (c : bw_disp_clr_t) (inv_img : Bool)
    (mode : bw_disp_img_draw_mode_t) (img : bw_image_t)
    (hinv : handle = 0 ∨ handle > st.s_bw_disp_inst_num ∨
      st.s_bw_disp_instances.getD (handle - 1) none = none) :
    ESP_ERR_INVALID_ARG ≠ ESP_OK ∧
    bw_disp_close tr st handle = .ok (ESP_ERR_INVALID_ARG, st) ∧
    bw_disp_clear st handle = .ok (ESP_ERR_INVALID_ARG, st) ∧
    bw_disp_fill st handle c = .ok (ESP_ERR_INVALID_ARG, st) ∧
    bw_disp_refresh tr st handle = .ok (ESP_ERR_INVALID_ARG, st) ∧
    bw_disp_set_pixel st handle x y c = .ok (ESP_ERR_INVALID_ARG, st) ∧
    bw_disp_get_pixel st handle x y = .ok (ESP_ERR_INVALID_ARG, none) ∧
    bw_disp_hline st handle x y w c = .ok (ESP_ERR_INVALID_ARG, st) ∧
    bw_disp_vline st handle x y h c = .ok (ESP_ERR_INVALID_ARG, st) ∧
    bw_disp_rect st handle x y w h c = .ok (ESP_ERR_INVALID_ARG, st) ∧
    bw_disp_image st handle x y img = .ok (ESP_ERR_INVALID_ARG, st) ∧
    bw_disp_image_sel st handle x y ix iy iw ih img = .ok (ESP_ERR_INVALID_ARG, st) ∧
    bw_disp_image_sel_ex st handle x y ix iy iw ih inv_img mode img
      = .ok (ESP_ERR_INVALID_ARG, st) ∧
    bw_disp_get_width st handle = 0 ∧
    bw_disp_get_height st handle = 0 ∧
    (1 ≤ w → bw_disp_fill_rect st handle x y w h c = .ok (ESP_ERR_INVALID_ARG, st)) ∧
    (w = 0 → bw_disp_fill_rect st handle x y w h c = .ok (ESP_OK, st)) := by
  have hn := (get_instance_none_iff st handle).mpr hinv
  have hne : ESP_ERR_INVALID_ARG ≠ ESP_OK := by decide
  have hhl : ∀ x y w, bw_disp_hline st handle x y w c = .ok (ESP_ERR_INVALID_ARG, st) := by
    intro x y w; unfold bw_disp_hline; rw [hn]; rfl
  have hvl : ∀ x, bw_disp_vline st handle x y h c = .ok (ESP_ERR_INVALID_ARG, st) := by
    intro x; unfold bw_disp_vline; rw [hn]; rfl
  have hex : ∀ ix iy iw ih inv_img mode,
      bw_disp_image_sel_ex st handle x y ix iy iw ih inv_img mode img
        = .ok (ESP_ERR_INVALID_ARG, st) := by
    intro ix iy iw ih inv_img mode; unfold bw_disp_image_sel_ex; rw [hn]; rfl
  refine ⟨hne, ?_, ?_, ?_, ?_, ?_, ?_, hhl x y w, hvl x, ?_, hex _ _ _ _ _ _, hex _ _ _ _ _ _,
    hex _ _ _ _ _ _, ?_, ?_, ?_, ?_⟩
  · unfold bw_disp_close; rw [hn]; rfl
  · unfold bw_disp_clear bw_disp_fill; rw [hn]; rfl
  · unfold bw_disp_fill; rw [hn]; rfl
  · unfold bw_disp_refresh; rw [hn]; rfl
  · unfold bw_disp_set_pixel; rw [hn]; rfl
  · unfold bw_disp_get_pixel; rw [hn]; rfl
  · unfold bw_disp_rect
    simp only [bind, Except.bind, hhl x y w, pure, Except.pure]
    rw [if_pos hne]
  · unfold bw_disp_get_width; rw [hn]
  · unfold bw_disp_get_height; rw [hn]
  · intro hw
    obtain ⟨n, rfl⟩ : ∃ n, w = n + 1 := ⟨w - 1, by omega⟩
    unfold bw_disp_fill_rect fill_rect_loop
    simp only [bind, Except.bind, hvl x, pure, Except.pure]
    rw [if_pos hne]
  · intro hw
    subst hw
    rfl

/-- Witness of C23 (amended): handle 0 on the state of the freshly
initialised display. -/
theorem invalid_handle_rejected_witness :
    bw_disp_set_pixel sh1106_state 0 3 4 BWDC_WHITE = .ok (ESP_ERR_INVALID_ARG, sh1106_state) ∧
    bw_disp_get_width sh1106_state 0 = 0 :=
  ⟨(invalid_handle_rejected transport_ok sh1106_state 0 3 4 1 1 0 0 1 1 BWDC_WHITE false
      BWDM_OVERRIDE img_tennis_ball (Or.inl rfl)).2.2.2.2.2.1,
   (invalid_handle_rejected transport_ok sh1106_state 0 3 4 1 1 0 0 1 1 BWDC_WHITE false
      BWDM_OVERRIDE img_tennis_ball (Or.inl rfl)).2.2.2.2.2.2.2.2.2.2.2.2.2.1⟩

theorem transport_run_cons_ok {tr : transport} {log : List transport_call} {c : transport_call}
    {rest : List transport_call} {r : esp_err_t} (hc : tr log c = ESP_OK)
    (h : transport_run tr (log ++ [c]) rest r) : transport_run tr log (c :: rest) r := by
  cases rest with
  | nil =>
    simp only [transport_run] at h ⊢
    rw [h, hc]
  | cons c2 rest => exact ⟨hc, h⟩

theorem state_log_nil (st : bw_disp_state) :
    ({ st with transport_log := st.transport_log ++ [] } : bw_disp_state) = st := by
  cases st
  simp

theorem refresh_loop_run (tr : transport) (inst : bw_disp_t) :
    ∀ (n page : Nat) (st : bw_disp_state),
      (∀ k, k < n → (page + k) * inst.disp_if.width + inst.dirty_rect.x + inst.dirty_rect.width
          ≤ inst.buffer.length) →
      ∃ r calls, refresh_loop tr inst n page st
          = .ok (r, { st with transport_log := st.transport_log ++ calls }) ∧
        transport_run tr st.transport_log calls r := by
  intro n
  induction n with
  | zero =>
    intro page st _
    refine ⟨ESP_OK, [], ?_, rfl⟩
    rw [state_log_nil]
    rfl
  | succ n ih =>
    intro page st hb
    have hb0 := hb 0 (Nat.succ_pos n)
    simp only [Nat.add_zero] at hb0
    simp only [refresh_loop, transport_do]
    generalize transport_call.write_commands inst.comm_handle (inst.disp_if.set_page_col _ _) = c1
    generalize transport_call.write_data inst.comm_handle _ = c2
    by_cases h1 : tr st.transport_log c1 = ESP_OK
    · rw [if_neg (by simp [h1])]
      rw [if_pos (by omega)]
      by_cases h2 : tr (st.transport_log ++ [c1]) c2 = ESP_OK
      · rw [if_neg (by simp [h2])]
        obtain ⟨r, calls, hr, hrun⟩ := ih (page + 1)
          { st with transport_log := st.transport_log ++ [c1] ++ [c2] }
          (fun k hk => by
            have := hb (k + 1) (by omega)
            rw [show page + 1 + k = page + (k + 1) by omega]
            exact this)
        refine ⟨r, c1 :: c2 :: calls, ?_, ?_⟩
        · rw [hr]
          simp only [List.append_assoc, List.singleton_append, List.cons_append, List.nil_append]
        · exact transport_run_cons_ok h1 (transport_run_cons_ok h2 hrun)
      · rw [if_pos (by simpa using h2)]
        refine ⟨tr (st.transport_log ++ [c1]) c2, [c1, c2], ?_, ?_⟩
        · simp only [List.append_assoc, List.singleton_append, List.cons_append, List.nil_append]
          rfl
        · exact ⟨h1, rfl⟩
    · rw [if_pos (by simpa using h1)]
      exact ⟨tr st.transport_log c1, [c1], rfl, rfl⟩

theorem transport_run_all_ok {tr : transport} (htr : ∀ log c, tr log c = ESP_OK) :
    ∀ (calls log : List transport_call) (r : esp_err_t),
      transport_run tr log calls r → r = ESP_OK := by
  intro calls
  induction calls with
  | nil => intro log r h; exact h
  | cons c rest ih =>
    intro log r h
    cases rest with
    | nil =>
      simp only [transport_run] at h
      rw [h]; exact htr _ _
    | cons c2 rest => exact ih _ _ h.2

theorem u8_le (n : Nat) : u8 (n : Int) ≤ n := by
  rw [u8_cast]; exact Nat.mod_le _ _

theorem refresh_loop_ok_calls (tr : transport) (inst : bw_disp_t)
    (htr : ∀ log c, tr log c = ESP_OK)
    (hcol : inst.disp_if.first_col + inst.dirty_rect.x < 65536) :
    ∀ (n page : Nat) (st : bw_disp_state), page + n ≤ 256 →
      (∀ k, k < n → (page + k) * inst.disp_if.width + inst.dirty_rect.x + inst.dirty_rect.width
          ≤ inst.buffer.length) →
      refresh_loop tr inst n page st
        = .ok (ESP_OK, { st with transport_log := st.transport_log ++ refresh_calls inst n page }) := by
  intro n
  induction n with
  | zero =>
    intro page st _ _
    simp only [refresh_calls]
    rw [state_log_nil]
    rfl
  | succ n ih =>
    intro page st hp hb
    have hb0 := hb 0 (Nat.succ_pos n)
    simp only [Nat.add_zero] at hb0
    have h8 : u8 (page : Int) = page := by rw [u8_cast]; omega
    have h16 : u16 ((inst.disp_if.first_col : Int) + (inst.dirty_rect.x : Int))
        = inst.disp_if.first_col + inst.dirty_rect.x := by unfold u16; omega
    simp only [refresh_loop, transport_do, refresh_calls, htr]
    rw [if_neg (by simp), if_pos (by omega), if_neg (by simp)]
    rw [ih (page + 1) _ (by omega) (fun k hk => by
            have := hb (k + 1) (by omega)
            rw [show page + 1 + k = page + (k + 1) by omega]
            exact this)]
    have h16b : u16 ((inst.disp_if.first_col + inst.dirty_rect.x : Nat) : Int)
        = inst.disp_if.first_col + inst.dirty_rect.x := by unfold u16; omega
    simp only [h8, h16, h16b, List.append_assoc, List.singleton_append, List.cons_append,
      List.nil_append]

theorem refresh_page_bounds {inst : bw_disp_t} (hwf : inst_wf inst)
    (hd : bw_disp_is_dirty inst = true)
    (hx : inst.dirty_rect.x + inst.dirty_rect.width ≤ inst.disp_if.width)
    (hy : inst.dirty_rect.y + inst.dirty_rect.height ≤ inst.disp_if.height) :
    ∀ k, k < u8 (((inst.dirty_rect.y + inst.dirty_rect.height - 1) >>> 3 : Nat) : Int) + 1
          - u8 ((inst.dirty_rect.y >>> 3 : Nat) : Int) →
      (u8 ((inst.dirty_rect.y >>> 3 : Nat) : Int) + k) * inst.disp_if.width
        + inst.dirty_rect.x + inst.dirty_rect.width ≤ inst.buffer.length := by
  intro k hk
  obtain ⟨_, _, _, _, hp, hl⟩ := hwf
  unfold bw_disp_is_dirty at hd
  simp only [Bool.and_eq_true, decide_eq_true_eq] at hd
  have h1 := u8_le ((inst.dirty_rect.y + inst.dirty_rect.height - 1) >>> 3)
  simp only [shift3_eq_div] at h1 hk ⊢
  have h2 : u8 ((inst.dirty_rect.y / 8 : Nat) : Int) + k < inst.page_num := by omega
  rw [hl]
  have := mul_add_le_of_lt inst.disp_if.width h2
  omega

theorem get_instance_log (st : bw_disp_state) (l : List transport_call) (handle : Nat) :
    bw_disp_get_instance { st with transport_log := l } handle = bw_disp_get_instance st handle :=
  rfl

theorem clear_dirty_not_dirty (inst : bw_disp_t) :
    bw_disp_is_dirty (bw_disp_clear_dirty_rect inst) = false := rfl

theorem refresh_dirty_run (tr : transport) (st : bw_disp_state) (handle : Nat)
    (inst : bw_disp_t) (h : bw_disp_get_instance st handle = some inst) (hwf : inst_wf inst)
    (hd : bw_disp_is_dirty inst = true)
    (hx : inst.dirty_rect.x + inst.dirty_rect.width ≤ inst.disp_if.width)
    (hy : inst.dirty_rect.y + inst.dirty_rect.height ≤ inst.disp_if.height) :
    ∃ r calls, transport_run tr st.transport_log calls r ∧
      bw_disp_refresh tr st handle = .ok (r,
        if r = ESP_OK then
          store_instance { st with transport_log := st.transport_log ++ calls } handle
            (bw_disp_clear_dirty_rect inst)
        else { st with transport_log := st.transport_log ++ calls }) := by
  obtain ⟨r, calls, hr, hrun⟩ := refresh_loop_run tr inst _ _ st (refresh_page_bounds hwf hd hx hy)
  refine ⟨r, calls, hrun, ?_⟩
  unfold bw_disp_refresh
  rw [h]
  simp only []
  rw [if_neg (by simp [hd])]
  simp only [bind, Except.bind]
  rw [hr]
  simp only []
  by_cases hok : r = ESP_OK
  · rw [if_neg (by simp [hok]), if_pos hok]
    rw [hok]
    rfl
  · rw [if_pos hok, if_neg hok]
    rfl

/-- On a valid handle with a dirty rectangle inside the display,
`bw_disp_refresh` returns a status `r` after making the transport calls
`calls`, where every call but the last returned `ESP_OK` and `r` is the status
of the last call (`transport_run`).  If `r` is not `ESP_OK` the instance and
the whole pool are exactly as before; if `r` is `ESP_OK` the instance
afterwards is the previous one with the dirty rectangle `{0,0,0,0}`. -/
theorem refresh_inside_display_run (tr : transport) (st : bw_disp_state) (handle : Nat)
    (inst : bw_disp_t) (h : bw_disp_get_instance st handle = some inst) (hwf : inst_wf inst)
    (hd : bw_disp_is_dirty inst = true)
    (hx : inst.dirty_rect.x + inst.dirty_rect.width ≤ inst.disp_if.width)
    (hy : inst.dirty_rect.y + inst.dirty_rect.height ≤ inst.disp_if.height) :
    ∃ r calls st1, bw_disp_refresh tr st handle = .ok (r, st1) ∧
      st1.transport_log = st.transport_log ++ calls ∧
      transport_run tr st.transport_log calls r ∧
      (r ≠ ESP_OK → calls ≠ [] ∧ bw_disp_get_instance st1 handle = some inst ∧
        st1.s_bw_disp_instances = st.s_bw_disp_instances) ∧
      (r = ESP_OK → bw_disp_get_instance st1 handle
        = some { inst with dirty_rect := { x := 0, y := 0, width := 0, height := 0 } }) := by
  obtain ⟨r, calls, hrun, hr⟩ := refresh_dirty_run tr st handle inst h hwf hd hx hy
  refine ⟨r, calls, _, hr, ?_, hrun, ?_, ?_⟩
  · by_cases hok : r = ESP_OK
    · rw [if_pos hok]; rfl
    · rw [if_neg hok]
  · intro hne
    rw [if_neg hne]
    refine ⟨?_, h, rfl⟩
    intro hnil
    rw [hnil] at hrun
    exact hne hrun
  · intro hok
    rw [if_pos hok]
    exact @get_instance_store { st with transport_log := st.transport_log ++ calls } handle inst h _

/-- On a valid handle with a dirty rectangle inside the display (at most
`MAX_PAGE_NUM` pages, columns fitting `uint16_t`) and a transport on which
every call succeeds, `bw_disp_refresh` returns `ESP_OK` and the calls it adds
to the transport history are exactly `refresh_calls`: for each page `p` from
`dirty.y >> 3` to `(dirty.y + dirty.height - 1) >> 3` in increasing order, one
`set_page_col (p, first_col + dirty.x)` followed by one `write_data` of the
`dirty.width` bytes `buffer[p * width + dirty.x ..]`, and nothing else. -/
theorem refresh_inside_display_calls (tr : transport) (st : bw_disp_state) (handle : Nat)
    (inst : bw_disp_t) (h : bw_disp_get_instance st handle = some inst) (hwf : inst_wf inst)
    (hd : bw_disp_is_dirty inst = true)
    (hx : inst.dirty_rect.x + inst.dirty_rect.width ≤ inst.disp_if.width)
    (hy : inst.dirty_rect.y + inst.dirty_rect.height ≤ inst.disp_if.height)
    (htr : ∀ log c, tr log c = ESP_OK) (hpn : inst.page_num ≤ MAX_PAGE_NUM)
    (hcol : inst.disp_if.first_col + inst.disp_if.width ≤ 65536) :
    ∃ st1, bw_disp_refresh tr st handle = .ok (ESP_OK, st1) ∧
      st1.transport_log = st.transport_log ++
        refresh_calls inst
          (((inst.dirty_rect.y + inst.dirty_rect.height - 1) >>> 3) + 1 - (inst.dirty_rect.y >>> 3))
          (inst.dirty_rect.y >>> 3) ∧
      ((inst.dirty_rect.y + inst.dirty_rect.height - 1) >>> 3) + 1 - (inst.dirty_rect.y >>> 3) ≥ 1 := by
  have hb := refresh_page_bounds hwf hd hx hy
  obtain ⟨_, _, _, _, hp, hl⟩ := hwf
  have hd2 := hd
  unfold bw_disp_is_dirty at hd2
  simp only [Bool.and_eq_true, decide_eq_true_eq] at hd2
  unfold MAX_PAGE_NUM at hpn
  have e1 : u8 ((inst.dirty_rect.y >>> 3 : Nat) : Int) = inst.dirty_rect.y >>> 3 := by
    rw [u8_cast, shift3_eq_div]; omega
  have e2 : u8 (((inst.dirty_rect.y + inst.dirty_rect.height - 1) >>> 3 : Nat) : Int)
      = (inst.dirty_rect.y + inst.dirty_rect.height - 1) >>> 3 := by
    rw [u8_cast, shift3_eq_div]; omega
  rw [e1, e2] at hb
  have hloop := refresh_loop_ok_calls tr inst htr (by omega)
    (((inst.dirty_rect.y + inst.dirty_rect.height - 1) >>> 3) + 1 - (inst.dirty_rect.y >>> 3))
    (inst.dirty_rect.y >>> 3) st (by simp only [shift3_eq_div]; omega) hb
  have hn : ((inst.dirty_rect.y + inst.dirty_rect.height - 1) >>> 3) + 1
      - (inst.dirty_rect.y >>> 3) ≥ 1 := by
    simp only [shift3_eq_div]; omega
  have hrefresh : ∃ st1, bw_disp_refresh tr st handle = .ok (ESP_OK, st1) ∧
      st1.transport_log = st.transport_log ++
        refresh_calls inst
          (((inst.dirty_rect.y + inst.dirty_rect.height - 1) >>> 3) + 1 - (inst.dirty_rect.y >>> 3))
          (inst.dirty_rect.y >>> 3) := by
    unfold bw_disp_refresh
    rw [h]
    simp only []
    rw [if_neg (by simp [hd])]
    simp only [bind, Except.bind]
    rw [e1, e2, hloop]
    exact ⟨_, rfl, rfl⟩
  obtain ⟨st1, h1, h2⟩ := hrefresh
  exact ⟨st1, h1, h2, hn⟩

theorem find_free_slot_spec : ∀ (l : List (Option bw_disp_t)) (k i : Nat),
    find_free_slot l k = some i →
    k ≤ i ∧ i - k < l.length ∧ l.getD (i - k) none = none ∧
      ∀ j, j < i - k → l.getD j none ≠ none
  | [], k, i, h => by simp [find_free_slot] at h
  | none :: rest, k, i, h => by
    simp only [find_free_slot, Option.some.injEq] at h
    subst h
    simp
  | some a :: rest, k, i, h => by
    simp only [find_free_slot] at h
    obtain ⟨h1, h2, h3, h4⟩ := find_free_slot_spec rest (k + 1) i h
    have e : i - k = (i - (k + 1)) + 1 := by omega
    refine ⟨by omega, ?_, ?_, ?_⟩
    · rw [e]
      simp only [List.length_cons]
      omega
    · rw [e]
      simpa using h3
    · intro j hj
      cases j with
      | zero => simp
      | succ j =>
        simp only [List.getD_cons_succ]
        exact h4 j (by omega)

theorem find_free_slot_exists : ∀ (l : List (Option bw_disp_t)) (k : Nat),
    (∃ j, j < l.length ∧ l.getD j none = none) → ∃ i, find_free_slot l k = some i
  | [], k, h => by
    obtain ⟨j, hj, _⟩ := h
    simp at hj
  | none :: rest, k, _ => ⟨k, rfl⟩
  | some a :: rest, k, h => by
    obtain ⟨j, hj, hn⟩ := h
    simp only [find_free_slot]
    apply find_free_slot_exists rest (k + 1)
    cases j with
    | zero => simp at hn
    | succ j =>
      refine ⟨j, ?_, ?_⟩
      · simp only [List.length_cons] at hj
        omega
      · simpa using hn

theorem init_reuse (al : alloc_env) (tr : transport) (st : bw_disp_state) (comm i : Nat)
    (hc : comm ≠ INVALID_HANDLE) (hfree : st.s_bw_disp_inst_free_num ≠ 0)
    (hslot : find_free_slot st.s_bw_disp_instances 0 = some i) (hi : i < 65535) :
    bw_disp_init al tr st comm BWD_SH1106_128X64 =
      if al.calloc_ok = false then .ok (INVALID_HANDLE, st)
      else if tr st.transport_log
          (transport_call.write_commands comm bw_disp_sh1106_init_commands) ≠ ESP_OK then
        .ok (INVALID_HANDLE,
          { s_bw_disp_inst_free_num := st.s_bw_disp_inst_free_num + 1,
            s_bw_disp_instances := st.s_bw_disp_instances.set i none,
            transport_log := st.transport_log ++
              [transport_call.write_commands comm bw_disp_sh1106_init_commands] })
      else
        .ok (i + 1,
          { s_bw_disp_inst_free_num := st.s_bw_disp_inst_free_num,
            s_bw_disp_instances := st.s_bw_disp_instances.set i (some (sh1106_new_inst comm i)),
            transport_log := st.transport_log ++
              [transport_call.write_commands comm bw_disp_sh1106_init_commands] }) := by
  obtain ⟨_, hlt, _, _⟩ := find_free_slot_spec _ _ _ hslot
  simp only [Nat.sub_zero] at hlt
  have hp : u8 ((if bw_disp_sh1106_128x64_if.page_num ≠ 0 then bw_disp_sh1106_128x64_if.page_num
      else bw_disp_sh1106_128x64_if.height / 8 : Nat) : Int) = 8 := by decide
  have hw : bw_disp_sh1106_128x64_if.width = 128 := rfl
  have hh : bw_disp_sh1106_128x64_if.height = 64 := rfl
  have hic : bw_disp_sh1106_128x64_if.init_commands = bw_disp_sh1106_init_commands := rfl
  have hb : u16 ((8 * 128 : Nat) : Int) = 1024 := by decide
  have hu : u16 ((i + 1 : Nat) : Int) = i + 1 := by unfold u16; omega
  unfold bw_disp_init
  rw [if_neg hc]
  simp only [if_true, hp]
  simp only [hw, hh, hic, hb, MAX_PAGE_NUM]
  rw [if_neg (by decide), if_neg (by decide), if_neg hfree, hslot]
  simp only []
  rw [if_neg (by simpa [bw_disp_state.s_bw_disp_inst_num] using hlt)]
  by_cases hca : al.calloc_ok = true
  · have hcf : ¬ al.calloc_ok = false := by rw [hca]; decide
    rw [if_neg (fun h => h hca), if_neg hcf]
    simp only [transport_do]
    by_cases htr : tr st.transport_log
        (transport_call.write_commands comm bw_disp_sh1106_init_commands) = ESP_OK
    · rw [if_neg (fun h => h htr), if_neg (fun h => h htr)]
      simp only [hu, List.set_set]
      rfl
    · rw [if_pos htr, if_pos htr]
      simp only [List.set_set]
      rfl
  · have hcf : al.calloc_ok = false := by simpa using hca
    rw [if_pos hca, if_pos hcf]
    rfl

theorem get_instance_eq (st : bw_disp_state) (k : Nat) :
    bw_disp_get_instance st k
      = if k = 0 then none else st.s_bw_disp_instances.getD (k - 1) none := by
  unfold bw_disp_get_instance bw_disp_state.s_bw_disp_inst_num
  by_cases h0 : k = 0
  · rw [if_pos (Or.inl h0), if_pos h0]
  · rw [if_neg h0]
    by_cases h1 : k > st.s_bw_disp_instances.length
    · rw [if_pos (Or.inr h1)]
      simp only [List.getD_eq_getElem?_getD]
      rw [List.getElem?_eq_none (by omega)]
      rfl
    · rw [if_neg (by omega)]

theorem slot_set_getD (l : List (Option bw_disp_t)) (i j : Nat) (v : Option bw_disp_t) :
    (l.set i v).getD j none = if i = j ∧ i < l.length then v else l.getD j none := by
  simp only [List.getD_eq_getElem?_getD, List.getElem?_set]
  by_cases h : i = j
  · subst h
    by_cases h2 : i < l.length
    · simp [h2]
    · simp only [h2, if_false, and_false]
      rw [List.getElem?_eq_none (by omega)]
      rfl
  · simp [h]

theorem slot_append_getD (l : List (Option bw_disp_t)) (j : Nat) (v : Option bw_disp_t) :
    (l ++ [v]).getD j none = if j = l.length then v else l.getD j none := by
  simp only [List.getD_eq_getElem?_getD]
  by_cases h : j < l.length
  · rw [List.getElem?_append_left h, if_neg (by omega)]
  · rw [List.getElem?_append_right (by omega)]
    by_cases h2 : j = l.length
    · rw [if_pos h2, h2]
      simp
    · rw [if_neg h2]
      have e : j - l.length = (j - l.length - 1) + 1 := by omega
      rw [e]
      simp only [List.getElem?_cons_succ, List.getElem?_nil]
      rw [List.getElem?_eq_none (by omega)]

theorem slot_append_set (l : List (Option bw_disp_t)) (a b : Option bw_disp_t) :
    (l ++ [a]).set l.length b = l ++ [b] := by
  induction l with
  | nil => rfl
  | cons x xs ih =>
    simp only [List.cons_append, List.length_cons, List.set_cons_succ, ih]

theorem init_grow (al : alloc_env) (tr : transport) (st : bw_disp_state) (comm : Nat)
    (hc : comm ≠ INVALID_HANDLE) (hfree : st.s_bw_disp_inst_free_num = 0)
    (hlen : st.s_bw_disp_instances.length < MAX_DISP_INST_NUM) :
    bw_disp_init al tr st comm BWD_SH1106_128X64 =
      if al.realloc_ok = false then .ok (INVALID_HANDLE, st)
      else if al.calloc_ok = false then
        .ok (INVALID_HANDLE,
          { s_bw_disp_inst_free_num := st.s_bw_disp_inst_free_num,
            s_bw_disp_instances := st.s_bw_disp_instances ++ [none],
            transport_log := st.transport_log })
      else if tr st.transport_log
          (transport_call.write_commands comm bw_disp_sh1106_init_commands) ≠ ESP_OK then
        .ok (INVALID_HANDLE,
          { s_bw_disp_inst_free_num := st.s_bw_disp_inst_free_num + 1,
            s_bw_disp_instances := st.s_bw_disp_instances ++ [none],
            transport_log := st.transport_log ++
              [transport_call.write_commands comm bw_disp_sh1106_init_commands] })
      else
        .ok (st.s_bw_disp_instances.length + 1,
          { s_bw_disp_inst_free_num := st.s_bw_disp_inst_free_num,
            s_bw_disp_instances := st.s_bw_disp_instances ++
              [some (sh1106_new_inst comm st.s_bw_disp_instances.length)],
            transport_log := st.transport_log ++
              [transport_call.write_commands comm bw_disp_sh1106_init_commands] }) := by
  have hp : u8 ((if bw_disp_sh1106_128x64_if.page_num ≠ 0 then bw_disp_sh1106_128x64_if.page_num
      else bw_disp_sh1106_128x64_if.height / 8 : Nat) : Int) = 8 := by decide
  have hw : bw_disp_sh1106_128x64_if.width = 128 := rfl
  have hh : bw_disp_sh1106_128x64_if.height = 64 := rfl
  have hic : bw_disp_sh1106_128x64_if.init_commands = bw_disp_sh1106_init_commands := rfl
  have hb : u16 ((8 * 128 : Nat) : Int) = 1024 := by decide
  unfold MAX_DISP_INST_NUM at hlen
  have hu : u16 ((st.s_bw_disp_instances.length + 1 : Nat) : Int)
      = st.s_bw_disp_instances.length + 1 := by unfold u16; omega
  unfold bw_disp_init
  rw [if_neg hc]
  simp only [if_true, hp]
  simp only [hw, hh, hic, hb, MAX_PAGE_NUM, MAX_DISP_INST_NUM, bw_disp_state.s_bw_disp_inst_num]
  rw [if_neg (by decide), if_neg (by decide), if_pos hfree, if_neg (by omega)]
  by_cases hra : al.realloc_ok = true
  · have hrf : ¬ al.realloc_ok = false := by rw [hra]; decide
    rw [if_neg (fun h => h hra), if_neg hrf]
    simp only []
    rw [if_neg (by simp)]
    by_cases hca : al.calloc_ok = true
    · have hcf : ¬ al.calloc_ok = false := by rw [hca]; decide
      rw [if_neg (fun h => h hca), if_neg hcf]
      simp only [transport_do]
      by_cases htr : tr st.transport_log
          (transport_call.write_commands comm bw_disp_sh1106_init_commands) = ESP_OK
      · rw [if_neg (fun h => h htr), if_neg (fun h => h htr)]
        simp only [hu, List.set_set, slot_append_set]
        rfl
      · rw [if_pos htr, if_pos htr]
        simp only [List.set_set, slot_append_set]
        rfl
    · have hcf : al.calloc_ok = false := by simpa using hca
      rw [if_pos hca, if_pos hcf]
      rfl
  · have hrf : al.realloc_ok = false := by simpa using hra
    rw [if_pos hra, if_pos hrf]
    rfl

theorem init_full (al : alloc_env) (tr : transport) (st : bw_disp_state) (comm : Nat)
    (hc : comm ≠ INVALID_HANDLE) (hfree : st.s_bw_disp_inst_free_num = 0)
    (hlen : st.s_bw_disp_instances.length ≥ MAX_DISP_INST_NUM) :
    bw_disp_init al tr st comm BWD_SH1106_128X64 = .ok (INVALID_HANDLE, st) := by
  have hp : u8 ((if bw_disp_sh1106_128x64_if.page_num ≠ 0 then bw_disp_sh1106_128x64_if.page_num
      else bw_disp_sh1106_128x64_if.height / 8 : Nat) : Int) = 8 := by decide
  have hw : bw_disp_sh1106_128x64_if.width = 128 := rfl
  unfold bw_disp_init
  rw [if_neg hc]
  simp only [if_true, hp]
  simp only [hw, MAX_PAGE_NUM, bw_disp_state.s_bw_disp_inst_num]
  rw [if_neg (by decide), if_neg (by decide), if_pos hfree, if_pos hlen]
  rfl

theorem init_no_slot (al : alloc_env) (tr : transport) (st : bw_disp_state) (comm : Nat)
    (hc : comm ≠ INVALID_HANDLE) (hfree : st.s_bw_disp_inst_free_num ≠ 0)
    (hslot : find_free_slot st.s_bw_disp_instances 0 = none) :
    bw_disp_init al tr st comm BWD_SH1106_128X64 = .error fault.assertion := by
  have hp : u8 ((if bw_disp_sh1106_128x64_if.page_num ≠ 0 then bw_disp_sh1106_128x64_if.page_num
      else bw_disp_sh1106_128x64_if.height / 8 : Nat) : Int) = 8 := by decide
  have hw : bw_disp_sh1106_128x64_if.width = 128 := rfl
  unfold bw_disp_init
  rw [if_neg hc]
  simp only [if_true, hp]
  simp only [hw, MAX_PAGE_NUM]
  rw [if_neg (by decide), if_neg (by decide), if_neg hfree, hslot]
  rfl

theorem init_invalid_args (al : alloc_env) (tr : transport) (st : bw_disp_state)
    (comm type : Nat) (h : comm = INVALID_HANDLE ∨ type ≠ BWD_SH1106_128X64) :
    bw_disp_init al tr st comm type = .ok (INVALID_HANDLE, st) := by
  unfold bw_disp_init
  by_cases hc : comm = INVALID_HANDLE
  · rw [if_pos hc]
    rfl
  · rw [if_neg hc]
    rcases h with h | h
    · exact absurd h hc
    · rw [if_neg h]
      rfl

theorem init_result (al : alloc_env) (tr : transport) (st : bw_disp_state)
    (comm type handle : Nat) (st1 : bw_disp_state)
    (hlen : st.s_bw_disp_instances.length ≤ MAX_DISP_INST_NUM)
    (h : bw_disp_init al tr st comm type = .ok (handle, st1)) :
    (∀ k, k ≠ handle → bw_disp_get_instance st1 k = bw_disp_get_instance st k) ∧
    (handle ≠ INVALID_HANDLE →
      type = BWD_SH1106_128X64 ∧ comm ≠ INVALID_HANDLE ∧
      bw_disp_get_instance st handle = none ∧
      bw_disp_get_instance st1 handle = some (sh1106_new_inst comm (handle - 1)) ∧
      tr st.transport_log (transport_call.write_commands comm bw_disp_sh1106_init_commands)
        = ESP_OK ∧
      st1.transport_log = st.transport_log ++
        [transport_call.write_commands comm bw_disp_sh1106_init_commands] ∧
      st1.s_bw_disp_inst_free_num = st.s_bw_disp_inst_free_num ∧
      ((st.s_bw_disp_inst_free_num = 0 ∧ handle = st.s_bw_disp_instances.length + 1 ∧
          st1.s_bw_disp_instances.length = st.s_bw_disp_instances.length + 1) ∨
       (st.s_bw_disp_inst_free_num ≠ 0 ∧ lowest_free_slot st.s_bw_disp_instances (handle - 1) ∧
          st1.s_bw_disp_instances.length = st.s_bw_disp_instances.length))) := by
  by_cases hargs : comm = INVALID_HANDLE ∨ type ≠ BWD_SH1106_128X64
  · rw [init_invalid_args al tr st comm type hargs] at h
    cases h
    exact ⟨fun _ _ => rfl, fun hne => absurd rfl hne⟩
  · have hc : comm ≠ INVALID_HANDLE := fun hc => hargs (Or.inl hc)
    have ht : type = BWD_SH1106_128X64 := by
      by_contra ht
      exact hargs (Or.inr ht)
    subst ht
    by_cases hfree : st.s_bw_disp_inst_free_num = 0
    · by_cases hfull : st.s_bw_disp_instances.length ≥ MAX_DISP_INST_NUM
      · rw [init_full al tr st comm hc hfree hfull] at h
        cases h
        exact ⟨fun _ _ => rfl, fun hne => absurd rfl hne⟩
      · rw [init_grow al tr st comm hc hfree (by omega)] at h
        split_ifs at h with h1 h2 h3
        · cases h
          exact ⟨fun _ _ => rfl, fun hne => absurd rfl hne⟩
        · cases h
          refine ⟨fun k _ => ?_, fun hne => absurd rfl hne⟩
          simp only [get_instance_eq, slot_append_getD]
          by_cases hk : k - 1 = st.s_bw_disp_instances.length
          · rw [if_pos hk, hk]
            simp only [List.getD_eq_getElem?_getD]
            rw [List.getElem?_eq_none (Nat.le_refl _)]
            rfl
          · rw [if_neg hk]
        · cases h
          refine ⟨fun k _ => ?_, fun hne => absurd rfl hne⟩
          simp only [get_instance_eq, slot_append_getD]
          by_cases hk : k - 1 = st.s_bw_disp_instances.length
          · rw [if_pos hk, hk]
            simp only [List.getD_eq_getElem?_getD]
            rw [List.getElem?_eq_none (Nat.le_refl _)]
            rfl
          · rw [if_neg hk]
        · cases h
          have hnone : st.s_bw_disp_instances.getD st.s_bw_disp_instances.length none = none := by
            simp only [List.getD_eq_getElem?_getD]
            rw [List.getElem?_eq_none (Nat.le_refl _)]
            rfl
          refine ⟨fun k hk => ?_, fun _ => ⟨rfl, hc, ?_, ?_, ?_, rfl, rfl, Or.inl ⟨hfree, rfl, ?_⟩⟩⟩
          · simp only [get_instance_eq, slot_append_getD]
            by_cases hk0 : k = 0
            · rw [if_pos hk0, if_pos hk0]
            · rw [if_neg hk0, if_neg hk0, if_neg (by omega)]
          · simp only [get_instance_eq, Nat.add_sub_cancel]
            rw [if_neg (by omega)]
            exact hnone
          · simp only [get_instance_eq, slot_append_getD, Nat.add_sub_cancel]
            rw [if_neg (by omega), if_pos trivial]
          · simpa using h3
          · simp
    · cases hslot : find_free_slot st.s_bw_disp_instances 0 with
      | none =>
        rw [init_no_slot al tr st comm hc hfree hslot] at h
        cases h
      | some i =>
        obtain ⟨_, hlt, hnone, hlow⟩ := find_free_slot_spec _ _ _ hslot
        simp only [Nat.sub_zero] at hlt hnone hlow
        unfold MAX_DISP_INST_NUM at hlen
        rw [init_reuse al tr st comm i hc hfree hslot (by omega)] at h
        split_ifs at h with h1 h2
        · cases h
          exact ⟨fun _ _ => rfl, fun hne => absurd rfl hne⟩
        · cases h
          refine ⟨fun k _ => ?_, fun hne => absurd rfl hne⟩
          simp only [get_instance_eq, slot_set_getD]
          by_cases hk0 : k = 0
          · rw [if_pos hk0, if_pos hk0]
          · rw [if_neg hk0, if_neg hk0]
            by_cases hk : i = k - 1 ∧ i < st.s_bw_disp_instances.length
            · rw [if_pos hk, ← hk.1, hnone]
            · rw [if_neg hk]
        · cases h
          refine ⟨fun k hk => ?_, fun _ => ⟨rfl, hc, ?_, ?_, ?_, rfl, rfl,
            Or.inr ⟨hfree, ⟨hlt, hnone, hlow⟩, ?_⟩⟩⟩
          · simp only [get_instance_eq, slot_set_getD]
            by_cases hk0 : k = 0
            · rw [if_pos hk0, if_pos hk0]
            · rw [if_neg hk0, if_neg hk0, if_neg (by omega)]
          · simp only [get_instance_eq, Nat.add_sub_cancel]
            rw [if_neg (by omega)]
            exact hnone
          · simp only [get_instance_eq, slot_set_getD, Nat.add_sub_cancel]
            rw [if_neg (by omega), if_pos ⟨trivial, hlt⟩]
          · simpa using h2
          · simp

/-- C22: whenever `bw_disp_init` returns `INVALID_HANDLE` (in a pool of at most
`MAX_DISP_INST_NUM` slots, for every cause: transport handle 0, unknown display
type, exhausted pool, failed allocation, failed write of the init command
sequence), every handle designates after the call exactly what it designated
before: the same handles are valid and each instance (buffer, dirty rectangle
and all other fields) is unchanged. -/
theorem failed_init_leaves_no_trace (al : alloc_env) (tr : transport) (st : bw_disp_state)
    (comm type : Nat) (st1 : bw_disp_state)
    (hlen : st.s_bw_disp_instances.length ≤ MAX_DISP_INST_NUM)
    (h : bw_disp_init al tr st comm type = .ok (INVALID_HANDLE, st1)) :
    ∀ k, bw_disp_get_instance st1 k = bw_disp_get_instance st k := by
  intro k
  by_cases hk : k = INVALID_HANDLE
  · rw [hk, get_instance_eq, get_instance_eq]
    rfl
  · exact (init_result al tr st comm type INVALID_HANDLE st1 hlen h).1 k hk

set_option maxRecDepth 100000 in
/-- Witness of C22: a second `bw_disp_init` whose init command write fails, on
the state after the first one; handles 1 and 2 designate what they did. -/
theorem failed_init_leaves_no_trace_witness :
    bw_disp_get_instance
        { s_bw_disp_inst_free_num := 1,
          s_bw_disp_instances := [some sh1106_inst, none],
          transport_log := [transport_call.write_commands 1 bw_disp_sh1106_init_commands,
            transport_call.write_commands 2 bw_disp_sh1106_init_commands] } 1
      = bw_disp_get_instance sh1106_state 1 ∧
    bw_disp_get_instance
        { s_bw_disp_inst_free_num := 1,
          s_bw_disp_instances := [some sh1106_inst, none],
          transport_log := [transport_call.write_commands 1 bw_disp_sh1106_init_commands,
            transport_call.write_commands 2 bw_disp_sh1106_init_commands] } 2
      = bw_disp_get_instance sh1106_state 2 :=
  ⟨failed_init_leaves_no_trace alloc_ok (fun _ _ => -1) sh1106_state 2 BWD_SH1106_128X64 _
    (by decide)
    (by rw [init_grow alloc_ok _ sh1106_state 2 (by decide) rfl (by decide)]; rfl) 1,
   failed_init_leaves_no_trace alloc_ok (fun _ _ => -1) sh1106_state 2 BWD_SH1106_128X64 _
    (by decide)
    (by rw [init_grow alloc_ok _ sh1106_state 2 (by decide) rfl (by decide)]; rfl) 2⟩

/-- C24: a `bw_disp_init (comm, BWD_SH1106_128X64)` that returns a handle other
than `INVALID_HANDLE` (in a pool of at most `MAX_DISP_INST_NUM` slots) returns
slot index + 1 of the slot that now holds the instance; the instance has the
handle and the transport handle, a zero-filled buffer of `8 * 128 = 1024`
bytes and the dirty rectangle `{0, 0, 128, 64}`; `bw_disp_get_width` and
`bw_disp_get_height` return 128 and 64; and the call added to the transport
history exactly one call, `write_commands` of the init command sequence. -/
theorem init_success_result (al : alloc_env) (tr : transport) (st : bw_disp_state)
    (comm handle : Nat) (st1 : bw_disp_state)
    (hlen : st.s_bw_disp_instances.length ≤ MAX_DISP_INST_NUM)
    (h : bw_disp_init al tr st comm BWD_SH1106_128X64 = .ok (handle, st1))
    (hne : handle ≠ INVALID_HANDLE) :
    1 ≤ handle ∧
    ∃ inst, st1.s_bw_disp_instances.getD (handle - 1) none = some inst ∧
      bw_disp_get_instance st1 handle = some inst ∧
      inst.handle = handle ∧ inst.comm_handle = comm ∧
      inst.page_num = 8 ∧ inst.disp_if.width = 128 ∧ inst.disp_if.height = 64 ∧
      inst.buffer = List.replicate 1024 0 ∧ inst.buffer.length = 8 * 128 ∧
      inst.dirty_rect = { x := 0, y := 0, width := 128, height := 64 } ∧
      bw_disp_get_width st1 handle = 128 ∧ bw_disp_get_height st1 handle = 64 ∧
      st1.transport_log = st.transport_log ++
        [transport_call.write_commands comm bw_disp_sh1106_init_commands] := by
  obtain ⟨_, _, _, hget, _, hlog, _, _⟩ :=
    (init_result al tr st comm BWD_SH1106_128X64 handle st1 hlen h).2 hne
  have hpos : 1 ≤ handle := by
    unfold INVALID_HANDLE at hne
    omega
  refine ⟨hpos, sh1106_new_inst comm (handle - 1), ?_, hget, ?_, rfl, rfl, rfl, rfl, rfl,
    List.length_replicate _ _, rfl, ?_, ?_, hlog⟩
  · rw [get_instance_eq, if_neg (by omega)] at hget
    exact hget
  · show handle - 1 + 1 = handle
    omega
  · unfold bw_disp_get_width
    rw [hget]
    rfl
  · unfold bw_disp_get_height
    rw [hget]
    rfl

/-- Witness of C24: the first `bw_disp_init` on transport handle 1. -/
theorem init_success_result_witness :
    1 ≤ 1 ∧
    ∃ inst, sh1106_state.s_bw_disp_instances.getD (1 - 1) none = some inst ∧
      bw_disp_get_instance sh1106_state 1 = some inst ∧
      inst.handle = 1 ∧ inst.comm_handle = 1 ∧
      inst.page_num = 8 ∧ inst.disp_if.width = 128 ∧ inst.disp_if.height = 64 ∧
      inst.buffer = List.replicate 1024 0 ∧ inst.buffer.length = 8 * 128 ∧
      inst.dirty_rect = { x := 0, y := 0, width := 128, height := 64 } ∧
      bw_disp_get_width sh1106_state 1 = 128 ∧ bw_disp_get_height sh1106_state 1 = 64 ∧
      sh1106_state.transport_log = bw_disp_state_initial.transport_log ++
        [transport_call.write_commands 1 bw_disp_sh1106_init_commands] :=
  init_success_result alloc_ok transport_ok bw_disp_state_initial 1 1 sh1106_state
    (by decide) init_first (by decide)

theorem close_result (tr : transport) (st : bw_disp_state) (handle : Nat) (inst : bw_disp_t)
    (hinst : bw_disp_get_instance st handle = some inst) :
    ∃ ret log1, bw_disp_close tr st handle = .ok (ret,
      { s_bw_disp_inst_free_num := st.s_bw_disp_inst_free_num + 1,
        s_bw_disp_instances := st.s_bw_disp_instances.set (handle - 1) none,
        transport_log := log1 }) := by
  unfold bw_disp_close
  rw [hinst]
  exact ⟨_, _, rfl⟩

theorem init_reuses_lowest (al : alloc_env) (tr : transport) (comm : Nat) (st : bw_disp_state)
    (hal : al.calloc_ok = true) (hc : comm ≠ INVALID_HANDLE)
    (htr : ∀ log c, tr log c = ESP_OK)
    (hlen : st.s_bw_disp_instances.length ≤ MAX_DISP_INST_NUM)
    (hfree : st.s_bw_disp_inst_free_num ≠ 0)
    (hslot : ∃ j, j < st.s_bw_disp_instances.length ∧ st.s_bw_disp_instances.getD j none = none) :
    ∃ i st1, lowest_free_slot st.s_bw_disp_instances i ∧
      bw_disp_init al tr st comm BWD_SH1106_128X64 = .ok (i + 1, st1) ∧
      st1.s_bw_disp_instances.length = st.s_bw_disp_instances.length ∧
      st1.s_bw_disp_inst_free_num = st.s_bw_disp_inst_free_num ∧
      bw_disp_get_instance st1 (i + 1) = some (sh1106_new_inst comm i) := by
  obtain ⟨i, hi⟩ := find_free_slot_exists st.s_bw_disp_instances 0 hslot
  obtain ⟨_, hlt, hnone, hlow⟩ := find_free_slot_spec _ _ _ hi
  simp only [Nat.sub_zero] at hlt hnone hlow
  unfold MAX_DISP_INST_NUM at hlen
  have hinit := init_reuse al tr st comm i hc hfree hi (by omega)
  have hcf : ¬ al.calloc_ok = false := by rw [hal]; decide
  rw [if_neg hcf, if_neg (fun h => h (htr _ _))] at hinit
  refine ⟨i, _, ⟨hlt, hnone, hlow⟩, hinit, ?_, rfl, ?_⟩
  · simp
  · simp only [get_instance_eq, slot_set_getD, Nat.add_sub_cancel]
    rw [if_neg (by omega), if_pos ⟨trivial, hlt⟩]

/-- C20: with a working transport and allocator, in a pool of at most
`MAX_DISP_INST_NUM` slots whose free counter is not zero (it is not zero once
`bw_disp_close` has freed a slot) and that has a free slot, `bw_disp_init`
succeeds, returns index + 1 of the lowest-indexed free slot and leaves the pool
size as it was.  Hence any number `n` of close/init cycles starting from a
valid handle all succeed, at capacity too: the last `bw_disp_init` returns a
valid handle and the pool has not grown. -/
theorem freed_slot_is_reused (al : alloc_env) (tr : transport) (comm : Nat)
    (hal : al.calloc_ok = true) (hc : comm ≠ INVALID_HANDLE)
    (htr : ∀ log c, tr log c = ESP_OK) :
    (∀ st : bw_disp_state, st.s_bw_disp_instances.length ≤ MAX_DISP_INST_NUM →
      st.s_bw_disp_inst_free_num ≠ 0 →
      (∃ j, j < st.s_bw_disp_instances.length ∧ st.s_bw_disp_instances.getD j none = none) →
      ∃ i st1, lowest_free_slot st.s_bw_disp_instances i ∧
        bw_disp_init al tr st comm BWD_SH1106_128X64 = .ok (i + 1, st1) ∧
        st1.s_bw_disp_instances.length = st.s_bw_disp_instances.length ∧
        bw_disp_get_instance st1 (i + 1) = some (sh1106_new_inst comm i)) ∧
    (∀ (n : Nat) (st : bw_disp_state) (handle : Nat),
      st.s_bw_disp_instances.length ≤ MAX_DISP_INST_NUM →
      bw_disp_get_instance st handle ≠ none →
      ∃ handle1 st1, close_init_cycles al tr comm n st handle = .ok (handle1, st1) ∧
        bw_disp_get_instance st1 handle1 ≠ none ∧
        st1.s_bw_disp_instances.length = st.s_bw_disp_instances.length) := by
  constructor
  · intro st hlen hfree hslot
    obtain ⟨i, st1, h1, h2, h3, _, h5⟩ := init_reuses_lowest al tr comm st hal hc htr hlen hfree hslot
    exact ⟨i, st1, h1, h2, h3, h5⟩
  · intro n
    induction n with
    | zero =>
      intro st handle _ hv
      exact ⟨handle, st, rfl, hv, rfl⟩
    | succ n ih =>
      intro st handle hlen hv
      cases hg : bw_disp_get_instance st handle with
      | none => exact absurd hg hv
      | some inst =>
        obtain ⟨hpos, hlt, _⟩ := get_instance_valid hg
        obtain ⟨ret, log1, hclose⟩ := close_result tr st handle inst hg
        obtain ⟨i, st2, _, hinit, hl2, _, hget⟩ := init_reuses_lowest al tr comm
          { s_bw_disp_inst_free_num := st.s_bw_disp_inst_free_num + 1,
            s_bw_disp_instances := st.s_bw_disp_instances.set (handle - 1) none,
            transport_log := log1 } hal hc htr
          (by simpa using hlen) (Nat.succ_ne_zero _)
          ⟨handle - 1, by simpa using hlt, by
            show (st.s_bw_disp_instances.set (handle - 1) none).getD (handle - 1) none = none
            rw [slot_set_getD, if_pos ⟨rfl, hlt⟩]⟩
        have hl2b : st2.s_bw_disp_instances.length = st.s_bw_disp_instances.length := by
          rw [hl2]
          simp
        obtain ⟨handle1, st1, hcyc, hv1, hl1⟩ := ih st2 (i + 1) (by rw [hl2b]; exact hlen)
          (by rw [hget]; simp)
        refine ⟨handle1, st1, ?_, hv1, by rw [hl1, hl2b]⟩
        simp only [close_init_cycles, bind, Except.bind]
        rw [hclose]
        simp only []
        rw [hinit]
        exact hcyc

/-- Witness of C20: three close/init cycles on the freshly initialised display
with a working transport. -/
theorem freed_slot_is_reused_witness :
    ∃ handle1 st1, close_init_cycles alloc_ok transport_ok 1 3 sh1106_state 1
        = .ok (handle1, st1) ∧
      bw_disp_get_instance st1 handle1 ≠ none ∧
      st1.s_bw_disp_instances.length = sh1106_state.s_bw_disp_instances.length :=
  (freed_slot_is_reused alloc_ok transport_ok 1 rfl (by decide) (fun _ _ => rfl)).2
    3 sh1106_state 1 (by decide) (by rw [sh1106_inst_valid]; exact Option.some_ne_none _)

theorem frame_store (st : bw_disp_state) (handle : Nat) (inst1 : bw_disp_t) (hpos : 0 < handle) :
    ∀ k, k ≠ handle →
      bw_disp_get_instance (store_instance st handle inst1) k = bw_disp_get_instance st k := by
  intro k hk
  simp only [get_instance_eq, store_instance, slot_set_getD]
  by_cases hk0 : k = 0
  · rw [if_pos hk0, if_pos hk0]
  · rw [if_neg hk0, if_neg hk0, if_neg (by omega)]

theorem set_pixel_frame {st : bw_disp_state} {handle x y : Nat} {c : bw_disp_clr_t}
    {r : esp_err_t} {st1 : bw_disp_state}
    (h : bw_disp_set_pixel st handle x y c = .ok (r, st1)) :
    ∀ k, k ≠ handle → bw_disp_get_instance st1 k = bw_disp_get_instance st k := by
  unfold bw_disp_set_pixel at h
  split at h
  · cases h; exact fun _ _ => rfl
  · rename_i inst hg
    split at h
    · cases h; exact fun _ _ => rfl
    · simp only [bind, Except.bind, pure, Except.pure] at h
      split at h
      · cases h
      · split at h
        · cases h
        · cases h
          exact frame_store st handle _ (get_instance_valid hg).1

theorem hline_frame {st : bw_disp_state} {handle x y w : Nat} {c : bw_disp_clr_t}
    {r : esp_err_t} {st1 : bw_disp_state}
    (h : bw_disp_hline st handle x y w c = .ok (r, st1)) :
    ∀ k, k ≠ handle → bw_disp_get_instance st1 k = bw_disp_get_instance st k := by
  unfold bw_disp_hline at h
  split at h
  · cases h; exact fun _ _ => rfl
  · rename_i inst hg
    split at h
    · cases h; exact fun _ _ => rfl
    · simp only [bind, Except.bind, pure, Except.pure] at h
      split at h
      · cases h
      · split at h
        · cases h
        · cases h
          exact frame_store st handle _ (get_instance_valid hg).1

theorem vline_frame {st : bw_disp_state} {handle x y hh : Nat} {c : bw_disp_clr_t}
    {r : esp_err_t} {st1 : bw_disp_state}
    (h : bw_disp_vline st handle x y hh c = .ok (r, st1)) :
    ∀ k, k ≠ handle → bw_disp_get_instance st1 k = bw_disp_get_instance st k := by
  unfold bw_disp_vline at h
  split at h
  · cases h; exact fun _ _ => rfl
  · rename_i inst hg
    split at h
    · cases h; exact fun _ _ => rfl
    · simp only [bind, Except.bind, pure, Except.pure] at h
      split at h
      · cases h
      · split at h
        · cases h
        · cases h
          exact frame_store st handle _ (get_instance_valid hg).1

theorem fill_frame {st : bw_disp_state} {handle : Nat} {c : bw_disp_clr_t}
    {r : esp_err_t} {st1 : bw_disp_state}
    (h : bw_disp_fill st handle c = .ok (r, st1)) :
    ∀ k, k ≠ handle → bw_disp_get_instance st1 k = bw_disp_get_instance st k := by
  unfold bw_disp_fill at h
  split at h
  · cases h; exact fun _ _ => rfl
  · rename_i inst hg
    split at h
    · simp only [bind, Except.bind, pure, Except.pure] at h
      split at h
      · cases h
      · cases h
        exact frame_store st handle _ (get_instance_valid hg).1
    · cases h

theorem image_sel_ex_frame {st : bw_disp_state} {handle x y ix iy iw ih : Nat}
    {inv_img : Bool} {mode : bw_disp_img_draw_mode_t} {img : bw_image_t}
    {r : esp_err_t} {st1 : bw_disp_state}
    (h : bw_disp_image_sel_ex st handle x y ix iy iw ih inv_img mode img = .ok (r, st1)) :
    ∀ k, k ≠ handle → bw_disp_get_instance st1 k = bw_disp_get_instance st k := by
  unfold bw_disp_image_sel_ex at h
  split at h
  · cases h; exact fun _ _ => rfl
  · rename_i inst hg
    split at h
    · cases h; exact fun _ _ => rfl
    · split at h
      · cases h; exact fun _ _ => rfl
      · simp only [bind, Except.bind, pure, Except.pure] at h
        split at h
        · cases h
        · cases h
          exact frame_store st handle _ (get_instance_valid hg).1

theorem rect_frame {st : bw_disp_state} {handle x y w hh : Nat} {c : bw_disp_clr_t}
    {r : esp_err_t} {st1 : bw_disp_state}
    (h : bw_disp_rect st handle x y w hh c = .ok (r, st1)) :
    ∀ k, k ≠ handle → bw_disp_get_instance st1 k = bw_disp_get_instance st k := by
  unfold bw_disp_rect at h
  simp only [bind, Except.bind, pure, Except.pure] at h
  split at h
  · cases h
  · rename_i r1 h1
    split at h
    · cases h
      exact hline_frame h1
    · split at h
      · cases h
      · rename_i r2 h2
        split at h
        · cases h
          exact fun k hk => (vline_frame h2 k hk).trans (hline_frame h1 k hk)
        · split at h
          · cases h
          · rename_i r3 h3
            split at h
            · cases h
              exact fun k hk => ((hline_frame h3 k hk).trans (vline_frame h2 k hk)).trans
                (hline_frame h1 k hk)
            · exact fun k hk => (((vline_frame h k hk).trans (hline_frame h3 k hk)).trans
                (vline_frame h2 k hk)).trans (hline_frame h1 k hk)

theorem fill_rect_loop_frame (handle y hh : Nat) (c : bw_disp_clr_t) :
    ∀ (n x : Nat) (st : bw_disp_state) (r : esp_err_t) (st1 : bw_disp_state),
      fill_rect_loop handle y hh c n x st = .ok (r, st1) →
      ∀ k, k ≠ handle → bw_disp_get_instance st1 k = bw_disp_get_instance st k := by
  intro n
  induction n with
  | zero =>
    intro x st r st1 h
    unfold fill_rect_loop at h
    cases h
    exact fun _ _ => rfl
  | succ n ih =>
    intro x st r st1 h
    unfold fill_rect_loop at h
    simp only [bind, Except.bind, pure, Except.pure] at h
    split at h
    · cases h
    · rename_i r1 h1
      split at h
      · cases h
        exact vline_frame h1
      · exact fun k hk => (ih _ _ _ _ h k hk).trans (vline_frame h1 k hk)

theorem refresh_loop_instances (tr : transport) (inst : bw_disp_t) :
    ∀ (n page : Nat) (st : bw_disp_state) (r : esp_err_t) (st1 : bw_disp_state),
      refresh_loop tr inst n page st = .ok (r, st1) →
      st1.s_bw_disp_instances = st.s_bw_disp_instances := by
  intro n
  induction n with
  | zero =>
    intro page st r st1 h
    unfold refresh_loop at h
    cases h
    rfl
  | succ n ih =>
    intro page st r st1 h
    unfold refresh_loop at h
    simp only [pure, Except.pure] at h
    split at h
    · cases h
      rfl
    · split at h
      · split at h
        · cases h
          rfl
        · exact (ih (page + 1) _ r st1 h).trans rfl
      · cases h

theorem get_instance_congr {st st1 : bw_disp_state}
    (h : st1.s_bw_disp_instances = st.s_bw_disp_instances) (k : Nat) :
    bw_disp_get_instance st1 k = bw_disp_get_instance st k := by
  rw [get_instance_eq, get_instance_eq, h]

theorem refresh_frame {tr : transport} {st : bw_disp_state} {handle : Nat}
    {r : esp_err_t} {st1 : bw_disp_state}
    (h : bw_disp_refresh tr st handle = .ok (r, st1)) :
    ∀ k, k ≠ handle → bw_disp_get_instance st1 k = bw_disp_get_instance st k := by
  unfold bw_disp_refresh at h
  split at h
  · cases h; exact fun _ _ => rfl
  · rename_i inst hg
    split at h
    · cases h; exact fun _ _ => rfl
    · simp only [bind, Except.bind, pure, Except.pure] at h
      split at h
      · cases h
      · rename_i r1 h1
        have hi := refresh_loop_instances tr inst _ _ _ _ _ h1
        split at h
        · cases h
          exact fun k _ => get_instance_congr hi k
        · cases h
          exact fun k hk => (frame_store _ handle _ (get_instance_valid hg).1 k hk).trans
            (get_instance_congr hi k)

theorem close_frame {tr : transport} {st : bw_disp_state} {handle : Nat}
    {r : esp_err_t} {st1 : bw_disp_state}
    (h : bw_disp_close tr st handle = .ok (r, st1)) :
    ∀ k, k ≠ handle → bw_disp_get_instance st1 k = bw_disp_get_instance st k := by
  unfold bw_disp_close at h
  split at h
  · cases h; exact fun _ _ => rfl
  · rename_i inst hg
    cases h
    intro k hk
    have hpos := (get_instance_valid hg).1
    simp only [get_instance_eq, transport_do, slot_set_getD]
    by_cases hk0 : k = 0
    · rw [if_pos hk0, if_pos hk0]
    · rw [if_neg hk0, if_neg hk0, if_neg (by omega)]

/-- C31: live handles are unique and isolated.  In a pool of at most
`MAX_DISP_INST_NUM` slots a `bw_disp_init` that returns a handle other than
`INVALID_HANDLE` returns one that was not valid before the call, and it leaves
every other handle designating exactly what it designated before.  Every
operation that returns on a handle (`bw_disp_close`, `bw_disp_fill`,
`bw_disp_clear`, `bw_disp_refresh`, `bw_disp_set_pixel`, `bw_disp_hline`,
`bw_disp_vline`, `bw_disp_rect`, `bw_disp_fill_rect`, `bw_disp_image_sel_ex`,
`bw_disp_image_sel`, `bw_disp_image`) leaves every other handle designating
exactly the instance (buffer, dirty rectangle and all) it designated before. -/
theorem live_handles_isolated (al : alloc_env) (tr : transport) (st st1 : bw_disp_state)
    (handle : Nat) :
    (∀ comm type, st.s_bw_disp_instances.length ≤ MAX_DISP_INST_NUM →
      bw_disp_init al tr st comm type = .ok (handle, st1) →
      (handle ≠ INVALID_HANDLE → bw_disp_get_instance st handle = none ∧
        bw_disp_get_instance st1 handle ≠ none) ∧
      ∀ k, k ≠ handle → bw_disp_get_instance st1 k = bw_disp_get_instance st k) ∧
    (∀ r, bw_disp_close tr st handle = .ok (r, st1) →
      ∀ k, k ≠ handle → bw_disp_get_instance st1 k = bw_disp_get_instance st k) ∧
    (∀ r c, bw_disp_fill st handle c = .ok (r, st1) →
      ∀ k, k ≠ handle → bw_disp_get_instance st1 k = bw_disp_get_instance st k) ∧
    (∀ r, bw_disp_clear st handle = .ok (r, st1) →
      ∀ k, k ≠ handle → bw_disp_get_instance st1 k = bw_disp_get_instance st k) ∧
    (∀ r, bw_disp_refresh tr st handle = .ok (r, st1) →
      ∀ k, k ≠ handle → bw_disp_get_instance st1 k = bw_disp_get_instance st k) ∧
    (∀ r x y c, bw_disp_set_pixel st handle x y c = .ok (r, st1) →
      ∀ k, k ≠ handle → bw_disp_get_instance st1 k = bw_disp_get_instance st k) ∧
    (∀ r x y w c, bw_disp_hline st handle x y w c = .ok (r, st1) →
      ∀ k, k ≠ handle → bw_disp_get_instance st1 k = bw_disp_get_instance st k) ∧
    (∀ r x y h c, bw_disp_vline st handle x y h c = .ok (r, st1) →
      ∀ k, k ≠ handle → bw_disp_get_instance st1 k = bw_disp_get_instance st k) ∧
    (∀ r x y w h c, bw_disp_rect st handle x y w h c = .ok (r, st1) →
      ∀ k, k ≠ handle → bw_disp_get_instance st1 k = bw_disp_get_instance st k) ∧
    (∀ r x y w h c, bw_disp_fill_rect st handle x y w h c = .ok (r, st1) →
      ∀ k, k ≠ handle → bw_disp_get_instance st1 k = bw_disp_get_instance st k) ∧
    (∀ r x y ix iy iw ih inv_img mode img,
      bw_disp_image_sel_ex st handle x y ix iy iw ih inv_img mode img = .ok (r, st1) →
      ∀ k, k ≠ handle → bw_disp_get_instance st1 k = bw_disp_get_instance st k) ∧
    (∀ r x y ix iy iw ih img,
      bw_disp_image_sel st handle x y ix iy iw ih img = .ok (r, st1) →
      ∀ k, k ≠ handle → bw_disp_get_instance st1 k = bw_disp_get_instance st k) ∧
    (∀ r x y img, bw_disp_image st handle x y img = .ok (r, st1) →
      ∀ k, k ≠ handle → bw_disp_get_instance st1 k = bw_disp_get_instance st k) := by
  refine ⟨?_, fun _ h => close_frame h, fun _ _ h => fill_frame h, fun _ h => fill_frame h,
    fun _ h => refresh_frame h, fun _ _ _ _ h => set_pixel_frame h,
    fun _ _ _ _ _ h => hline_frame h, fun _ _ _ _ _ h => vline_frame h,
    fun _ _ _ _ _ _ h => rect_frame h,
    fun _ _ _ _ _ _ h => fill_rect_loop_frame _ _ _ _ _ _ _ _ _ h,
    fun _ _ _ _ _ _ _ _ _ _ h => image_sel_ex_frame h,
    fun _ _ _ _ _ _ _ _ h => image_sel_ex_frame h,
    fun _ _ _ _ h => image_sel_ex_frame h⟩
  intro comm type hlen h
  obtain ⟨h1, h2⟩ := init_result al tr st comm type handle st1 hlen h
  refine ⟨fun hne => ?_, h1⟩
  obtain ⟨_, _, h3, h4, _⟩ := h2 hne
  exact ⟨h3, by rw [h4]; exact Option.some_ne_none _⟩

set_option maxRecDepth 100000 in
/-- Witness of C31: the second `bw_disp_init` on a working transport returns
handle 2, which was not valid before, and handle 1 still designates the first
instance. -/
theorem live_handles_isolated_witness :
    (2 ≠ INVALID_HANDLE → bw_disp_get_instance sh1106_state 2 = none ∧
      bw_disp_get_instance
        { s_bw_disp_inst_free_num := 0,
          s_bw_disp_instances := [some sh1106_inst, some (sh1106_new_inst 2 1)],
          transport_log := [transport_call.write_commands 1 bw_disp_sh1106_init_commands,
            transport_call.write_commands 2 bw_disp_sh1106_init_commands] } 2 ≠ none) ∧
    ∀ k, k ≠ 2 → bw_disp_get_instance
        { s_bw_disp_inst_free_num := 0,
          s_bw_disp_instances := [some sh1106_inst, some (sh1106_new_inst 2 1)],
          transport_log := [transport_call.write_commands 1 bw_disp_sh1106_init_commands,
            transport_call.write_commands 2 bw_disp_sh1106_init_commands] } k
      = bw_disp_get_instance sh1106_state k :=
  (live_handles_isolated alloc_ok transport_ok sh1106_state _ 2).1 2 BWD_SH1106_128X64
    (by decide)
    (by rw [init_grow alloc_ok _ sh1106_state 2 (by decide) rfl (by decide)]; rfl)

set_option maxRecDepth 100000 in
/-- C16, evaluated at the failing input: on the freshly initialised 128x64
display `bw_disp_hline (x = 0, y = 0, w = 128, WHITE)` returns `ESP_OK` and
leaves the dirty rectangle `{0, 0, 256, 64}`; `bw_disp_fill (BLACK)` then
returns `ESP_OK`, every byte of the framebuffer is 0 and `bw_disp_get_pixel`
returns `BWDC_BLACK`, but the dirty rectangle afterwards is `{0, 0, 256, 64}`,
not the full screen `{0, 0, 128, 64}`. -/
theorem fill_dirty_rect_wider_than_screen :
    status_of (bw_disp_hline sh1106_state 1 0 0 128 BWDC_WHITE) = .ok ESP_OK ∧
    observe (bw_disp_hline sh1106_state 1 0 0 128 BWDC_WHITE) 1
      (fun inst1 => inst1.dirty_rect)
      = .ok (some { x := 0, y := 0, width := 256, height := 64 }) ∧
    status_of (and_then (bw_disp_hline sh1106_state 1 0 0 128 BWDC_WHITE)
      (fun st1 => bw_disp_fill st1 1 BWDC_BLACK)) = .ok ESP_OK ∧
    observe (and_then (bw_disp_hline sh1106_state 1 0 0 128 BWDC_WHITE)
      (fun st1 => bw_disp_fill st1 1 BWDC_BLACK)) 1
      (fun inst2 => (inst2.dirty_rect, inst2.disp_if.width, inst2.disp_if.height,
        inst2.buffer.length, inst2.buffer.all (fun b => b == 0)))
      = .ok (some ({ x := 0, y := 0, width := 256, height := 64 }, 128, 64, 1024, true)) ∧
    and_then (and_then (bw_disp_hline sh1106_state 1 0 0 128 BWDC_WHITE)
      (fun st1 => bw_disp_fill st1 1 BWDC_BLACK)) (fun st2 => bw_disp_get_pixel st2 1 0 0)
      = .ok (ESP_OK, some BWDC_BLACK) :=
  ⟨rfl, rfl, rfl, rfl, rfl⟩

theorem image_clip_pos {iw iwd ix W x : Nat} (h1 : 1 ≤ iw) (h2 : ix < iwd) (h3 : x < W) :
    1 ≤ image_clip iw iwd ix W x := by
  unfold image_clip
  omega

theorem image_sel_ex_byte_at {st : bw_disp_state} {handle : Nat} {inst : bw_disp_t}
    (x y ix iy iw ih : Nat) (inv_img : Bool) (mode : bw_disp_img_draw_mode_t) (img : bw_image_t)
    (hinst : bw_disp_get_instance st handle = some inst)
    (hwf : inst_wf inst) (hiwf : img_wf img)
    (hx : x < inst.disp_if.width) (hy : y < inst.disp_if.height)
    (hix : ix < img.width) (hiy : iy < img.height)
    (hw : 1 ≤ image_clip iw img.width ix inst.disp_if.width x)
    (hh : 1 ≤ image_clip ih img.height iy inst.disp_if.height y) :
    ∃ inst1, bw_disp_image_sel_ex st handle x y ix iy iw ih inv_img mode img
        = .ok (ESP_OK, store_instance st handle inst1) ∧
      same_header inst inst1 ∧ inst1.buffer.length = inst.buffer.length ∧
      ∀ a c, a < inst.disp_if.width → c < inst.disp_if.height →
        inst1.buffer.getD ((c >>> 3) * inst.disp_if.width + a) 0 =
          if x ≤ a ∧ a < x + image_clip iw img.width ix inst.disp_if.width x ∧
              y >>> 3 ≤ c >>> 3 ∧
              c >>> 3 ≤ (y + image_clip ih img.height iy inst.disp_if.height y - 1) >>> 3 then
            image_dest_byte mode inv_img img y ix iy
              (image_clip ih img.height iy inst.disp_if.height y) (c >>> 3) (a - x)
              (inst.buffer.getD ((c >>> 3) * inst.disp_if.width + a) 0)
          else inst.buffer.getD ((c >>> 3) * inst.disp_if.width + a) 0 := by
  obtain ⟨inst1, h1, hh1, hl1, hb1, hf1⟩ := image_sel_ex_bytes x y ix iy iw ih inv_img
    mode img hinst hwf hiwf hx hy hix hiy hw hh
  refine ⟨inst1, h1, hh1, hl1, ?_⟩
  generalize hwd : image_clip iw img.width ix inst.disp_if.width x = w' at *
  generalize hhd : image_clip ih img.height iy inst.disp_if.height y = h' at *
  have hwb : x + w' ≤ inst.disp_if.width := by
    rw [← hwd]; unfold image_clip; omega
  intro a c ha hc
  by_cases hcol : x ≤ a ∧ a < x + w' ∧ y >>> 3 ≤ c >>> 3 ∧ c >>> 3 ≤ (y + h' - 1) >>> 3
  · rw [if_pos hcol]
    obtain ⟨ha1, ha2, hp1, hp2⟩ := hcol
    have := hb1 (c >>> 3) hp1 hp2 (a - x) (by omega)
    rw [show (c >>> 3) * inst.disp_if.width + x + (a - x) = (c >>> 3) * inst.disp_if.width + a
      by omega] at this
    exact this
  · rw [if_neg hcol]
    apply hf1
    intro q hq1 hq2 j hj heq
    apply hcol
    have hpq : c >>> 3 = q := by
      rcases Nat.lt_trichotomy (c >>> 3) q with h | h | h
      · have := mul_add_le_of_lt inst.disp_if.width h; omega
      · exact h
      · have := mul_add_le_of_lt inst.disp_if.width h; omega
    rw [hpq] at heq ⊢
    exact ⟨by omega, by omega, hq1, hq2⟩

theorem clr_of_bit_white (b : Bool) : clr_of_bit b = BWDC_WHITE ↔ b = true := by
  cases b <;> simp [clr_of_bit]

/-- C12: for a valid handle, a well-formed image, `x < width`, `y < height`,
`ix < img.width`, `iy < img.height` and lengths of at least 1,
`bw_disp_image_sel_ex` in mode `BWDM_ADD_WHITE` returns `ESP_OK` for any invert
flag and any offsets, and every display pixel that read `BWDC_WHITE` before
the call reads `BWDC_WHITE` after it. -/
theorem image_add_white_keeps_set_pixels (st : bw_disp_state) (handle : Nat) (inst : bw_disp_t)
    (x y ix iy iw ih : Nat) (inv_img : Bool) (img : bw_image_t)
    (hinst : bw_disp_get_instance st handle = some inst)
    (hwf : inst_wf inst) (hiwf : img_wf img)
    (hx : x < inst.disp_if.width) (hy : y < inst.disp_if.height)
    (hix : ix < img.width) (hiy : iy < img.height)
    (hiw : 1 ≤ iw) (hih : 1 ≤ ih) :
    ∃ st1, bw_disp_image_sel_ex st handle x y ix iy iw ih inv_img BWDM_ADD_WHITE img
        = .ok (ESP_OK, st1) ∧
      ∀ a c, a < inst.disp_if.width → c < inst.disp_if.height →
        bw_disp_get_pixel st handle a c = .ok (ESP_OK, some BWDC_WHITE) →
        bw_disp_get_pixel st1 handle a c = .ok (ESP_OK, some BWDC_WHITE) := by
  obtain ⟨inst1, h1, hh1, hl1, hb⟩ := image_sel_ex_byte_at x y ix iy iw ih inv_img
    BWDM_ADD_WHITE img hinst hwf hiwf hx hy hix hiy (image_clip_pos hiw hix hx)
    (image_clip_pos hih hiy hy)
  have hw1 : inst1.disp_if = inst.disp_if := hh1.2.2.2.1
  have hwf1 : inst_wf inst1 := inst_wf_of_same_header hwf hh1 hl1
  refine ⟨_, h1, ?_⟩
  intro a c ha hc hwhite
  rw [get_pixel_eq hinst hwf ha hc] at hwhite
  rw [get_pixel_eq (get_instance_store hinst inst1) hwf1 (by rw [hw1]; exact ha)
    (by rw [hw1]; exact hc)]
  have hbit : pixel_bit inst a c = true := by
    have : clr_of_bit (pixel_bit inst a c) = BWDC_WHITE := by
      injection hwhite with h2
      injection h2 with _ h3
      injection h3
    exact (clr_of_bit_white _).1 this
  have hbit1 : pixel_bit inst1 a c = true := by
    unfold pixel_bit at hbit ⊢
    rw [hw1, hb a c ha hc]
    split
    · unfold image_dest_byte image_combine
      simp only []
      rw [testBit_u8_cast _ _ (and7_lt c), Nat.testBit_or, hbit, Bool.or_true]
    · exact hbit
  rw [(clr_of_bit_white _).2 hbit1]

set_option maxRecDepth 100000 in
/-- Witness of C12: the inverted tennis ball added in white at (3, 5) of the
freshly initialised display. -/
theorem image_add_white_keeps_set_pixels_witness :
    ∃ st1, bw_disp_image_sel_ex sh1106_state 1 3 5 0 0 32 32 true BWDM_ADD_WHITE img_tennis_ball
        = .ok (ESP_OK, st1) ∧
      ∀ a c, a < sh1106_inst.disp_if.width → c < sh1106_inst.disp_if.height →
        bw_disp_get_pixel sh1106_state 1 a c = .ok (ESP_OK, some BWDC_WHITE) →
        bw_disp_get_pixel st1 1 a c = .ok (ESP_OK, some BWDC_WHITE) :=
  image_add_white_keeps_set_pixels sh1106_state 1 sh1106_inst 3 5 0 0 32 32 true img_tennis_ball
    sh1106_inst_valid sh1106_inst_wf img_tennis_ball_wf (by decide) (by decide) (by decide)
    (by decide) (by decide) (by decide)

theorem rows_mask_upto_testBit (y h p : Nat) :
    ∀ n i, (rows_mask_upto y h p n).testBit i
      = decide (i < n ∧ y ≤ 8 * p + i ∧ 8 * p + i < y + h) := by
  intro n
  induction n with
  | zero =>
    intro i
    simp [rows_mask_upto]
  | succ n ih =>
    intro i
    simp only [rows_mask_upto, Nat.testBit_or, ih]
    by_cases hc : y ≤ 8 * p + n ∧ 8 * p + n < y + h
    · rw [if_pos hc, Nat.one_shiftLeft, Nat.testBit_two_pow]
      by_cases hi : n = i
      · subst hi
        simp [hc]
      · have : ¬ (i < n + 1 ∧ y ≤ 8 * p + i ∧ 8 * p + i < y + h) ↔
            ¬ (i < n ∧ y ≤ 8 * p + i ∧ 8 * p + i < y + h) := by
          constructor
          · intro h1 h2; exact h1 ⟨by omega, h2.2⟩
          · intro h1 h2; exact h1 ⟨by omega, h2.2⟩
        simp only [hi, decide_False, Bool.or_false]
        by_cases h3 : i < n ∧ y ≤ 8 * p + i ∧ 8 * p + i < y + h
        · simp [h3, show i < n + 1 by omega]
        · simp [h3, this.2 h3]
    · rw [if_neg hc]
      simp only [Nat.zero_testBit, Bool.or_false]
      by_cases hi : n = i
      · subst hi
        simp [hc]
      · by_cases h3 : i < n ∧ y ≤ 8 * p + i ∧ 8 * p + i < y + h
        · simp [h3, show i < n + 1 by omega]
        · have : ¬ (i < n + 1 ∧ y ≤ 8 * p + i ∧ 8 * p + i < y + h) :=
            fun h2 => h3 ⟨by omega, h2.2⟩
          simp [h3, this]

theorem page_rows_mask_testBit (y h p b : Nat) (hb : b < 8) :
    (page_rows_mask y h p).testBit b = decide (y ≤ 8 * p + b ∧ 8 * p + b < y + h) := by
  unfold page_rows_mask
  rw [rows_mask_upto_testBit]
  simp [hb]

theorem byte_eq_of_testBit {a b : Nat} (ha : a < 256) (hb : b < 256)
    (h : ∀ i, i < 8 → a.testBit i = b.testBit i) : a = b := by
  apply Nat.eq_of_testBit_eq
  intro i
  by_cases hi : i < 8
  · exact h i hi
  · rw [testBit_byte_high ha (by omega), testBit_byte_high hb (by omega)]

theorem u8_lt (z : Int) : u8 z < 256 := by
  unfold u8
  omega

theorem not8_lt (m : Nat) : not8 m < 256 := by
  unfold not8
  have h : (255 : Nat) < 2 ^ 8 := by norm_num
  have h2 : m % 256 < 2 ^ 8 := by omega
  have := Nat.xor_lt_two_pow h h2
  omega

theorem aligned_copy_byte_lt {src : Nat} (old m : Nat) (hs : src < 256) :
    aligned_copy_byte src old m < 256 := by
  unfold aligned_copy_byte
  have h1 : src &&& m < 2 ^ 8 := by
    have := Nat.and_le_left (n := src) (m := m)
    omega
  have h2 : old &&& not8 m < 2 ^ 8 := by
    have := Nat.and_le_right (n := old) (m := not8 m)
    have := not8_lt m
    omega
  have := Nat.or_lt_two_pow h1 h2
  omega

theorem aligned_pixel_index (img : bw_image_t) (y iy p b ix j : Nat) (hb : b < 8)
    (hal : iy &&& 0x07 = y &&& 0x07) (hp : y >>> 3 ≤ p) (hr : y ≤ 8 * p + b) :
    img_pixel img (ix + j) (iy + (8 * p + b - y))
      = (img.image.getD ((iy >>> 3 + (p - y >>> 3)) * img.width + (ix + j)) 0).testBit b := by
  unfold img_pixel
  rw [and7_eq_mod, and7_eq_mod] at hal
  have e1 : (iy + (8 * p + b - y)) >>> 3 = iy >>> 3 + (p - y >>> 3) := by
    simp only [shift3_eq_div] at hp ⊢
    omega
  have e2 : (iy + (8 * p + b - y)) &&& 0x07 = b := by
    rw [and7_eq_mod]
    simp only [shift3_eq_div] at hp
    omega
  rw [e1, e2]

/-- C14: for a valid handle, a well-formed image, `x < width`, `y < height`,
`ix < img.width`, `iy < img.height`, lengths of at least 1 and
`(iy & 7) = (y & 7)`, the non-inverted OVERRIDE blit returns `ESP_OK` and is the
direct per-page copy of the specification: with `w'` and `h'` the clipped
width and height, for every destination page `p` from `y >> 3` to
`(y + h' - 1) >> 3` and every column `x + i`, `i < w'`, the byte afterwards is
`aligned_copy_byte srcByte oldDestByte m = (srcByte & m) | (oldDestByte & ~m)`,
where `srcByte` is the unshifted image byte at image page
`(iy >> 3) + (p - (y >> 3))`, column `ix + i`, and `m = page_rows_mask y h' p`
is the mask of the rows of page `p` inside `[y, y + h')`; in a page fully
covered by the blit the byte is the source byte. -/
theorem image_aligned_is_page_copy (st : bw_disp_state) (handle : Nat) (inst : bw_disp_t)
    (x y ix iy iw ih : Nat) (img : bw_image_t)
    (hinst : bw_disp_get_instance st handle = some inst)
    (hwf : inst_wf inst) (hiwf : img_wf img)
    (hx : x < inst.disp_if.width) (hy : y < inst.disp_if.height)
    (hix : ix < img.width) (hiy : iy < img.height)
    (hiw : 1 ≤ iw) (hih : 1 ≤ ih) (hal : iy &&& 0x07 = y &&& 0x07) :
    ∃ inst1, bw_disp_image_sel_ex st handle x y ix iy iw ih false BWDM_OVERRIDE img
        = .ok (ESP_OK, store_instance st handle inst1) ∧
      ∀ p i, y >>> 3 ≤ p →
        p ≤ (y + image_clip ih img.height iy inst.disp_if.height y - 1) >>> 3 →
        i < image_clip iw img.width ix inst.disp_if.width x →
        inst1.buffer.getD (p * inst.disp_if.width + x + i) 0
          = aligned_copy_byte
              (img.image.getD ((iy >>> 3 + (p - y >>> 3)) * img.width + (ix + i)) 0)
              (inst.buffer.getD (p * inst.disp_if.width + x + i) 0)
              (page_rows_mask y (image_clip ih img.height iy inst.disp_if.height y) p) ∧
        (y ≤ 8 * p ∧ 8 * p + 8 ≤ y + image_clip ih img.height iy inst.disp_if.height y →
          inst1.buffer.getD (p * inst.disp_if.width + x + i) 0
            = img.image.getD ((iy >>> 3 + (p - y >>> 3)) * img.width + (ix + i)) 0) := by
  have hh := image_clip_pos (W := inst.disp_if.height) hih hiy hy
  obtain ⟨inst1, h1, _, _, hb1, _⟩ := image_sel_ex_bytes x y ix iy iw ih false
    BWDM_OVERRIDE img hinst hwf hiwf hx hy hix hiy (image_clip_pos hiw hix hx) hh
  refine ⟨inst1, h1, ?_⟩
  generalize image_clip ih img.height iy inst.disp_if.height y = h' at *
  intro p i hp1 hp2 hi
  have hsrc := img_byte_lt hiwf ((iy >>> 3 + (p - y >>> 3)) * img.width + (ix + i))
  have hbits : ∀ b, b < 8 →
      (inst1.buffer.getD (p * inst.disp_if.width + x + i) 0).testBit b
        = if y ≤ 8 * p + b ∧ 8 * p + b < y + h' then
            (img.image.getD ((iy >>> 3 + (p - y >>> 3)) * img.width + (ix + i)) 0).testBit b
          else (inst.buffer.getD (p * inst.disp_if.width + x + i) 0).testBit b := by
    intro b hb
    rw [hb1 p hp1 hp2 i hi, image_dest_byte_override_testBit img hiwf y ix iy h' p i _ b hh hb
      hp1 hp2]
    by_cases hr : y ≤ 8 * p + b ∧ 8 * p + b < y + h'
    · rw [if_pos hr, if_pos hr, aligned_pixel_index img y iy p b ix i hb hal hp1 hr.1]
    · rw [if_neg hr, if_neg hr]
  have hlt1 : inst1.buffer.getD (p * inst.disp_if.width + x + i) 0 < 256 := by
    rw [hb1 p hp1 hp2 i hi]
    unfold image_dest_byte image_combine
    exact u8_lt _
  constructor
  · apply byte_eq_of_testBit hlt1 (aligned_copy_byte_lt _ _ hsrc)
    intro b hb
    rw [hbits b hb]
    unfold aligned_copy_byte
    rw [Nat.testBit_or, Nat.testBit_and, Nat.testBit_and, testBit_not8 _ _ hb,
      page_rows_mask_testBit _ _ _ _ hb]
    by_cases hr : y ≤ 8 * p + b ∧ 8 * p + b < y + h'
    · rw [if_pos hr]
      simp [hr]
    · rw [if_neg hr]
      simp [hr]
  · intro hfull
    apply byte_eq_of_testBit hlt1 hsrc
    intro b hb
    rw [hbits b hb, if_pos ⟨by omega, by omega⟩]

set_option maxRecDepth 100000 in
/-- Witness of C14: the tennis ball drawn from image row 8 at display row 16,
as in `app_main`. -/
theorem image_aligned_is_page_copy_witness :
    ∃ inst1, bw_disp_image_sel_ex sh1106_state 1 0 16 0 8 32 32 false BWDM_OVERRIDE
        img_tennis_ball = .ok (ESP_OK, store_instance sh1106_state 1 inst1) ∧
      ∀ p i, 16 >>> 3 ≤ p →
        p ≤ (16 + image_clip 32 img_tennis_ball.height 8 sh1106_inst.disp_if.height 16 - 1)
          >>> 3 →
        i < image_clip 32 img_tennis_ball.width 0 sh1106_inst.disp_if.width 0 →
        inst1.buffer.getD (p * sh1106_inst.disp_if.width + 0 + i) 0
          = aligned_copy_byte
              (img_tennis_ball.image.getD
                ((8 >>> 3 + (p - 16 >>> 3)) * img_tennis_ball.width + (0 + i)) 0)
              (sh1106_inst.buffer.getD (p * sh1106_inst.disp_if.width + 0 + i) 0)
              (page_rows_mask 16
                (image_clip 32 img_tennis_ball.height 8 sh1106_inst.disp_if.height 16) p) ∧
        (16 ≤ 8 * p ∧ 8 * p + 8
            ≤ 16 + image_clip 32 img_tennis_ball.height 8 sh1106_inst.disp_if.height 16 →
          inst1.buffer.getD (p * sh1106_inst.disp_if.width + 0 + i) 0
            = img_tennis_ball.image.getD
                ((8 >>> 3 + (p - 16 >>> 3)) * img_tennis_ball.width + (0 + i)) 0) :=
  image_aligned_is_page_copy sh1106_state 1 sh1106_inst 0 16 0 8 32 32 img_tennis_ball
    sh1106_inst_valid sh1106_inst_wf img_tennis_ball_wf (by decide) (by decide) (by decide)
    (by decide) (by decide) (by decide) (by decide)

theorem vline_full {st : bw_disp_state} {handle : Nat} {inst : bw_disp_t}
    (x y h : Nat) (c : bw_disp_clr_t)
    (hinst : bw_disp_get_instance st handle = some inst) (hwf : inst_wf inst)
    (hx : x < inst.disp_if.width) (hy : y < inst.disp_if.height) (hh : 1 ≤ h)
    (hyh : y + h ≤ inst.disp_if.height) :
    ∃ inst1, bw_disp_vline st handle x y h c = .ok (ESP_OK, store_instance st handle inst1) ∧
      same_header inst inst1 ∧ inst1.buffer.length = inst.buffer.length ∧
      (inst.dirty_rect.x + inst.dirty_rect.width ≤ 65535 →
        inst.dirty_rect.y + inst.dirty_rect.height ≤ 65535 →
        inst1.dirty_rect
          = dirty_mark inst.dirty_rect { x := x, y := y, width := 1, height := h }) ∧
      ∀ i j, i < inst.disp_if.width → j < inst.disp_if.height →
        pixel_bit inst1 i j =
          if i = x ∧ y ≤ j ∧ j < y + h then decide (c = BWDC_WHITE) else pixel_bit inst i j := by
  have hwf' := hwf
  obtain ⟨_, _, hW, hH, hpages, hlen⟩ := hwf'
  have hye : u16 ((y : Int) + h - 1) = y + h - 1 := by unfold u16; omega
  have hlast : (y + h - 1) >>> 3 < inst.page_num := by rw [shift3_eq_div]; omega
  obtain ⟨inst1, h1, hh1, hd1, hl1, hb1, hf1⟩ := vline_loop_spec x ((y + h - 1) >>> 3)
    (1 <<< ((y + h - 1) &&& 0x07)) c ((y + h - 1) >>> 3 + 1 - y >>> 3) (y >>> 3)
    (mask_or_loop (if y >>> 3 < (y + h - 1) >>> 3 then 1 <<< 7
                else 1 <<< ((y + h - 1) &&& 0x07)) 8 (1 <<< (y &&& 0x07)) 0)
    inst rfl hlast hx hlen
  obtain ⟨inst2, h2, hh2, hb2, hd2⟩ := set_dirty_rect_marks inst1 x y 1 h (by decide) hh
  have hhd := same_header_trans hh1 hh2
  have hw2 : inst2.disp_if = inst.disp_if := hhd.2.2.2.1
  refine ⟨inst2, ?_, hhd, by rw [hb2, hl1], ?_, ?_⟩
  · unfold bw_disp_vline
    rw [hinst]
    simp only [ge_iff_le, Nat.not_le.mpr hx, Nat.not_le.mpr hy, gt_iff_lt, Nat.not_lt.mpr hyh,
      or_self, if_false, hye]
    simp only [bind, Except.bind, h1, h2, pure, Except.pure]
  · intro hdx hdy
    rw [hd1] at hd2
    exact hd2 (by omega) (by omega) hdx hdy
  · have hbits : ∀ p i b, p < inst.page_num → i < inst.disp_if.width → b < 8 →
        (inst2.buffer.getD (p * inst.disp_if.width + i) 0).testBit b =
          if i = x ∧ y ≤ 8 * p + b ∧ 8 * p + b < y + h then decide (c = BWDC_WHITE)
          else (inst.buffer.getD (p * inst.disp_if.width + i) 0).testBit b := by
      intro p i b hp hi hb
      rw [hb2]
      by_cases hin : i = x ∧ y >>> 3 ≤ p ∧ p ≤ (y + h - 1) >>> 3
      · obtain ⟨rfl, hp1, hp2⟩ := hin
        rw [hb1 p hp1 hp2, testBit_vline_byte _ _ _ _ hb, vline_mask_testBit y h p b hh hb hp1 hp2]
        simp only [decide_eq_true_eq, true_and]
      · rw [hf1, if_neg]
        · rintro ⟨a1, a2, a3⟩
          apply hin
          rw [shift3_eq_div, shift3_eq_div]
          exact ⟨a1, by omega, by omega⟩
        · intro q hq1 hq2 heq
          apply hin
          have hpq : p = q := by
            rcases Nat.lt_trichotomy p q with h | h | h
            · have := mul_add_le_of_lt inst.disp_if.width h; omega
            · exact h
            · have := mul_add_le_of_lt inst.disp_if.width h; omega
          subst hpq
          exact ⟨by omega, hq1, hq2⟩
    intro i j hi hj
    unfold pixel_bit
    have hpj := page_index_lt hwf hi hj
    rw [hw2, hbits _ _ _ hpj.1 hi (and7_lt j)]
    have hj8 : 8 * (j >>> 3) + (j &&& 7) = j := by
      rw [shift3_eq_div, and7_eq_mod]; omega
    rw [hj8]

theorem hline_full {st : bw_disp_state} {handle : Nat} {inst : bw_disp_t}
    (x y w : Nat) (c : bw_disp_clr_t)
    (hinst : bw_disp_get_instance st handle = some inst) (hwf : inst_wf inst)
    (hx : x < inst.disp_if.width) (hy : y < inst.disp_if.height) (hw : 1 ≤ w)
    (hxw : x + w ≤ inst.disp_if.width) :
    ∃ inst1, bw_disp_hline st handle x y w c = .ok (ESP_OK, store_instance st handle inst1) ∧
      same_header inst inst1 ∧ inst1.buffer.length = inst.buffer.length ∧
      ∀ i j, i < inst.disp_if.width → j < inst.disp_if.height →
        pixel_bit inst1 i j =
          if j = y ∧ x ≤ i ∧ i < x + w then decide (c = BWDC_WHITE) else pixel_bit inst i j := by
  have hp := page_index_lt hwf hx hy
  have hwf' := hwf
  obtain ⟨_, _, hW, _, _, hlen⟩ := hwf'
  have hrow : (y >>> 3) * inst.disp_if.width + inst.disp_if.width ≤ inst.buffer.length := by
    rw [hlen]; exact mul_add_le_of_lt _ hp.1
  obtain ⟨inst1, h1, hh1, hd1, hl1, hb1⟩ := hline_loop_spec (y >>> 3)
    (if c = BWDC_BLACK then (fun b => b &&& not8 (1 <<< (y &&& 0x07)))
      else (fun b => (b ||| 1 <<< (y &&& 0x07)) % 256)) w x inst hp.1 (by omega) (by omega)
  obtain ⟨inst2, h2, hh2, hb2⟩ := set_dirty_rect_ok inst1 (x + w) y w 1 hw (by decide)
  have hh := same_header_trans hh1 hh2
  have hw2 : inst2.disp_if = inst.disp_if := hh.2.2.2.1
  have hl2 : inst2.buffer.length = inst.buffer.length := by rw [hb2, hl1]
  have hbits : ∀ k b, b < 8 → (inst2.buffer.getD k 0).testBit b =
        if (y >>> 3) * inst.disp_if.width + x ≤ k ∧
            k < (y >>> 3) * inst.disp_if.width + x + w ∧ b = y &&& 0x07
        then decide (c = BWDC_WHITE) else (inst.buffer.getD k 0).testBit b := by
    intro k b hb
    rw [hb2, hb1 k]
    by_cases hk : (y >>> 3) * inst.disp_if.width + x ≤ k ∧
        k < (y >>> 3) * inst.disp_if.width + x + w
    · rw [if_pos hk]
      cases c
      · simp only [if_true, testBit_clear_bit _ _ _ hb]
        by_cases hby : b = y &&& 7
        · subst hby; simp [hk]
        · rw [if_neg (by tauto)]
          simp [Ne.symm hby]
      · simp only [reduceCtorEq, if_false, testBit_set_bit _ _ _ hb]
        by_cases hby : b = y &&& 7
        · subst hby; simp [hk]
        · rw [if_neg (by tauto)]
          simp [Ne.symm hby]
    · rw [if_neg hk, if_neg (by tauto)]
  refine ⟨inst2, ?_, hh, hl2, ?_⟩
  · unfold bw_disp_hline
    rw [hinst]
    simp only [ge_iff_le, Nat.not_le.mpr hx, Nat.not_le.mpr hy, gt_iff_lt, Nat.not_lt.mpr hxw,
      or_self, if_false]
    have : (if c = BWDC_BLACK then
          hline_loop (y >>> 3) (fun b => b &&& not8 (1 <<< (y &&& 0x07))) w x inst
        else hline_loop (y >>> 3) (fun b => (b ||| 1 <<< (y &&& 0x07)) % 256) w x inst)
        = .ok (x + w, inst1) := by
      rw [← h1]; split <;> rfl
    simp only [bind, Except.bind, this, h2, pure, Except.pure]
  · intro i j hi hj
    unfold pixel_bit
    rw [hw2, hbits _ _ (and7_lt j)]
    have hpj := page_index_lt hwf hi hj
    by_cases hj2 : j = y ∧ x ≤ i ∧ i < x + w
    · obtain ⟨rfl, hi1, hi2⟩ := hj2
      rw [if_pos ⟨by omega, by omega, rfl⟩, if_pos ⟨rfl, hi1, hi2⟩]
    · rw [if_neg hj2, if_neg]
      rintro ⟨a1, a2, a3⟩
      apply hj2
      have hpage : j >>> 3 = y >>> 3 := by
        rcases Nat.lt_trichotomy (j >>> 3) (y >>> 3) with h | h | h
        · have := mul_add_le_of_lt inst.disp_if.width h; omega
        · exact h
        · have := mul_add_le_of_lt inst.disp_if.width h; omega
      have := shift_and_inj hpage a3
      rw [hpage] at a1 a2
      exact ⟨this, by omega, by omega⟩

theorem store_store (st : bw_disp_state) (handle : Nat) (a b : bw_disp_t) :
    store_instance (store_instance st handle a) handle b = store_instance st handle b := by
  unfold store_instance
  simp only [List.set_set]

theorem clr_of_decide (c : bw_disp_clr_t) : clr_of_bit (decide (c = BWDC_WHITE)) = c := by
  cases c <;> rfl

/-- C25: on a valid handle, with `w >= 1`, `h >= 1`, `x + w <= width` and
`y + h <= height`, `bw_disp_rect` returns `ESP_OK`; afterwards a pixel
`(i, j)` on the outline of the rectangle (`i` in `{x, x+w-1}` and
`y <= j < y+h`, or `j` in `{y, y+h-1}` and `x <= i < x+w`) reads `c`, and every
other pixel, the interior of the rectangle included, reads as before. -/
theorem rect_draws_outline (st : bw_disp_state) (handle : Nat) (inst : bw_disp_t)
    (x y w h : Nat) (c : bw_disp_clr_t)
    (hinst : bw_disp_get_instance st handle = some inst) (hwf : inst_wf inst)
    (hw : 1 ≤ w) (hh : 1 ≤ h)
    (hxw : x + w ≤ inst.disp_if.width) (hyh : y + h ≤ inst.disp_if.height) :
    ∃ st1, bw_disp_rect st handle x y w h c = .ok (ESP_OK, st1) ∧
      ∀ i j, i < inst.disp_if.width → j < inst.disp_if.height →
        bw_disp_get_pixel st1 handle i j =
          if ((i = x ∨ i = x + w - 1) ∧ y ≤ j ∧ j < y + h) ∨
              ((j = y ∨ j = y + h - 1) ∧ x ≤ i ∧ i < x + w)
          then .ok (ESP_OK, some c)
          else bw_disp_get_pixel st handle i j := by
  have hwf' := hwf
  obtain ⟨_, _, hW, hH, _, _⟩ := hwf'
  have hye : u16 ((y : Int) + h - 1) = y + h - 1 := by unfold u16; omega
  have hxe : u16 ((x : Int) + w - 1) = x + w - 1 := by unfold u16; omega
  obtain ⟨inst1, h1, hh1, hl1, hp1⟩ := hline_full x y w c hinst hwf (by omega) (by omega) hw hxw
  have hd1 : inst1.disp_if = inst.disp_if := hh1.2.2.2.1
  have hwf1 : inst_wf inst1 := inst_wf_of_same_header hwf hh1 hl1
  have hg1 := get_instance_store hinst inst1
  obtain ⟨inst2, h2, hh2, hl2, _, hp2⟩ := vline_full x y h c hg1 hwf1
    (by rw [hd1]; omega) (by rw [hd1]; omega) hh (by rw [hd1]; exact hyh)
  rw [store_store] at h2
  have hd2 : inst2.disp_if = inst.disp_if := by rw [hh2.2.2.2.1, hd1]
  have hwf2 : inst_wf inst2 := inst_wf_of_same_header hwf1 hh2 hl2
  have hg2 := get_instance_store hinst inst2
  obtain ⟨inst3, h3, hh3, hl3, hp3⟩ := hline_full x (y + h - 1) w c hg2 hwf2
    (by rw [hd2]; omega) (by rw [hd2]; omega) hw (by rw [hd2]; exact hxw)
  rw [store_store] at h3
  have hd3 : inst3.disp_if = inst.disp_if := by rw [hh3.2.2.2.1, hd2]
  have hwf3 : inst_wf inst3 := inst_wf_of_same_header hwf2 hh3 hl3
  have hg3 := get_instance_store hinst inst3
  obtain ⟨inst4, h4, hh4, hl4, _, hp4⟩ := vline_full (x + w - 1) y h c hg3 hwf3
    (by rw [hd3]; omega) (by rw [hd3]; omega) hh (by rw [hd3]; exact hyh)
  rw [store_store] at h4
  have hd4 : inst4.disp_if = inst.disp_if := by rw [hh4.2.2.2.1, hd3]
  have hwf4 : inst_wf inst4 := inst_wf_of_same_header hwf3 hh4 hl4
  have hg4 := get_instance_store hinst inst4
  refine ⟨store_instance st handle inst4, ?_, ?_⟩
  · unfold bw_disp_rect
    simp only [bind, Except.bind, pure, Except.pure, h1, hye, hxe, ne_eq, not_true_eq_false,
      if_false, h2, h3, h4]
  · intro i j hi hj
    rw [get_pixel_eq hg4 hwf4 (by rw [hd4]; exact hi) (by rw [hd4]; exact hj),
      get_pixel_eq hinst hwf hi hj,
      hp4 i j (by rw [hd3]; exact hi) (by rw [hd3]; exact hj),
      hp3 i j (by rw [hd2]; exact hi) (by rw [hd2]; exact hj),
      hp2 i j (by rw [hd1]; exact hi) (by rw [hd1]; exact hj), hp1 i j hi hj]
    by_cases c4 : i = x + w - 1 ∧ y ≤ j ∧ j < y + h
    · rw [if_pos c4, if_pos (Or.inl ⟨Or.inr c4.1, c4.2⟩), clr_of_decide]
    · rw [if_neg c4]
      by_cases c3 : j = y + h - 1 ∧ x ≤ i ∧ i < x + w
      · rw [if_pos c3, if_pos (Or.inr ⟨Or.inr c3.1, c3.2⟩), clr_of_decide]
      · rw [if_neg c3]
        by_cases c2 : i = x ∧ y ≤ j ∧ j < y + h
        · rw [if_pos c2, if_pos (Or.inl ⟨Or.inl c2.1, c2.2⟩), clr_of_decide]
        · rw [if_neg c2]
          by_cases c1 : j = y ∧ x ≤ i ∧ i < x + w
          · rw [if_pos c1, if_pos (Or.inr ⟨Or.inl c1.1, c1.2⟩), clr_of_decide]
          · rw [if_neg c1, if_neg]
            rintro (⟨a1 | a1, a2⟩ | ⟨a1 | a1, a2⟩)
            · exact c2 ⟨a1, a2⟩
            · exact c4 ⟨a1, a2⟩
            · exact c1 ⟨a1, a2⟩
            · exact c3 ⟨a1, a2⟩

/-- Witness of C25: the white rectangle `x = 3, y = 5, w = 10, h = 20` on the
freshly initialised 128x64 display. -/
theorem rect_draws_outline_witness :
    ∃ st1, bw_disp_rect sh1106_state 1 3 5 10 20 BWDC_WHITE = .ok (ESP_OK, st1) ∧
      ∀ i j, i < sh1106_inst.disp_if.width → j < sh1106_inst.disp_if.height →
        bw_disp_get_pixel st1 1 i j =
          if ((i = 3 ∨ i = 3 + 10 - 1) ∧ 5 ≤ j ∧ j < 5 + 20) ∨
              ((j = 5 ∨ j = 5 + 20 - 1) ∧ 3 ≤ i ∧ i < 3 + 10)
          then .ok (ESP_OK, some BWDC_WHITE)
          else bw_disp_get_pixel sh1106_state 1 i j :=
  rect_draws_outline sh1106_state 1 sh1106_inst 3 5 10 20 BWDC_WHITE sh1106_inst_valid
    sh1106_inst_wf (by decide) (by decide) (by decide) (by decide)

theorem dirty_mark_bound (d s : bwd_rect_t) (hdx : d.x + d.width ≤ 65535)
    (hdy : d.y + d.height ≤ 65535) (hsx : s.x + s.width ≤ 65535) (hsy : s.y + s.height ≤ 65535) :
    (dirty_mark d s).x + (dirty_mark d s).width ≤ 65535 ∧
    (dirty_mark d s).y + (dirty_mark d s).height ≤ 65535 := by
  unfold dirty_mark
  split
  · simp only []
    omega
  · exact ⟨hsx, hsy⟩

theorem dirty_mark_columns (d : bwd_rect_t) (x y n h : Nat) (hn : 1 ≤ n) (hh : 1 ≤ h) :
    dirty_mark (dirty_mark d { x := x, y := y, width := 1, height := h })
        { x := x + 1, y := y, width := n, height := h }
      = dirty_mark d { x := x, y := y, width := n + 1, height := h } := by
  unfold dirty_mark
  by_cases hd : d.width > 0 ∧ d.height > 0
  · simp only [hd, and_self, if_true]
    rw [if_pos (by constructor <;> omega)]
    simp only [bwd_rect_t.mk.injEq]
    refine ⟨?_, ?_, ?_, ?_⟩ <;> omega
  · simp only [hd, if_false]
    rw [if_pos (by constructor <;> omega)]
    simp only [bwd_rect_t.mk.injEq]
    refine ⟨?_, ?_, ?_, ?_⟩ <;> omega

theorem fill_rect_loop_full (handle y h : Nat) (c : bw_disp_clr_t) (hh : 1 ≤ h) :
    ∀ (m x : Nat) (st : bw_disp_state) (inst : bw_disp_t),
      bw_disp_get_instance st handle = some inst → inst_wf inst →
      x + (m + 1) ≤ inst.disp_if.width → y + h ≤ inst.disp_if.height →
      inst.dirty_rect.x + inst.dirty_rect.width ≤ 65535 →
      inst.dirty_rect.y + inst.dirty_rect.height ≤ 65535 →
      ∃ inst1, fill_rect_loop handle y h c (m + 1) x st
          = .ok (ESP_OK, store_instance st handle inst1) ∧
        same_header inst inst1 ∧ inst1.buffer.length = inst.buffer.length ∧
        inst1.dirty_rect
          = dirty_mark inst.dirty_rect { x := x, y := y, width := m + 1, height := h } ∧
        ∀ i j, i < inst.disp_if.width → j < inst.disp_if.height →
          pixel_bit inst1 i j =
            if x ≤ i ∧ i < x + (m + 1) ∧ y ≤ j ∧ j < y + h then decide (c = BWDC_WHITE)
            else pixel_bit inst i j := by
  intro m
  induction m with
  | zero =>
    intro x st inst hinst hwf hxw hyh hdx hdy
    obtain ⟨inst1, h1, hh1, hl1, hd1, hp1⟩ := vline_full x y h c hinst hwf (by omega) (by omega)
      hh hyh
    refine ⟨inst1, ?_, hh1, hl1, hd1 hdx hdy, ?_⟩
    · simp only [fill_rect_loop, bind, Except.bind, pure, Except.pure, h1, ne_eq,
        not_true_eq_false, if_false]
    · intro i j hi hj
      rw [hp1 i j hi hj]
      by_cases hc : i = x ∧ y ≤ j ∧ j < y + h
      · rw [if_pos hc, if_pos ⟨by omega, by omega, hc.2⟩]
      · rw [if_neg hc, if_neg (fun a => hc ⟨by omega, a.2.2⟩)]
  | succ m ih =>
    intro x st inst hinst hwf hxw hyh hdx hdy
    have hwf' := hwf
    obtain ⟨_, _, hW, hH, _, _⟩ := hwf'
    obtain ⟨inst1, h1, hh1, hl1, hd1, hp1⟩ := vline_full x y h c hinst hwf (by omega) (by omega)
      hh hyh
    have hw1 : inst1.disp_if = inst.disp_if := hh1.2.2.2.1
    have hwf1 : inst_wf inst1 := inst_wf_of_same_header hwf hh1 hl1
    have hg1 := get_instance_store hinst inst1
    have hb := dirty_mark_bound inst.dirty_rect { x := x, y := y, width := 1, height := h }
      hdx hdy (by simp only []; omega) (by simp only []; omega)
    rw [← hd1 hdx hdy] at hb
    obtain ⟨inst2, h2, hh2, hl2, hd2, hp2⟩ := ih (x + 1) (store_instance st handle inst1) inst1
      hg1 hwf1 (by rw [hw1]; omega) (by rw [hw1]; exact hyh) hb.1 hb.2
    rw [store_store] at h2
    have hxe : u16 ((x : Int) + 1) = x + 1 := by unfold u16; omega
    refine ⟨inst2, ?_, same_header_trans hh1 hh2, by rw [hl2, hl1], ?_, ?_⟩
    · rw [fill_rect_loop]
      simp only [bind, Except.bind, pure, Except.pure, h1, ne_eq, not_true_eq_false, if_false,
        hxe, h2]
    · rw [hd2, hd1 hdx hdy]
      exact dirty_mark_columns _ _ _ _ _ (by omega) hh
    · intro i j hi hj
      rw [hp2 i j (by rw [hw1]; exact hi) (by rw [hw1]; exact hj), hp1 i j hi hj]
      by_cases c2 : x + 1 ≤ i ∧ i < x + 1 + (m + 1) ∧ y ≤ j ∧ j < y + h
      · rw [if_pos c2, if_pos ⟨by omega, by omega, c2.2.2⟩]
      · rw [if_neg c2]
        by_cases c1 : i = x ∧ y ≤ j ∧ j < y + h
        · rw [if_pos c1, if_pos ⟨by omega, by omega, c1.2⟩]
        · rw [if_neg c1, if_neg]
          rintro ⟨a1, a2, a3⟩
          by_cases hix : i = x
          · exact c1 ⟨hix, a3⟩
          · exact c2 ⟨by omega, by omega, a3⟩

/-- C26: on a valid handle, with `w >= 1`, `h >= 1`, `x + w <= width`,
`y + h <= height` (and a previous dirty rectangle whose corners fit
`uint16_t`), `bw_disp_fill_rect` returns `ESP_OK`; afterwards the pixels of
`[x, x+w) x [y, y+h)` read `c`, every other pixel reads as before, and the
dirty rectangle is `dirty_mark` of the previous one and `(x, y, w, h)`: the
region itself on a clean display, else the bounding box of the previous dirty
rectangle and the region. -/
theorem fill_rect_fills_region (st : bw_disp_state) (handle : Nat) (inst : bw_disp_t)
    (x y w h : Nat) (c : bw_disp_clr_t)
    (hinst : bw_disp_get_instance st handle = some inst) (hwf : inst_wf inst)
    (hw : 1 ≤ w) (hh : 1 ≤ h)
    (hxw : x + w ≤ inst.disp_if.width) (hyh : y + h ≤ inst.disp_if.height)
    (hdx : inst.dirty_rect.x + inst.dirty_rect.width ≤ 65535)
    (hdy : inst.dirty_rect.y + inst.dirty_rect.height ≤ 65535) :
    ∃ st1 inst1, bw_disp_fill_rect st handle x y w h c = .ok (ESP_OK, st1) ∧
      bw_disp_get_instance st1 handle = some inst1 ∧
      (∀ i j, i < inst.disp_if.width → j < inst.disp_if.height →
        bw_disp_get_pixel st1 handle i j =
          if x ≤ i ∧ i < x + w ∧ y ≤ j ∧ j < y + h then .ok (ESP_OK, some c)
          else bw_disp_get_pixel st handle i j) ∧
      inst1.dirty_rect
        = dirty_mark inst.dirty_rect { x := x, y := y, width := w, height := h } ∧
      (bw_disp_is_dirty inst = false →
        inst1.dirty_rect = { x := x, y := y, width := w, height := h }) ∧
      (bw_disp_is_dirty inst = true →
        inst1.dirty_rect.x = min x inst.dirty_rect.x ∧
        inst1.dirty_rect.y = min y inst.dirty_rect.y ∧
        inst1.dirty_rect.x + inst1.dirty_rect.width
          = max (x + w) (inst.dirty_rect.x + inst.dirty_rect.width) ∧
        inst1.dirty_rect.y + inst1.dirty_rect.height
          = max (y + h) (inst.dirty_rect.y + inst.dirty_rect.height)) := by
  obtain ⟨m, rfl⟩ : ∃ m, w = m + 1 := ⟨w - 1, by omega⟩
  obtain ⟨inst1, h1, hh1, hl1, hd1, hp1⟩ := fill_rect_loop_full handle y h c hh m x st inst
    hinst hwf hxw hyh hdx hdy
  have hw1 : inst1.disp_if = inst.disp_if := hh1.2.2.2.1
  have hwf1 : inst_wf inst1 := inst_wf_of_same_header hwf hh1 hl1
  have hg1 := get_instance_store hinst inst1
  refine ⟨_, inst1, h1, hg1, ?_, hd1, ?_, ?_⟩
  · intro i j hi hj
    rw [get_pixel_eq hg1 hwf1 (by rw [hw1]; exact hi) (by rw [hw1]; exact hj),
      get_pixel_eq hinst hwf hi hj, hp1 i j hi hj]
    by_cases hc : x ≤ i ∧ i < x + (m + 1) ∧ y ≤ j ∧ j < y + h
    · rw [if_pos hc, if_pos hc, clr_of_decide]
    · rw [if_neg hc, if_neg hc]
  · intro hc
    unfold bw_disp_is_dirty at hc
    simp only [Bool.and_eq_false_iff, decide_eq_false_iff_not] at hc
    rw [hd1]
    unfold dirty_mark
    rw [if_neg (by tauto)]
  · intro hc
    unfold bw_disp_is_dirty at hc
    simp only [Bool.and_eq_true, decide_eq_true_eq] at hc
    rw [hd1]
    unfold dirty_mark
    rw [if_pos hc]
    simp only []
    refine ⟨trivial, trivial, ?_, ?_⟩ <;> omega

/-- Witness of C26: the black 32x32 square at (0, 16) on the freshly
initialised 128x64 display. -/
theorem fill_rect_fills_region_witness :
    ∃ st1 inst1, bw_disp_fill_rect sh1106_state 1 0 16 32 32 BWDC_BLACK = .ok (ESP_OK, st1) ∧
      bw_disp_get_instance st1 1 = some inst1 ∧
      (∀ i j, i < sh1106_inst.disp_if.width → j < sh1106_inst.disp_if.height →
        bw_disp_get_pixel st1 1 i j =
          if 0 ≤ i ∧ i < 0 + 32 ∧ 16 ≤ j ∧ j < 16 + 32 then .ok (ESP_OK, some BWDC_BLACK)
          else bw_disp_get_pixel sh1106_state 1 i j) ∧
      inst1.dirty_rect
        = dirty_mark sh1106_inst.dirty_rect { x := 0, y := 16, width := 32, height := 32 } ∧
      (bw_disp_is_dirty sh1106_inst = false →
        inst1.dirty_rect = { x := 0, y := 16, width := 32, height := 32 }) ∧
      (bw_disp_is_dirty sh1106_inst = true →
        inst1.dirty_rect.x = min 0 sh1106_inst.dirty_rect.x ∧
        inst1.dirty_rect.y = min 16 sh1106_inst.dirty_rect.y ∧
        inst1.dirty_rect.x + inst1.dirty_rect.width
          = max (0 + 32) (sh1106_inst.dirty_rect.x + sh1106_inst.dirty_rect.width) ∧
        inst1.dirty_rect.y + inst1.dirty_rect.height
          = max (16 + 32) (sh1106_inst.dirty_rect.y + sh1106_inst.dirty_rect.height)) :=
  fill_rect_fills_region sh1106_state 1 sh1106_inst 0 16 32 32 BWDC_BLACK sh1106_inst_valid
    sh1106_inst_wf (by decide) (by decide) (by decide) (by decide) (by decide) (by decide)

/-- What `bw_disp_fill` does on a valid handle whose buffer has `buffer_size`
bytes: it returns `ESP_OK`, every byte becomes 0x00 (black) or 0xFF (white),
and the dirty rectangle becomes `dirty_mark` of the previous one and the full
screen, which is the full screen when the display was clean or its dirty
rectangle lay inside the screen. -/
theorem fill_result (st : bw_disp_state) (handle : Nat) (inst : bw_disp_t) (c : bw_disp_clr_t)
    (hinst : bw_disp_get_instance st handle = some inst) (hwf : inst_wf inst)
    (hbs : inst.buffer_size = inst.buffer.length)
    (hdx : inst.dirty_rect.x + inst.dirty_rect.width ≤ 65535)
    (hdy : inst.dirty_rect.y + inst.dirty_rect.height ≤ 65535) :
    ∃ inst1, bw_disp_fill st handle c = .ok (ESP_OK, store_instance st handle inst1) ∧
      inst1.buffer = List.replicate inst.buffer.length (if c = BWDC_BLACK then 0x00 else 0xFF) ∧
      inst1.dirty_rect = dirty_mark inst.dirty_rect
        { x := 0, y := 0, width := inst.disp_if.width, height := inst.disp_if.height } ∧
      (bw_disp_is_dirty inst = false ∨
          (inst.dirty_rect.x + inst.dirty_rect.width ≤ inst.disp_if.width ∧
            inst.dirty_rect.y + inst.dirty_rect.height ≤ inst.disp_if.height) →
        inst1.dirty_rect
          = { x := 0, y := 0, width := inst.disp_if.width, height := inst.disp_if.height }) := by
  obtain ⟨hW0, hH0, hW, hH, _, _⟩ := hwf
  obtain ⟨inst2, h2, _, hb2, hd2⟩ := set_dirty_rect_marks
    { inst with
      buffer := List.replicate inst.buffer_size (if c = BWDC_BLACK then 0x00 else 0xFF)
        ++ inst.buffer.drop inst.buffer_size }
    0 0 inst.disp_if.width inst.disp_if.height hW0 hH0
  have hd := hd2 (by omega) (by omega) hdx hdy
  refine ⟨inst2, ?_, ?_, hd, ?_⟩
  · unfold bw_disp_fill
    rw [hinst]
    simp only []
    rw [if_pos (by omega)]
    simp only [bind, Except.bind, pure, Except.pure]
    rw [h2]
  · rw [hb2]
    simp only [hbs, List.drop_length, List.append_nil]
  · intro hcase
    rw [hd]
    unfold dirty_mark
    simp only []
    split
    · rename_i hdirty
      rcases hcase with hcl | hin
      · unfold bw_disp_is_dirty at hcl
        simp only [Bool.and_eq_false_iff, decide_eq_false_iff_not] at hcl
        exact absurd hdirty (by tauto)
      · simp only [bwd_rect_t.mk.injEq]
        refine ⟨?_, ?_, ?_, ?_⟩ <;> omega
    · rfl

theorem refresh_succeeds (tr : transport) (st : bw_disp_state) (handle : Nat)
    (inst : bw_disp_t) (h : bw_disp_get_instance st handle = some inst) (hwf : inst_wf inst)
    (hd : bw_disp_is_dirty inst = true)
    (hx : inst.dirty_rect.x + inst.dirty_rect.width ≤ inst.disp_if.width)
    (hy : inst.dirty_rect.y + inst.dirty_rect.height ≤ inst.disp_if.height)
    (htr : ∀ log c, tr log c = ESP_OK) :
    ∃ st1, bw_disp_refresh tr st handle = .ok (ESP_OK, st1) := by
  obtain ⟨r, calls, hrun, hr⟩ := refresh_dirty_run tr st handle inst h hwf hd hx hy
  have hok := transport_run_all_ok htr _ _ _ hrun
  rw [if_pos hok, hok] at hr
  exact ⟨_, hr⟩

/-- C17: on a valid handle whose display is clean (dirty width or height equal
to 0) `bw_disp_refresh` returns `ESP_OK` and the state, transport history
included, is exactly as before: no transport call is made.  Consequently,
whenever a refresh returns `ESP_OK`, on any transport and from any dirty
rectangle, a second refresh right after it returns `ESP_OK` and leaves the
state, transport history included, as the first one left it: only the first
one writes. -/
theorem refresh_clean_makes_no_call (tr : transport) (st : bw_disp_state) (handle : Nat)
    (inst : bw_disp_t) (h : bw_disp_get_instance st handle = some inst) :
    ((inst.dirty_rect.width = 0 ∨ inst.dirty_rect.height = 0) →
      bw_disp_refresh tr st handle = .ok (ESP_OK, st)) ∧
    (∀ st1, bw_disp_refresh tr st handle = .ok (ESP_OK, st1) →
      bw_disp_refresh tr st1 handle = .ok (ESP_OK, st1)) := by
  have hclean : bw_disp_is_dirty inst = false → bw_disp_refresh tr st handle = .ok (ESP_OK, st) := by
    intro hc
    unfold bw_disp_refresh
    rw [h]
    simp only []
    rw [if_pos (by simp [hc])]
    rfl
  constructor
  · intro hz
    apply hclean
    unfold bw_disp_is_dirty
    rcases hz with hz | hz <;> simp [hz]
  · intro st1 h1
    by_cases hd : bw_disp_is_dirty inst = true
    · have h2 := h1
      unfold bw_disp_refresh at h2
      rw [h] at h2
      simp only [] at h2
      rw [if_neg (by simp [hd])] at h2
      simp only [bind, Except.bind, pure, Except.pure] at h2
      split at h2
      · cases h2
      · rename_i r hloop
        have hi := refresh_loop_instances tr inst _ _ _ _ _ hloop
        split at h2
        · rename_i hne
          cases h2
          exact absurd rfl hne
        · cases h2
          have hg0 : bw_disp_get_instance r.2 handle = some inst := by
            rw [get_instance_congr hi handle]
            exact h
          have hg := get_instance_store hg0 (bw_disp_clear_dirty_rect inst)
          unfold bw_disp_refresh
          rw [hg]
          simp only []
          rw [if_pos (by simp [clear_dirty_not_dirty])]
          rfl
    · have hc : bw_disp_is_dirty inst = false := by simpa using hd
      have h0 := hclean hc
      rw [h0] at h1
      cases h1
      exact h0

/-- Witness of C17: two refreshes in a row of the freshly initialised (fully
dirty) display on a working transport. -/
theorem refresh_clean_makes_no_call_witness :
    ∃ st1, bw_disp_refresh transport_ok sh1106_state 1 = .ok (ESP_OK, st1) ∧
      bw_disp_refresh transport_ok st1 1 = .ok (ESP_OK, st1) :=
  (refresh_succeeds transport_ok sh1106_state 1 sh1106_inst sh1106_inst_valid sh1106_inst_wf
    rfl (by decide) (by decide) (fun _ _ => rfl)).elim
    (fun st1 h1 => ⟨st1, h1,
      (refresh_clean_makes_no_call transport_ok sh1106_state 1 sh1106_inst
        sh1106_inst_valid).2 st1 h1⟩)

end BwDisp
